import Mathlib

/-!
# Verification of the mini-typescript compiler core

A shallow embedding, in Lean 4, of the four pipeline stages of the
mini-typescript compiler (lexer, parser fragment, checker, emitter) together
with proofs and refutations of the specification's claims about them.

Modelling conventions, applied uniformly:

* JavaScript floating-point numbers are modelled as `Int`.  Every numeric
  value exercised by the specification, the tests and the theorems below is
  integral, and the compiler performs no arithmetic on them other than the
  enum auto-increment `value + 1`.
* JavaScript `Map<string, V>` is modelled as an association list
  `List (String × V)`; `set` overwrites in place (keeping the original
  insertion position, as JS `Map.set` does) or appends, `get` returns the
  first match, and iteration is list order, which coincides with JS `Map`
  insertion order.
* Optional boolean object fields (`optional?: boolean` and the like) are
  modelled as `Bool`, identifying `undefined` with `false`; the compiler
  only ever uses them in boolean positions, where the two are
  interchangeable.
* Methods that `throw` are modelled in `Except String`.
* Recursion over the syntax tree is made manifestly total (and hence
  kernel-computable) with an explicit fuel parameter; fuel exhaustion
  returns the state unchanged.  Wrapper functions supply fuel exceeding the
  recursion depth of their argument.  Universally quantified theorems are
  stated for every fuel value.
-/

set_option maxHeartbeats 4000000

namespace MiniTs

/-- A compiler diagnostic, from `types.ts` (`CompilerError`).  The optional
`column` and `severity` fields are never written or read by the four stages
(the checker always pushes `{ message, line }`), so they are omitted. -/
structure CompilerError where
  message : String
  line : Nat
deriving Repr, DecidableEq

/-! ## Type values (`types.ts`, checker side)

The source's `Type` tagged union.  The five variants that no stage ever
constructs or inspects (`typeAlias`, `generic`, `conditional`,
`indexedAccess`, `mapped`) are omitted; no claim concerns them, and
`isAssignable` would treat them only through its generic same-kind branch.
The `typeParameters` field of `FunctionType` is likewise never written or
read by any stage and is omitted. -/

/-- The scalar carried by a literal type: `string | number | boolean`, plus
`null`, which `resolveTypeNode` can inject from a `LiteralType` node. -/
inductive LitVal where
  | num (n : Int)
  | str (s : String)
  | bool (b : Bool)
  | null
deriving Repr, DecidableEq

mutual

/-- The checker's type values (`Type` in `types.ts`). -/
inductive Ty where
  | number
  | string
  | boolean
  | void
  | null
  | undefined
  | symbol
  | bigint
  | literal (value : LitVal)
  | array (elementType : Ty)
  | tuple (elementTypes : List Ty)
  | union (types : List Ty)
  | intersection (types : List Ty)
  | function (params : List FnParam) (returnType : Ty)
  | interface (name : String) (members : List IfaceMember)
  | «class» (name : String) (members : List ClassMemberTy)
      (staticMembers : List (String × Ty))
  | enum (name : String) (members : List (String × LitVal))
  | unknown
  | never
  | any

/-- A function-type parameter: `{ name; type; optional? }`. -/
inductive FnParam where
  | mk (name : String) (type : Ty) (optional : Bool)

/-- An interface member binding: key plus `{ type; optional?; readonly? }`. -/
inductive IfaceMember where
  | mk (name : String) (type : Ty) (optional : Bool) (readonly : Bool)

/-- A class instance-member binding: key plus
`{ type; accessibility?; static? }`. -/
inductive ClassMemberTy where
  | mk (name : String) (type : Ty) (accessibility : Option String)
      (isStatic : Bool)

end

def FnParam.name : FnParam → String
  | .mk n _ _ => n

def FnParam.type : FnParam → Ty
  | .mk _ t _ => t

def FnParam.optional : FnParam → Bool
  | .mk _ _ o => o

def IfaceMember.name : IfaceMember → String
  | .mk n _ _ _ => n

def IfaceMember.type : IfaceMember → Ty
  | .mk _ t _ _ => t

def IfaceMember.optional : IfaceMember → Bool
  | .mk _ _ o _ => o

def ClassMemberTy.name : ClassMemberTy → String
  | .mk n _ _ _ => n

def ClassMemberTy.type : ClassMemberTy → Ty
  | .mk _ t _ _ => t

/-- The `kind` discriminant string of a type value, as compared by
`isAssignable` (`source.kind === target.kind`). -/
def Ty.kind : Ty → String
  | .number => "number"
  | .string => "string"
  | .boolean => "boolean"
  | .void => "void"
  | .null => "null"
  | .undefined => "undefined"
  | .symbol => "symbol"
  | .bigint => "bigint"
  | .literal _ => "literal"
  | .array _ => "array"
  | .tuple _ => "tuple"
  | .union _ => "union"
  | .intersection _ => "intersection"
  | .function _ _ => "function"
  | .interface _ _ => "interface"
  | .«class» _ _ _ => "class"
  | .enum _ _ => "enum"
  | .unknown => "unknown"
  | .never => "never"
  | .any => "any"

/-! Constructor helpers from the bottom of `types.ts`. -/

def createNumberType : Ty := .number
def createStringType : Ty := .string
def createBooleanType : Ty := .boolean
def createVoidType : Ty := .void
def createNullType : Ty := .null
def createUndefinedType : Ty := .undefined
def createAnyType : Ty := .any
def createUnknownType : Ty := .unknown
def createNeverType : Ty := .never

def createArrayType (elementType : Ty) : Ty := .array elementType

/-- `createUnionType` (`types.ts`): wraps the argument list as-is; it performs
no flattening of union arms. -/
def createUnionType (types : List Ty) : Ty := .union types

/-- `createIntersectionType` (`types.ts`): wraps the argument list as-is. -/
def createIntersectionType (types : List Ty) : Ty := .intersection types

/-! ## Assignability (`checker.ts`, `isAssignable` and helpers)

Every function takes an explicit fuel argument and every (mutual) recursive
call consumes one unit, so the definitions are structurally recursive on the
fuel and compute inside the kernel.  Fuel `0` returns `false`; the wrapper
`isAssignable` supplies `sizeOf source + sizeOf target + 1`, which exceeds
the recursion depth because every call strictly decreases the combined size
of the scrutinised type material. -/

/-- The `types` field of a union value, as read through the source's
`(target as UnionTypeValue).types` cast; `[]` on other kinds (the source
only performs the cast under a `kind === "union"` guard). -/
def Ty.unionTypes : Ty → List Ty
  | .union ts => ts
  | _ => []

/-- `target.members.get(key)` on an interface member list: first match. -/
def ifaceGet (members : List IfaceMember) (key : String) : Option IfaceMember :=
  match members with
  | [] => none
  | m :: rest => if m.name = key then some m else ifaceGet rest key

/-- Is the carried literal value a string (`typeof value === "string"`)? -/
def LitVal.isString : LitVal → Bool
  | .str _ => true
  | _ => false

mutual

/-- `isAssignable(source, target)` from `checker.ts`, fuelled.  The branch
sequence mirrors the source exactly, including the two unreachable branches
(the `source.kind === "unknown"` test after the `target.kind === "unknown"`
early return, and the string-to-union-of-string-literals block after the
union-target early return). -/
def isAssignableFuel : Nat → Ty → Ty → Bool
  | 0, _, _ => false
  | n + 1, source, target =>
    if source.kind == "any" || target.kind == "any" then true
    else if target.kind == "unknown" then true
    else if source.kind == "unknown" then
      target.kind == "unknown" || target.kind == "any"
    else if source.kind == "never" then true
    else if source.kind == "null" || source.kind == "undefined" then
      target.kind == source.kind || target.kind == "any" ||
        target.kind == "unknown"
    else if source.kind == target.kind then
      match source, target with
      | .interface _ sMembers, .interface _ tMembers =>
          isInterfaceAssignableFuel n sMembers tMembers
      | .array sElem, .array tElem => isAssignableFuel n sElem tElem
      | .tuple sElems, .tuple tElems =>
          if sElems.length ≠ tElems.length then false
          else tupleElemsAssignableFuel n sElems tElems
      | .function sParams sRet, .function tParams tRet =>
          isFunctionAssignableFuel n sParams sRet tParams tRet
      | _, _ => true
    else if target.kind == "union" then
      someArmAcceptsFuel n source target.unionTypes
    else if source.kind == "union" then
      everyArmAssignableFuel n source.unionTypes target
    else if source.kind == "string" && target.kind == "union" &&
        target.unionTypes.all
          (fun t => t.kind == "literal" &&
            (match t with | .literal v => v.isString | _ => false)) then
      true
    else
      match source with
      | .literal (.num _) => target.kind == "number"
      | .literal (.str _) => target.kind == "string"
      | .literal (.bool _) => target.kind == "boolean"
      | _ => false

/-- The member loop of `isInterfaceAssignable`: every required member of the
target must be present in the source with an assignable type. -/
def isInterfaceAssignableFuel :
    Nat → List IfaceMember → List IfaceMember → Bool
  | 0, _, _ => false
  | _ + 1, _, [] => true
  | n + 1, sMembers, t :: rest =>
    match ifaceGet sMembers t.name with
    | none =>
        if !t.optional then false
        else isInterfaceAssignableFuel n sMembers rest
    | some s =>
        if !isAssignableFuel n s.type t.type then false
        else isInterfaceAssignableFuel n sMembers rest

/-- The pairwise element loop of the tuple case (`elementTypes.every` with
index); called only after the length equality check. -/
def tupleElemsAssignableFuel : Nat → List Ty → List Ty → Bool
  | 0, _, _ => false
  | _ + 1, [], _ => true
  | _ + 1, _ :: _, [] => false
  | n + 1, s :: ss, t :: ts =>
    if !isAssignableFuel n s t then false
    else tupleElemsAssignableFuel n ss ts

/-- `isFunctionAssignable`: return type covariant, then the source may not
have fewer parameters than the target, then parameters contravariant. -/
def isFunctionAssignableFuel :
    Nat → List FnParam → Ty → List FnParam → Ty → Bool
  | 0, _, _, _, _ => false
  | n + 1, sParams, sRet, tParams, tRet =>
    if !isAssignableFuel n sRet tRet then false
    else if sParams.length < tParams.length then false
    else paramsContravariantFuel n tParams sParams

/-- The parameter loop of `isFunctionAssignable`:
`isAssignable(target.params[i].type, source.params[i].type)` for every
target index.  The source-list-exhausted case is unreachable (the length
check has already passed). -/
def paramsContravariantFuel : Nat → List FnParam → List FnParam → Bool
  | 0, _, _ => false
  | _ + 1, [], _ => true
  | _ + 1, _ :: _, [] => false
  | n + 1, t :: ts, s :: ss =>
    if !isAssignableFuel n t.type s.type then false
    else paramsContravariantFuel n ts ss

/-- `(target as UnionTypeValue).types.some((t) => isAssignable(source, t))`. -/
def someArmAcceptsFuel : Nat → Ty → List Ty → Bool
  | 0, _, _ => false
  | _ + 1, _, [] => false
  | n + 1, source, t :: ts =>
    if isAssignableFuel n source t then true
    else someArmAcceptsFuel n source ts

/-- `(source as UnionTypeValue).types.every((t) => isAssignable(t, target))`. -/
def everyArmAssignableFuel : Nat → List Ty → Ty → Bool
  | 0, _, _ => false
  | _ + 1, [], _ => true
  | n + 1, s :: ss, target =>
    if !isAssignableFuel n s target then false
    else everyArmAssignableFuel n ss target

end

mutual

/-- A size measure on type values used only to pick sufficient fuel: every
recursive call of the assignability functions strictly decreases the summed
size of the scrutinised material, so `size source + size target + 1` fuel
can never run out.  (`class` and `enum` members are never recursed into by
assignability, so they count as leaves.) -/
def Ty.size : Ty → Nat
  | .array e => 1 + e.size
  | .tuple ts => 1 + sizeTyList ts
  | .union ts => 1 + sizeTyList ts
  | .intersection ts => 1 + sizeTyList ts
  | .function ps r => 1 + sizeFnParams ps + r.size
  | .interface _ ms => 1 + sizeIfaceMembers ms
  | _ => 1

def sizeTyList : List Ty → Nat
  | [] => 0
  | t :: ts => 1 + t.size + sizeTyList ts

def FnParam.size : FnParam → Nat
  | .mk _ t _ => 1 + t.size

def sizeFnParams : List FnParam → Nat
  | [] => 0
  | p :: ps => 1 + p.size + sizeFnParams ps

def IfaceMember.size : IfaceMember → Nat
  | .mk _ t _ _ => 1 + t.size

def sizeIfaceMembers : List IfaceMember → Nat
  | [] => 0
  | m :: ms => 1 + m.size + sizeIfaceMembers ms

end

/-- `isAssignable(source, target)`: wrapper supplying sufficient fuel. -/
def isAssignable (source target : Ty) : Bool :=
  isAssignableFuel (source.size + target.size + 1) source target

/-! ## Syntax tree (`types.ts`, AST side)

The tagged sums `Statement`, `Expression`, `TypeNode` and their satellite
record types, as one mutual inductive family.  Naming deviations (all
mechanical): the TS field `typeAnnotation` is rendered `typeAnn`, the
boolean `prefix` flag of unary/update expressions is rendered `pfx`, the TS
`extends` clause field is `extendsClause`, import/export specifier `local`
is `localName`, and the `default` field of type-parameter declarations is
`dflt`.  TS optional list fields (`decorators?`, `typeParameters?`,
`extends?`, `typeArguments?`) are modelled as plain lists (absent =
empty); the compiler only ever iterates them.  `MappedType`'s unused
modifier fields and `TaggedTemplateExpression.quasi`'s refinement to
`TemplateLiteralExpr` are not reproduced (no stage reads them beyond what is
modelled). -/

/-- Import specifier (`ImportDefaultSpecifier | ImportNamespaceSpecifier |
ImportNamedSpecifier`). -/
inductive ImportSpecNode where
  | defaultSpec (localName : String)
  | namespaceSpec (localName : String)
  | namedSpec (imported : String) (localName : String) (isTypeOnly : Bool)
deriving Repr, DecidableEq

/-- Export specifier: `{ local, exported, isTypeOnly? }`. -/
structure ExportSpecNode where
  localName : String
  exported : String
  isTypeOnly : Bool
deriving Repr, DecidableEq

/-- The scalar of a `LiteralType` node: `string | number | boolean | null`. -/
inductive LitNodeVal where
  | num (n : Int)
  | str (s : String)
  | bool (b : Bool)
  | null
deriving Repr, DecidableEq

mutual

/-- `Statement` from `types.ts`. -/
inductive Stmt where
  | variableDeclaration (name : String) (varKind : String)
      (typeAnn : Option TypeNode) (initializer : Option Expr) (line : Nat)
  | functionDeclaration (name : String) (parameters : List Param)
      (returnType : Option TypeNode) (body : BlockStmt)
      (isAsync isGenerator : Bool) (typeParameters : List TypeParamDecl)
      (line : Nat)
  | interfaceDeclaration (name : String) (members : List InterfaceMemberNode)
      (extendsClause : List TypeNode) (typeParameters : List TypeParamDecl)
      (line : Nat)
  | typeAliasDeclaration (name : String)
      (typeParameters : List TypeParamDecl) (type : TypeNode) (line : Nat)
  | classDeclaration (name : String) (superClass : Option Expr)
      (implementsClause : List TypeNode)
      (typeParameters : List TypeParamDecl) (members : List ClassMemberNode)
      (decorators : List DecoratorNode) (isAbstract : Bool) (line : Nat)
  | enumDeclaration (name : String) (members : List EnumMemberNode)
      (isConst : Bool) (line : Nat)
  | returnStatement (argument : Option Expr) (line : Nat)
  | ifStatement (condition : Expr) (consequent : Stmt)
      (alternate : Option Stmt) (line : Nat)
  | whileStatement (condition : Expr) (body : Stmt) (line : Nat)
  | forStatement (init : Option ForInit) (condition : Option Expr)
      (update : Option Expr) (body : Stmt) (line : Nat)
  | forOfStatement («variable» : ForVar) (iterable : Expr) (body : Stmt)
      (isAwait : Bool) (line : Nat)
  | forInStatement («variable» : ForVar) (object : Expr) (body : Stmt)
      (line : Nat)
  | doWhileStatement (body : Stmt) (condition : Expr) (line : Nat)
  | switchStatement (discriminant : Expr) (cases : List SwitchCaseNode)
      (line : Nat)
  | breakStatement (label : Option String) (line : Nat)
  | continueStatement (label : Option String) (line : Nat)
  | throwStatement (argument : Expr) (line : Nat)
  | tryStatement (block : BlockStmt) (handler : Option CatchClauseNode)
      (finalizer : Option BlockStmt) (line : Nat)
  | expressionStatement (expression : Expr) (line : Nat)
  | blockStatement (block : BlockStmt)
  | importDeclaration (specifiers : List ImportSpecNode) (source : String)
      (isTypeOnly : Bool) (line : Nat)
  | exportDeclaration (declaration : Option Stmt)
      (specifiers : Option (List ExportSpecNode)) (source : Option String)
      (isDefault : Bool) (isTypeOnly : Bool) (line : Nat)
  | emptyStatement (line : Nat)

/-- `BlockStatement`. -/
inductive BlockStmt where
  | mk (statements : List Stmt) (line : Nat)

/-- `ForStatement.init`: `VariableDeclaration | Expression` (the checker and
emitter discriminate on `kind === "VariableDeclaration"`). -/
inductive ForInit where
  | declInit (name : String) (varKind : String) (typeAnn : Option TypeNode)
      (initializer : Option Expr) (line : Nat)
  | exprInit (e : Expr)

/-- `ForOfStatement.variable` / `ForInStatement.variable`:
`VariableDeclaration | Identifier`. -/
inductive ForVar where
  | declVar (name : String) (varKind : String) (typeAnn : Option TypeNode)
      (initializer : Option Expr) (line : Nat)
  | identVar (name : String) (line : Nat)

/-- `Expression` from `types.ts`.  `ArrayLiteral` elements are
`Option Expr` (`null` marks a hole; `SpreadElement` is itself an
`Expression` variant). -/
inductive Expr where
  | binaryExpression (operator : String) (left right : Expr) (line : Nat)
  | unaryExpression (operator : String) (operand : Expr) (pfx : Bool)
      (line : Nat)
  | updateExpression (operator : String) (argument : Expr) (pfx : Bool)
      (line : Nat)
  | callExpression (callee : Expr) (arguments : List Expr)
      (typeArguments : List TypeNode) (optional : Bool) (line : Nat)
  | memberExpression (object : Expr) (property : String) (optional : Bool)
      (line : Nat)
  | computedMemberExpression (object : Expr) (property : Expr)
      (optional : Bool) (line : Nat)
  | identifier (name : String) (line : Nat)
  | numericLiteral (value : Int) (line : Nat)
  | stringLiteral (value : String) (line : Nat)
  | booleanLiteral (value : Bool) (line : Nat)
  | nullLiteral (line : Nat)
  | undefinedLiteral (line : Nat)
  | objectLiteral (properties : List ObjectPropNode) (line : Nat)
  | arrayLiteral (elements : List (Option Expr)) (line : Nat)
  | arrowFunction (parameters : List Param) (returnType : Option TypeNode)
      (body : ArrowBody) (isAsync : Bool)
      (typeParameters : List TypeParamDecl) (line : Nat)
  | functionExpression (name : Option String) (parameters : List Param)
      (returnType : Option TypeNode) (body : BlockStmt)
      (isAsync isGenerator : Bool) (typeParameters : List TypeParamDecl)
      (line : Nat)
  | conditionalExpression (condition consequent alternate : Expr)
      (line : Nat)
  | assignmentExpression (operator : String) (left right : Expr)
      (line : Nat)
  | logicalExpression (operator : String) (left right : Expr) (line : Nat)
  | newExpression (callee : Expr) (arguments : List Expr)
      (typeArguments : List TypeNode) (line : Nat)
  | thisExpression (line : Nat)
  | superExpression (line : Nat)
  | spreadElement (argument : Expr) (line : Nat)
  | awaitExpression (argument : Expr) (line : Nat)
  | yieldExpression (argument : Option Expr) (delegate : Bool) (line : Nat)
  | templateLiteralExpr (quasis : List String) (expressions : List Expr)
      (line : Nat)
  | taggedTemplateExpression (tag : Expr) (quasi : Expr) (line : Nat)
  | typeAssertion (typeAnn : TypeNode) (expression : Expr) (line : Nat)
  | asExpression (expression : Expr) (typeAnn : TypeNode) (line : Nat)
  | nonNullExpression (expression : Expr) (line : Nat)
  | classExpression (name : Option String) (superClass : Option Expr)
      (implementsClause : List TypeNode) (members : List ClassMemberNode)
      (line : Nat)
  | parenthesizedExpression (expression : Expr) (line : Nat)

/-- `ObjectProperty`: `{ key: string | Expression; value; computed?;
shorthand?; method? }`. -/
inductive ObjectPropNode where
  | mk (key : PropKey) (value : Expr) (computed shorthand method : Bool)

/-- An object-property key: `string | Expression`. -/
inductive PropKey where
  | str (s : String)
  | expr (e : Expr)

/-- `ArrowFunction.body`: `Expression | BlockStatement`. -/
inductive ArrowBody where
  | expr (e : Expr)
  | block (b : BlockStmt)

/-- `TypeNode` from `types.ts`. -/
inductive TypeNode where
  | typeReference (typeName : String) (typeArguments : List TypeNode)
      (line : Nat)
  | arrayType (elementType : TypeNode) (line : Nat)
  | tupleType (elementTypes : List TypeNode) (line : Nat)
  | unionType (types : List TypeNode) (line : Nat)
  | intersectionType (types : List TypeNode) (line : Nat)
  | functionTypeNode (parameters : List Param) (returnType : TypeNode)
      (typeParameters : List TypeParamDecl) (line : Nat)
  | objectTypeNode (members : List TypeMemberNode) (line : Nat)
  | literalType (value : LitNodeVal) (line : Nat)
  | conditionalType (checkType extendsType trueType falseType : TypeNode)
      (line : Nat)
  | indexedAccessType (objectType indexType : TypeNode) (line : Nat)
  | mappedType (typeParameter : TypeParamDecl) (type : TypeNode)
      (line : Nat)
  | typeQuery (exprName : String) (line : Nat)
  | parenthesizedType (type : TypeNode) (line : Nat)
  | optionalType (type : TypeNode) (line : Nat)
  | restType (type : TypeNode) (line : Nat)
  | inferType (typeParameter : TypeParamDecl) (line : Nat)

/-- `Parameter`: `{ name; typeAnnotation?; optional?; defaultValue?;
rest? }`. -/
inductive Param where
  | mk (name : String) (typeAnn : Option TypeNode) (optional : Bool)
      (defaultValue : Option Expr) (rest : Bool)

/-- `TypeParameterDeclaration`: `{ name; constraint?; default? }`. -/
inductive TypeParamDecl where
  | mk (name : String) (constraint : Option TypeNode)
      (dflt : Option TypeNode)

/-- `InterfaceMember`: `{ name; typeAnnotation; optional?; readonly? }`. -/
inductive InterfaceMemberNode where
  | mk (name : String) (typeAnn : TypeNode) (optional : Bool)
      (readonly : Bool)

/-- `TypeMember` of an object type: `{ name?; typeAnnotation; optional?;
readonly?; isIndex?; indexType? }`. -/
inductive TypeMemberNode where
  | mk (name : Option String) (typeAnn : TypeNode) (optional : Bool)
      (readonly : Bool) (isIndex : Bool) (indexType : Option TypeNode)

/-- `ClassMember` from `types.ts`. -/
inductive ClassMemberNode where
  | propertyDeclaration (name : String) (typeAnn : Option TypeNode)
      (initializer : Option Expr) (accessibility : Option String)
      (isStatic isReadonly isAbstract : Bool)
      (decorators : List DecoratorNode) (line : Nat)
  | methodDeclaration (name : String) (parameters : List Param)
      (returnType : Option TypeNode) (body : Option BlockStmt)
      (accessibility : Option String) (isStatic isAbstract isAsync : Bool)
      (typeParameters : List TypeParamDecl)
      (decorators : List DecoratorNode) (line : Nat)
  | constructorDeclaration (parameters : List Param) (body : BlockStmt)
      (accessibility : Option String) (line : Nat)
  | getterDeclaration (name : String) (returnType : Option TypeNode)
      (body : BlockStmt) (accessibility : Option String) (isStatic : Bool)
      (line : Nat)
  | setterDeclaration (name : String) (parameter : Param) (body : BlockStmt)
      (accessibility : Option String) (isStatic : Bool) (line : Nat)

/-- `Decorator`: `{ expression; line }`. -/
inductive DecoratorNode where
  | mk (expression : Expr) (line : Nat)

/-- `EnumMember`: `{ name; initializer? }`. -/
inductive EnumMemberNode where
  | mk (name : String) (initializer : Option Expr)

/-- `SwitchCase`: `{ test?; consequent }`. -/
inductive SwitchCaseNode where
  | mk (test : Option Expr) (consequent : List Stmt)

/-- `CatchClause`: `{ param?; body }`. -/
inductive CatchClauseNode where
  | mk (param : Option Param) (body : BlockStmt)

end

/-- `Program`: a root node holding the top-level statements. -/
structure Program where
  statements : List Stmt

def BlockStmt.statements : BlockStmt → List Stmt
  | .mk ss _ => ss

def Param.name : Param → String
  | .mk n _ _ _ _ => n

def Param.typeAnn : Param → Option TypeNode
  | .mk _ t _ _ _ => t

def Param.optional : Param → Bool
  | .mk _ _ o _ _ => o

def Param.defaultValue : Param → Option Expr
  | .mk _ _ _ d _ => d

def Param.rest : Param → Bool
  | .mk _ _ _ _ r => r

def EnumMemberNode.name : EnumMemberNode → String
  | .mk n _ => n

def EnumMemberNode.initializer : EnumMemberNode → Option Expr
  | .mk _ i => i

/-! ## Lexer (`lexer.ts`)

A faithful embedding of the `Lexer` class.  The state carries the fixed
source (as a character list), the cursor, the line/column counters and the
token list accumulated so far (JS `push` appends at the end; the template
scanner also reads and pops the last token, so the list is kept in push
order).  Thrown `Error`s become `Except.error` with the same message text.
Loops are fuelled; every loop iteration consumes at least one source
character, and each loop entry computes fresh fuel from the remaining
length, so fuel never runs out.  Out-of-range character reads (`source[pos]`
is `undefined` in JS) are modelled as the NUL character `'\x00'`, exactly as
the source's own `peek`/`peekNext` fallbacks do; `advance` past the end,
which would propagate `undefined`, can only occur inside string-escape
scanning at end-of-input and is not exercised by any settled claim. -/

/-- `TokenType` from `types.ts`. -/
inductive TokType where
  | Let | Const | Var | Function | Interface | Type | Return | If | Else
  | While | For | Do | Break | Continue | Switch | Case | Default | Throw
  | Try | Catch | Finally | New | This | Class | Extends | Implements
  | Public | Private | Protected | Static | Readonly | Abstract | Get | Set
  | Constructor | Super | Import | Export | From | As | Async | Await
  | Yield | Enum | Namespace | Module | Declare | Typeof | Keyof | Infer
  | In | Of | Instanceof | Delete
  | NumberType | StringType | BooleanType | Void | Null | Undefined | Any
  | Unknown | Never | Object | Symbol | Bigint
  | Identifier | NumberLiteral | StringLiteral | TemplateLiteral
  | TemplateHead | TemplateMiddle | TemplateTail | RegexLiteral | True
  | False
  | Plus | Minus | Star | Slash | Percent | StarStar | PlusPlus
  | MinusMinus | Equals | PlusEquals | MinusEquals | StarEquals
  | SlashEquals | PercentEquals | EqualsEquals | EqualsEqualsEquals
  | BangEquals | BangEqualsEquals | LessThan | GreaterThan | LessThanEquals
  | GreaterThanEquals | Bang | Ampersand | AmpersandAmpersand | Pipe
  | PipePipe | Caret | Tilde | LessThanLessThan | GreaterThanGreaterThan
  | GreaterThanGreaterThanGreaterThan | Question | QuestionDot
  | QuestionQuestion | Arrow | Spread
  | LeftParen | RightParen | LeftBrace | RightBrace | LeftBracket
  | RightBracket | Colon | Semicolon | Comma | Dot | At
  | EOF
deriving Repr, DecidableEq, BEq

/-- `Token`: `{ type, value, line, column }`. -/
structure Token where
  type : TokType
  value : String
  line : Nat
  column : Nat
deriving Repr, DecidableEq

/-- The `KEYWORDS` table of `lexer.ts` (`KEYWORDS[value] ?? Identifier` is
`(keywords v).getD .Identifier`). -/
def keywords (v : String) : Option TokType :=
  if v = "let" then some .Let
  else if v = "const" then some .Const
  else if v = "var" then some .Var
  else if v = "function" then some .Function
  else if v = "return" then some .Return
  else if v = "async" then some .Async
  else if v = "await" then some .Await
  else if v = "yield" then some .Yield
  else if v = "if" then some .If
  else if v = "else" then some .Else
  else if v = "while" then some .While
  else if v = "for" then some .For
  else if v = "do" then some .Do
  else if v = "break" then some .Break
  else if v = "continue" then some .Continue
  else if v = "switch" then some .Switch
  else if v = "case" then some .Case
  else if v = "default" then some .Default
  else if v = "throw" then some .Throw
  else if v = "try" then some .Try
  else if v = "catch" then some .Catch
  else if v = "finally" then some .Finally
  else if v = "class" then some .Class
  else if v = "extends" then some .Extends
  else if v = "implements" then some .Implements
  else if v = "new" then some .New
  else if v = "this" then some .This
  else if v = "super" then some .Super
  else if v = "constructor" then some .Constructor
  else if v = "public" then some .Public
  else if v = "private" then some .Private
  else if v = "protected" then some .Protected
  else if v = "static" then some .Static
  else if v = "readonly" then some .Readonly
  else if v = "abstract" then some .Abstract
  else if v = "get" then some .Get
  else if v = "set" then some .Set
  else if v = "interface" then some .Interface
  else if v = "type" then some .Type
  else if v = "enum" then some .Enum
  else if v = "namespace" then some .Namespace
  else if v = "module" then some .Module
  else if v = "declare" then some .Declare
  else if v = "number" then some .NumberType
  else if v = "string" then some .StringType
  else if v = "boolean" then some .BooleanType
  else if v = "void" then some .Void
  else if v = "null" then some .Null
  else if v = "undefined" then some .Undefined
  else if v = "any" then some .Any
  else if v = "unknown" then some .Unknown
  else if v = "never" then some .Never
  else if v = "object" then some .Object
  else if v = "symbol" then some .Symbol
  else if v = "bigint" then some .Bigint
  else if v = "true" then some .True
  else if v = "false" then some .False
  else if v = "typeof" then some .Typeof
  else if v = "keyof" then some .Keyof
  else if v = "infer" then some .Infer
  else if v = "in" then some .In
  else if v = "of" then some .Of
  else if v = "instanceof" then some .Instanceof
  else if v = "delete" then some .Delete
  else if v = "as" then some .As
  else if v = "import" then some .Import
  else if v = "export" then some .Export
  else if v = "from" then some .From
  else none

/-- The mutable fields of the `Lexer` class plus its fixed source. -/
structure LexState where
  src : List Char
  pos : Nat
  line : Nat
  column : Nat
  tokens : List Token
deriving Repr, DecidableEq

namespace Lexer

def isAtEnd (st : LexState) : Bool := st.src.length ≤ st.pos

/-- `this.source[this.pos] || "\0"`. -/
def peek (st : LexState) : Char := st.src.getD st.pos '\x00'

/-- `this.source[this.pos + 1] || "\0"`. -/
def peekNext (st : LexState) : Char := st.src.getD (st.pos + 1) '\x00'

/-- `advance()`: returns `source[pos]` (NUL past the end, see above) and
bumps `pos` and `column`. -/
def advance (st : LexState) : Char × LexState :=
  (st.src.getD st.pos '\x00',
   { st with pos := st.pos + 1, column := st.column + 1 })

/-- `match(expected)` (rendered `matchChar`: `match` is reserved in Lean). -/
def matchChar (expected : Char) (st : LexState) : Bool × LexState :=
  if isAtEnd st then (false, st)
  else if peek st ≠ expected then (false, st)
  else (true, (advance st).2)

def isAlpha (c : Char) : Bool :=
  ('a' ≤ c && c ≤ 'z') || ('A' ≤ c && c ≤ 'Z') || c == '_' || c == '$'

def isDigit (c : Char) : Bool := '0' ≤ c && c ≤ '9'

def isHexDigit (c : Char) : Bool :=
  isDigit c || ('a' ≤ c && c ≤ 'f') || ('A' ≤ c && c ≤ 'F')

def isOctalDigit (c : Char) : Bool := '0' ≤ c && c ≤ '7'

def isAlphaNumeric (c : Char) : Bool := isAlpha c || isDigit c

/-- Push a token (JS `this.tokens.push`). -/
def pushTok (t : TokType) (v : String) (line column : Nat)
    (st : LexState) : LexState :=
  { st with tokens := st.tokens ++ [⟨t, v, line, column⟩] }

/-- Remaining-characters bound used as fresh fuel at each loop entry. -/
def remFuel (st : LexState) : Nat := st.src.length - st.pos + 1

/-- The `//` inner loop of `skipWhitespaceAndComments`. -/
def skipLineComment : Nat → LexState → LexState
  | 0, st => st
  | fuel + 1, st =>
    if !isAtEnd st && peek st ≠ '\n' then
      skipLineComment fuel (advance st).2
    else st

/-- The `/*` inner loop of `skipWhitespaceAndComments` (up to but not
including the closing `*/`); embedded newlines bump `line` and zero
`column`. -/
def skipBlockCommentLoop : Nat → LexState → LexState
  | 0, st => st
  | fuel + 1, st =>
    if !isAtEnd st && !(peek st == '*' && peekNext st == '/') then
      let st :=
        if peek st == '\n' then { st with line := st.line + 1, column := 0 }
        else st
      skipBlockCommentLoop fuel (advance st).2
    else st

/-- `skipWhitespaceAndComments`.  Note the unterminated-block-comment case:
when the `/*` loop reaches end-of-input, the trailing `if (!this.isAtEnd())`
guard simply skips the two closing advances and the outer loop exits —
no error is raised. -/
def skipWhitespaceAndComments : Nat → LexState → LexState
  | 0, st => st
  | fuel + 1, st =>
    if isAtEnd st then st
    else
      let c := peek st
      if c == ' ' || c == '\t' || c == '\r' then
        skipWhitespaceAndComments fuel (advance st).2
      else if c == '\n' then
        skipWhitespaceAndComments fuel
          { (advance st).2 with line := st.line + 1, column := 1 }
      else if c == '/' && peekNext st == '/' then
        skipWhitespaceAndComments fuel (skipLineComment (remFuel st) st)
      else if c == '/' && peekNext st == '*' then
        let st1 := (advance (advance st).2).2
        let st2 := skipBlockCommentLoop (remFuel st1) st1
        let st3 :=
          if !isAtEnd st2 then (advance (advance st2).2).2 else st2
        skipWhitespaceAndComments fuel st3
      else st

/-- The accumulation loop of `scanIdentifier`. -/
def scanIdentLoop : Nat → LexState → String → String × LexState
  | 0, st, acc => (acc, st)
  | fuel + 1, st, acc =>
    if !isAtEnd st && isAlphaNumeric (peek st) then
      let (c, st') := advance st
      scanIdentLoop fuel st' (acc.push c)
    else (acc, st)

/-- `scanIdentifier`. -/
def scanIdentifier (st : LexState) : LexState :=
  let startColumn := st.column
  let (value, st') := scanIdentLoop (remFuel st) st ""
  pushTok ((keywords value).getD .Identifier) value st'.line startColumn st'

/-- Digit-accumulation loop parameterised by the digit predicate. -/
def scanDigitsLoop (good : Char → Bool) :
    Nat → LexState → String → String × LexState
  | 0, st, acc => (acc, st)
  | fuel + 1, st, acc =>
    if !isAtEnd st && good (peek st) then
      let (c, st') := advance st
      scanDigitsLoop good fuel st' (acc.push c)
    else (acc, st)

/-- `addNumberToken`. -/
def addNumberToken (value : String) (startColumn : Nat)
    (st : LexState) : LexState :=
  pushTok .NumberLiteral value st.line startColumn st

/-- `scanNumber`: hex/binary/octal prefixes, decimal with fraction,
exponent, and a trailing `n` for bigint. -/
def scanNumber (st : LexState) : LexState :=
  let startColumn := st.column
  if peek st == '0' && !isAtEnd st &&
      ((peekNext st).toLower == 'x' || (peekNext st).toLower == 'b' ||
        (peekNext st).toLower == 'o') then
    let next := (peekNext st).toLower
    let (c0, st1) := advance st
    let (c1, st2) := advance st1
    let pre := (("".push c0).push c1)
    let good :=
      if next == 'x' then isHexDigit
      else if next == 'b' then fun c => c == '0' || c == '1'
      else isOctalDigit
    let (value, st3) := scanDigitsLoop good (remFuel st2) st2 pre
    addNumberToken value startColumn st3
  else
    let (value, st1) := scanDigitsLoop isDigit (remFuel st) st ""
    let (value, st2) :=
      if peek st1 == '.' && isDigit (peekNext st1) then
        let (c, st') := advance st1
        scanDigitsLoop isDigit (remFuel st') st' (value.push c)
      else (value, st1)
    let (value, st3) :=
      if (peek st2).toLower == 'e' then
        let (c, st') := advance st2
        let (value, st') :=
          if peek st' == '+' || peek st' == '-' then
            let (c', st'') := advance st'
            ((value.push c).push c', st'')
          else (value.push c, st')
        scanDigitsLoop isDigit (remFuel st') st' value
      else (value, st2)
    let (value, st4) :=
      if peek st3 == 'n' then
        let (c, st') := advance st3
        (value.push c, st')
      else (value, st3)
    addNumberToken value startColumn st4

/-- Longest-valid-prefix hexadecimal parse (`parseInt(str, 16)`); `none`
models `NaN`. -/
def parseHexPrefix (cs : List Char) (acc : Option Nat) : Option Nat :=
  match cs with
  | [] => acc
  | c :: rest =>
    if isHexDigit c then
      let d :=
        if isDigit c then c.toNat - '0'.toNat
        else if 'a' ≤ c && c ≤ 'f' then c.toNat - 'a'.toNat + 10
        else c.toNat - 'A'.toNat + 10
      parseHexPrefix rest (some ((acc.getD 0) * 16 + d))
    else acc

/-- `String.fromCodePoint(parseInt(unicode, 16))`, modelled as `Char.ofNat`
(NUL when the JS runtime would throw a `RangeError`; no settled claim
exercises unicode escapes). -/
def fromCodePoint (u : String) : Char :=
  match parseHexPrefix u.toList none with
  | none => '\x00'
  | some n => Char.ofNat n

/-- The `u{…}` accumulation loop inside a string escape. -/
def scanUnicodeBraceLoop : Nat → LexState → String → String × LexState
  | 0, st, acc => (acc, st)
  | fuel + 1, st, acc =>
    if !isAtEnd st && peek st ≠ '\x7d' then
      let (c, st') := advance st
      scanUnicodeBraceLoop fuel st' (acc.push c)
    else (acc, st)

/-- The body loop of `scanString` (everything between the quotes). -/
def scanStringLoop (quote : Char) :
    Nat → LexState → String → Except String (String × LexState)
  | 0, st, acc => .ok (acc, st)
  | fuel + 1, st, acc =>
    if !isAtEnd st && peek st ≠ quote then
      if peek st == '\\' then
        let st1 := (advance st).2
        let (escaped, st2) := advance st1
        if escaped == 'n' then scanStringLoop quote fuel st2 (acc.push '\n')
        else if escaped == 't' then
          scanStringLoop quote fuel st2 (acc.push '\t')
        else if escaped == 'r' then
          scanStringLoop quote fuel st2 (acc.push '\r')
        else if escaped == '\\' then
          scanStringLoop quote fuel st2 (acc.push '\\')
        else if escaped == '"' then
          scanStringLoop quote fuel st2 (acc.push '"')
        else if escaped == '\'' then
          scanStringLoop quote fuel st2 (acc.push '\'')
        else if escaped == '0' then
          scanStringLoop quote fuel st2 (acc.push '\x00')
        else if escaped == 'u' then
          if peek st2 == '\x7b' then
            let st3 := (advance st2).2
            let (unicode, st4) := scanUnicodeBraceLoop (remFuel st3) st3 ""
            let st5 := (advance st4).2
            scanStringLoop quote fuel st5 (acc.push (fromCodePoint unicode))
          else
            let (c1, s1) := advance st2
            let (c2, s2) := advance s1
            let (c3, s3) := advance s2
            let (c4, s4) := advance s3
            let unicode := (((("".push c1).push c2).push c3).push c4)
            scanStringLoop quote fuel s4 (acc.push (fromCodePoint unicode))
        else scanStringLoop quote fuel st2 (acc.push escaped)
      else if peek st == '\n' then
        .error ("Unterminated string at line " ++ toString st.line)
      else
        let (c, st') := advance st
        scanStringLoop quote fuel st' (acc.push c)
    else .ok (acc, st)

/-- `scanString`. -/
def scanString (quote : Char) (st : LexState) : Except String LexState :=
  let startColumn := st.column
  let st1 := (advance st).2
  match scanStringLoop quote (remFuel st1) st1 "" with
  | .error e => .error e
  | .ok (value, st2) =>
    if isAtEnd st2 then
      .error ("Unterminated string at line " ++ toString st2.line)
    else
      let st3 := (advance st2).2
      .ok (pushTok .StringLiteral value st3.line startColumn st3)

/-- `scanOperatorOrPunctuation`: the maximal-munch operator table. -/
def scanOperatorOrPunctuation (st : LexState) : Except String LexState :=
  let startColumn := st.column
  let (c, st) := advance st
  let push (t : TokType) (v : String) (st : LexState) :
      Except String LexState :=
    .ok (pushTok t v st.line startColumn st)
  if c == '+' then
    let (m, st) := matchChar '+' st
    if m then push .PlusPlus "++" st
    else
      let (m, st) := matchChar '=' st
      if m then push .PlusEquals "+=" st else push .Plus "+" st
  else if c == '-' then
    let (m, st) := matchChar '-' st
    if m then push .MinusMinus "--" st
    else
      let (m, st) := matchChar '=' st
      if m then push .MinusEquals "-=" st else push .Minus "-" st
  else if c == '*' then
    let (m, st) := matchChar '*' st
    if m then push .StarStar "**" st
    else
      let (m, st) := matchChar '=' st
      if m then push .StarEquals "*=" st else push .Star "*" st
  else if c == '/' then
    let (m, st) := matchChar '=' st
    if m then push .SlashEquals "/=" st else push .Slash "/" st
  else if c == '%' then
    let (m, st) := matchChar '=' st
    if m then push .PercentEquals "%=" st else push .Percent "%" st
  else if c == '(' then push .LeftParen "(" st
  else if c == ')' then push .RightParen ")" st
  else if c == '\x7b' then push .LeftBrace "\x7b" st
  else if c == '\x7d' then push .RightBrace "\x7d" st
  else if c == '[' then push .LeftBracket "[" st
  else if c == ']' then push .RightBracket "]" st
  else if c == ':' then push .Colon ":" st
  else if c == ';' then push .Semicolon ";" st
  else if c == ',' then push .Comma "," st
  else if c == '@' then push .At "@" st
  else if c == '.' then
    let (m, st) := matchChar '.' st
    if m then
      let (m2, st) := matchChar '.' st
      if m2 then push .Spread "..." st
      else
        .error ("Unexpected token '..' at line " ++ toString st.line ++
          ", column " ++ toString startColumn)
    else push .Dot "." st
  else if c == '=' then
    let (m, st) := matchChar '=' st
    if m then
      let (m2, st) := matchChar '=' st
      if m2 then push .EqualsEqualsEquals "===" st
      else push .EqualsEquals "==" st
    else
      let (m, st) := matchChar '>' st
      if m then push .Arrow "=>" st else push .Equals "=" st
  else if c == '!' then
    let (m, st) := matchChar '=' st
    if m then
      let (m2, st) := matchChar '=' st
      if m2 then push .BangEqualsEquals "!==" st
      else push .BangEquals "!=" st
    else push .Bang "!" st
  else if c == '<' then
    let (m, st) := matchChar '=' st
    if m then push .LessThanEquals "<=" st
    else
      let (m, st) := matchChar '<' st
      if m then push .LessThanLessThan "<<" st else push .LessThan "<" st
  else if c == '>' then
    let (m, st) := matchChar '=' st
    if m then push .GreaterThanEquals ">=" st
    else
      let (m, st) := matchChar '>' st
      if m then
        let (m2, st) := matchChar '>' st
        if m2 then push .GreaterThanGreaterThanGreaterThan ">>>" st
        else push .GreaterThanGreaterThan ">>" st
      else push .GreaterThan ">" st
  else if c == '&' then
    let (m, st) := matchChar '&' st
    if m then push .AmpersandAmpersand "&&" st else push .Ampersand "&" st
  else if c == '|' then
    let (m, st) := matchChar '|' st
    if m then push .PipePipe "||" st else push .Pipe "|" st
  else if c == '^' then push .Caret "^" st
  else if c == '~' then push .Tilde "~" st
  else if c == '?' then
    let (m, st) := matchChar '.' st
    if m then push .QuestionDot "?." st
    else
      let (m, st) := matchChar '?' st
      if m then push .QuestionQuestion "??" st else push .Question "?" st
  else
    .error ("Unexpected character '" ++ String.singleton c ++ "' at line " ++
      toString st.line ++ ", column " ++ toString startColumn)

mutual

/-- `scanToken`: skip trivia, then dispatch on the next character. -/
def scanToken : Nat → LexState → Except String LexState
  | 0, st => .ok st
  | fuel + 1, st =>
    let st := skipWhitespaceAndComments (remFuel st) st
    if isAtEnd st then .ok st
    else
      let c := peek st
      if isAlpha c then .ok (scanIdentifier st)
      else if isDigit c then .ok (scanNumber st)
      else if c == '"' || c == '\'' then scanString c st
      else if c == '`' then
        let startColumn := st.column
        let st1 := (advance st).2
        scanTemplateLiteralLoop fuel st1 startColumn ""
      else scanOperatorOrPunctuation st

/-- The body loop of `scanTemplateLiteral` (after the opening backtick). -/
def scanTemplateLiteralLoop :
    Nat → LexState → Nat → String → Except String LexState
  | 0, st, _, _ => .ok st
  | fuel + 1, st, startColumn, value =>
    if !isAtEnd st then
      if peek st == '`' then
        let st1 := (advance st).2
        .ok (pushTok .TemplateLiteral value st1.line startColumn st1)
      else if peek st == '$' && peekNext st == '\x7b' then
        let st1 := pushTok .TemplateHead value st.line startColumn st
        let st2 := (advance (advance st1).2).2
        scanTemplateExpression fuel 1 st2
      else if peek st == '\\' then
        let st1 := (advance st).2
        let (escaped, st2) := advance st1
        let value :=
          if escaped == 'n' then value.push '\n'
          else if escaped == 't' then value.push '\t'
          else if escaped == '`' then value.push '`'
          else if escaped == '$' then value.push '$'
          else if escaped == '\\' then value.push '\\'
          else value.push escaped
        scanTemplateLiteralLoop fuel st2 startColumn value
      else if peek st == '\n' then
        let (c, st1) := advance st
        scanTemplateLiteralLoop fuel
          { st1 with line := st1.line + 1, column := 1 } startColumn
          (value.push c)
      else
        let (c, st1) := advance st
        scanTemplateLiteralLoop fuel st1 startColumn (value.push c)
    else .error ("Unterminated template literal at line " ++ toString st.line)

/-- `scanTemplateExpression`: re-enter the generic scanner until the brace
that balanced the opener is consumed, then pop it and resume template
scanning.  (Reading `.type` of the last token when the token list is empty
would crash the JS runtime; that situation is unreachable and modelled as
continuing the loop.) -/
def scanTemplateExpression :
    Nat → Nat → LexState → Except String LexState
  | 0, _, st => .ok st
  | fuel + 1, braceCount, st =>
    if !isAtEnd st && 0 < braceCount then
      match scanToken fuel st with
      | .error e => .error e
      | .ok st =>
        match st.tokens.getLast? with
        | some lastToken =>
          if lastToken.type == .LeftBrace then
            scanTemplateExpression fuel (braceCount + 1) st
          else if lastToken.type == .RightBrace then
            if braceCount - 1 == 0 then
              let st := { st with tokens := st.tokens.dropLast }
              scanTemplateMiddleOrTailLoop fuel st st.column ""
            else scanTemplateExpression fuel (braceCount - 1) st
          else scanTemplateExpression fuel braceCount st
        | none => scanTemplateExpression fuel braceCount st
    else .ok st

/-- `scanTemplateMiddleOrTail` (note: its escape handling keeps the escaped
character raw, unlike the head scanner). -/
def scanTemplateMiddleOrTailLoop :
    Nat → LexState → Nat → String → Except String LexState
  | 0, st, _, _ => .ok st
  | fuel + 1, st, startColumn, value =>
    if !isAtEnd st then
      if peek st == '`' then
        let st1 := (advance st).2
        .ok (pushTok .TemplateTail value st1.line startColumn st1)
      else if peek st == '$' && peekNext st == '\x7b' then
        let st1 := pushTok .TemplateMiddle value st.line startColumn st
        let st2 := (advance (advance st1).2).2
        scanTemplateExpression fuel 1 st2
      else if peek st == '\\' then
        let st1 := (advance st).2
        let (c, st2) := advance st1
        scanTemplateMiddleOrTailLoop fuel st2 startColumn (value.push c)
      else if peek st == '\n' then
        let (c, st1) := advance st
        scanTemplateMiddleOrTailLoop fuel
          { st1 with line := st1.line + 1, column := 1 } startColumn
          (value.push c)
      else
        let (c, st1) := advance st
        scanTemplateMiddleOrTailLoop fuel st1 startColumn (value.push c)
    else .error ("Unterminated template literal at line " ++ toString st.line)

end

/-- The `while (!this.isAtEnd()) this.scanToken();` driver loop. -/
def tokenizeLoop : Nat → LexState → Except String LexState
  | 0, st => .ok st
  | fuel + 1, st =>
    if !isAtEnd st then
      match scanToken (4 * (st.src.length - st.pos) + 16) st with
      | .error e => .error e
      | .ok st => tokenizeLoop fuel st
    else .ok st

end Lexer

/-- `tokenize(source)`: run the scanner to the end and append the EOF
token.  A thrown lexical error surfaces as `Except.error`. -/
def tokenize (source : String) : Except String (List Token) :=
  let st0 : LexState :=
    { src := source.toList, pos := 0, line := 1, column := 1, tokens := [] }
  match Lexer.tokenizeLoop (st0.src.length + 1) st0 with
  | .error e => .error e
  | .ok st => .ok (st.tokens ++ [⟨.EOF, "", st.line, st.column⟩])

end MiniTs


namespace MiniTs

/-! ## Syntax-tree size

A node-count measure on the syntax tree, used only to pick sufficient fuel
for the checker and emitter wrappers: every recursive call of those
functions consumes one unit of fuel and strictly decreases the size of the
syntax-tree material in scope, so `size + 2` fuel can never run out. -/

mutual

def Stmt.size : Stmt → Nat
  | .variableDeclaration _ _ ann init _ =>
      1 + sizeOptTypeNode ann + sizeOptExpr init
  | .functionDeclaration _ ps ret body _ _ tps _ =>
      1 + sizeParams ps + sizeOptTypeNode ret + body.size + sizeTypeParams tps
  | .interfaceDeclaration _ ms ext tps _ =>
      1 + sizeInterfaceMembers ms + sizeTypeNodes ext + sizeTypeParams tps
  | .typeAliasDeclaration _ tps t _ => 1 + sizeTypeParams tps + t.size
  | .classDeclaration _ sup impl tps ms decs _ _ =>
      1 + sizeOptExpr sup + sizeTypeNodes impl + sizeTypeParams tps +
        sizeClassMembers ms + sizeDecorators decs
  | .enumDeclaration _ ms _ _ => 1 + sizeEnumMembers ms
  | .returnStatement arg _ => 1 + sizeOptExpr arg
  | .ifStatement c t e _ => 1 + c.size + t.size + sizeOptStmt e
  | .whileStatement c b _ => 1 + c.size + b.size
  | .forStatement i c u b _ =>
      1 + sizeOptForInit i + sizeOptExpr c + sizeOptExpr u + b.size
  | .forOfStatement v it b _ _ => 1 + v.size + it.size + b.size
  | .forInStatement v o b _ => 1 + v.size + o.size + b.size
  | .doWhileStatement b c _ => 1 + b.size + c.size
  | .switchStatement d cs _ => 1 + d.size + sizeSwitchCases cs
  | .breakStatement _ _ => 1
  | .continueStatement _ _ => 1
  | .throwStatement a _ => 1 + a.size
  | .tryStatement b h f _ =>
      1 + b.size + sizeOptCatch h + sizeOptBlock f
  | .expressionStatement e _ => 1 + e.size
  | .blockStatement b => 1 + b.size
  | .importDeclaration _ _ _ _ => 1
  | .exportDeclaration d sp _ _ _ _ =>
      1 + sizeOptStmt d + (match sp with | none => 1 | some _ => 1)
  | .emptyStatement _ => 1

def sizeStmts : List Stmt → Nat
  | [] => 0
  | st :: rest => 1 + st.size + sizeStmts rest

def sizeOptStmt : Option Stmt → Nat
  | none => 1
  | some st => 1 + st.size

def BlockStmt.size : BlockStmt → Nat
  | .mk ss _ => 1 + sizeStmts ss

def sizeOptBlock : Option BlockStmt → Nat
  | none => 1
  | some b => 1 + b.size

def ForInit.size : ForInit → Nat
  | .declInit _ _ ann init _ => 1 + sizeOptTypeNode ann + sizeOptExpr init
  | .exprInit e => 1 + e.size

def sizeOptForInit : Option ForInit → Nat
  | none => 1
  | some i => 1 + i.size

def ForVar.size : ForVar → Nat
  | .declVar _ _ ann init _ => 1 + sizeOptTypeNode ann + sizeOptExpr init
  | .identVar _ _ => 1

def Expr.size : Expr → Nat
  | .binaryExpression _ l r _ => 1 + l.size + r.size
  | .unaryExpression _ o _ _ => 1 + o.size
  | .updateExpression _ a _ _ => 1 + a.size
  | .callExpression c args tas _ _ =>
      1 + c.size + sizeExprs args + sizeTypeNodes tas
  | .memberExpression o _ _ _ => 1 + o.size
  | .computedMemberExpression o p _ _ => 1 + o.size + p.size
  | .identifier _ _ => 1
  | .numericLiteral _ _ => 1
  | .stringLiteral _ _ => 1
  | .booleanLiteral _ _ => 1
  | .nullLiteral _ => 1
  | .undefinedLiteral _ => 1
  | .objectLiteral ps _ => 1 + sizeObjectProps ps
  | .arrayLiteral es _ => 1 + sizeOptExprs es
  | .arrowFunction ps ret b _ tps _ =>
      1 + sizeParams ps + sizeOptTypeNode ret + b.size + sizeTypeParams tps
  | .functionExpression _ ps ret b _ _ tps _ =>
      1 + sizeParams ps + sizeOptTypeNode ret + b.size + sizeTypeParams tps
  | .conditionalExpression c t e _ => 1 + c.size + t.size + e.size
  | .assignmentExpression _ l r _ => 1 + l.size + r.size
  | .logicalExpression _ l r _ => 1 + l.size + r.size
  | .newExpression c args tas _ => 1 + c.size + sizeExprs args + sizeTypeNodes tas
  | .thisExpression _ => 1
  | .superExpression _ => 1
  | .spreadElement a _ => 1 + a.size
  | .awaitExpression a _ => 1 + a.size
  | .yieldExpression a _ _ => 1 + sizeOptExpr a
  | .templateLiteralExpr _ es _ => 1 + sizeExprs es
  | .taggedTemplateExpression t q _ => 1 + t.size + q.size
  | .typeAssertion ta e _ => 1 + ta.size + e.size
  | .asExpression e ta _ => 1 + e.size + ta.size
  | .nonNullExpression e _ => 1 + e.size
  | .classExpression _ sup impl ms _ =>
      1 + sizeOptExpr sup + sizeTypeNodes impl + sizeClassMembers ms
  | .parenthesizedExpression e _ => 1 + e.size

def sizeExprs : List Expr → Nat
  | [] => 0
  | e :: rest => 1 + e.size + sizeExprs rest

def sizeOptExpr : Option Expr → Nat
  | none => 1
  | some e => 1 + e.size

def sizeOptExprs : List (Option Expr) → Nat
  | [] => 0
  | e :: rest => 1 + sizeOptExpr e + sizeOptExprs rest

def ObjectPropNode.size : ObjectPropNode → Nat
  | .mk k v _ _ _ => 1 + k.size + v.size

def sizeObjectProps : List ObjectPropNode → Nat
  | [] => 0
  | p :: rest => 1 + p.size + sizeObjectProps rest

def PropKey.size : PropKey → Nat
  | .str _ => 1
  | .expr e => 1 + e.size

def ArrowBody.size : ArrowBody → Nat
  | .expr e => 1 + e.size
  | .block b => 1 + b.size

def TypeNode.size : TypeNode → Nat
  | .typeReference _ tas _ => 1 + sizeTypeNodes tas
  | .arrayType e _ => 1 + e.size
  | .tupleType ts _ => 1 + sizeTypeNodes ts
  | .unionType ts _ => 1 + sizeTypeNodes ts
  | .intersectionType ts _ => 1 + sizeTypeNodes ts
  | .functionTypeNode ps r tps _ =>
      1 + sizeParams ps + r.size + sizeTypeParams tps
  | .objectTypeNode ms _ => 1 + sizeTypeMembers ms
  | .literalType _ _ => 1
  | .conditionalType a b c d _ => 1 + a.size + b.size + c.size + d.size
  | .indexedAccessType o i _ => 1 + o.size + i.size
  | .mappedType tp t _ => 1 + tp.size + t.size
  | .typeQuery _ _ => 1
  | .parenthesizedType t _ => 1 + t.size
  | .optionalType t _ => 1 + t.size
  | .restType t _ => 1 + t.size
  | .inferType tp _ => 1 + tp.size

def sizeTypeNodes : List TypeNode → Nat
  | [] => 0
  | t :: rest => 1 + t.size + sizeTypeNodes rest

def sizeOptTypeNode : Option TypeNode → Nat
  | none => 1
  | some t => 1 + t.size

def Param.size : Param → Nat
  | .mk _ ann _ dv _ => 1 + sizeOptTypeNode ann + sizeOptExpr dv

def sizeParams : List Param → Nat
  | [] => 0
  | p :: rest => 1 + p.size + sizeParams rest

def TypeParamDecl.size : TypeParamDecl → Nat
  | .mk _ c d => 1 + sizeOptTypeNode c + sizeOptTypeNode d

def sizeTypeParams : List TypeParamDecl → Nat
  | [] => 0
  | t :: rest => 1 + t.size + sizeTypeParams rest

def InterfaceMemberNode.size : InterfaceMemberNode → Nat
  | .mk _ t _ _ => 1 + t.size

def sizeInterfaceMembers : List InterfaceMemberNode → Nat
  | [] => 0
  | m :: rest => 1 + m.size + sizeInterfaceMembers rest

def TypeMemberNode.size : TypeMemberNode → Nat
  | .mk _ t _ _ _ it => 1 + t.size + sizeOptTypeNode it

def sizeTypeMembers : List TypeMemberNode → Nat
  | [] => 0
  | m :: rest => 1 + m.size + sizeTypeMembers rest

def ClassMemberNode.size : ClassMemberNode → Nat
  | .propertyDeclaration _ ann init _ _ _ _ decs _ =>
      1 + sizeOptTypeNode ann + sizeOptExpr init + sizeDecorators decs
  | .methodDeclaration _ ps ret body _ _ _ _ tps decs _ =>
      1 + sizeParams ps + sizeOptTypeNode ret + sizeOptBlock body +
        sizeTypeParams tps + sizeDecorators decs
  | .constructorDeclaration ps body _ _ => 1 + sizeParams ps + body.size
  | .getterDeclaration _ ret body _ _ _ =>
      1 + sizeOptTypeNode ret + body.size
  | .setterDeclaration _ p body _ _ _ => 1 + p.size + body.size

def sizeClassMembers : List ClassMemberNode → Nat
  | [] => 0
  | m :: rest => 1 + m.size + sizeClassMembers rest

def DecoratorNode.size : DecoratorNode → Nat
  | .mk e _ => 1 + e.size

def sizeDecorators : List DecoratorNode → Nat
  | [] => 0
  | d :: rest => 1 + d.size + sizeDecorators rest

def EnumMemberNode.size : EnumMemberNode → Nat
  | .mk _ init => 1 + sizeOptExpr init

def sizeEnumMembers : List EnumMemberNode → Nat
  | [] => 0
  | m :: rest => 1 + m.size + sizeEnumMembers rest

def SwitchCaseNode.size : SwitchCaseNode → Nat
  | .mk t cs => 1 + sizeOptExpr t + sizeStmts cs

def sizeSwitchCases : List SwitchCaseNode → Nat
  | [] => 0
  | c :: rest => 1 + c.size + sizeSwitchCases rest

def CatchClauseNode.size : CatchClauseNode → Nat
  | .mk p b => 1 + (match p with | none => 1 | some pp => 1 + pp.size) + b.size

def sizeOptCatch : Option CatchClauseNode → Nat
  | none => 1
  | some c => 1 + c.size

end

def Program.size (p : Program) : Nat := 1 + sizeStmts p.statements

/-! ## Checker state (`checker.ts`)

`TypeEnvironment` is a chain of frames; the current environment is the list
from the innermost frame to the global frame (the chain's last element).
This value model is faithful because the checker only ever `define`s into
the head of the current chain or into the global environment, and the global
environment is only written while it is itself the whole current chain
(during the collection passes and top-level statement checking), so a saved
`previousEnv` value can never be observed stale. -/

/-- A symbol-table entry: `{ type, kind, mutable? }`.  `kind` is kept as the
source's string tag. -/
structure SymbolEntry where
  type : Ty
  kind : String
  mutable : Option Bool

/-- One `TypeEnvironment`'s own maps: value bindings and type bindings. -/
structure Frame where
  symbols : List (String × SymbolEntry)
  types : List (String × Ty)

/-- JS `Map.set`: overwrite in place (keeping the original insertion
position) or append at the end. -/
def assocSet (k : String) (v : α) : List (String × α) → List (String × α)
  | [] => [(k, v)]
  | (k', v') :: rest =>
    if k' = k then (k, v) :: rest else (k', v') :: assocSet k v rest

/-- JS `Map.get`: first (only) match. -/
def assocGet (k : String) : List (String × α) → Option α
  | [] => none
  | (k', v) :: rest => if k' = k then some v else assocGet k rest

/-- An environment chain, innermost frame first; the last frame is the
global environment. -/
abbrev Env := List Frame

/-- The empty frame of a freshly constructed `TypeEnvironment`. -/
def emptyFrame : Frame := ⟨[], []⟩

/-- `currentEnv.define(name, entry)`: writes the innermost frame. -/
def Env.define (name : String) (entry : SymbolEntry) : Env → Env
  | [] => []
  | f :: rest => { f with symbols := assocSet name entry f.symbols } :: rest

/-- `currentEnv.defineType(name, type)`: writes the innermost frame. -/
def Env.defineType (name : String) (ty : Ty) : Env → Env
  | [] => []
  | f :: rest => { f with types := assocSet name ty f.types } :: rest

/-- `lookup(name)`: walk the chain outward. -/
def Env.lookup (name : String) : Env → Option SymbolEntry
  | [] => none
  | f :: rest =>
    match assocGet name f.symbols with
    | some e => some e
    | none => Env.lookup name rest

/-- `lookupType(name)`: walk the chain outward. -/
def Env.lookupType (name : String) : Env → Option Ty
  | [] => none
  | f :: rest =>
    match assocGet name f.types with
    | some t => some t
    | none => Env.lookupType name rest

/-- `hasLocal(name)`: the innermost frame only. -/
def Env.hasLocal (name : String) : Env → Bool
  | [] => false
  | f :: _ => (assocGet name f.symbols).isSome

/-- `this.globalEnv.define(...)`: writes the chain's last frame. -/
def Env.defineGlobal (name : String) (entry : SymbolEntry) : Env → Env
  | [] => []
  | [f] => [{ f with symbols := assocSet name entry f.symbols }]
  | f :: rest => f :: Env.defineGlobal name entry rest

/-- `this.globalEnv.defineType(...)`: writes the chain's last frame. -/
def Env.defineTypeGlobal (name : String) (ty : Ty) : Env → Env
  | [] => []
  | [f] => [{ f with types := assocSet name ty f.types }]
  | f :: rest => f :: Env.defineTypeGlobal name ty rest

/-- The global environment viewed as its own one-frame chain
(`this.globalEnv`). -/
def Env.globalOf (env : Env) : Env := [env.getLastD emptyFrame]

/-- `this.globalEnv.lookup(name)`. -/
def Env.lookupGlobal (name : String) (env : Env) : Option SymbolEntry :=
  Env.lookup name env.globalOf

/-- `this.globalEnv.lookupType(name)`. -/
def Env.lookupTypeGlobal (name : String) (env : Env) : Option Ty :=
  Env.lookupType name env.globalOf

/-- `new TypeEnvironment(this.currentEnv)` as the new current chain. -/
def Env.pushChild (env : Env) : Env := emptyFrame :: env

/-- `new TypeEnvironment(this.globalEnv)` as the new current chain. -/
def Env.pushGlobalChild (env : Env) : Env := emptyFrame :: env.globalOf

/-- The mutable fields of the `TypeChecker` class. -/
structure CheckerSt where
  errors : List CompilerError
  env : Env
  currentReturnType : Option Ty
  inLoop : Bool

/-- `addError(message, line)`: append a diagnostic. -/
def addError (message : String) (line : Nat) (s : CheckerSt) : CheckerSt :=
  { s with errors := s.errors ++ [⟨message, line⟩] }

/-! ### `typeToString` and `deduplicateTypes` -/

/-- `String(value)` on a literal type's scalar. -/
def LitVal.jsToString : LitVal → String
  | .num n => toString n
  | .str s => s
  | .bool b => if b then "true" else "false"
  | .null => "null"

/-- `typeToString`, fuelled (one unit per recursive call). -/
def typeToStringFuel : Nat → Ty → String
  | 0, _ => ""
  | n + 1, t =>
    match t with
    | .literal v =>
      match v with
      | .str s => "\"" ++ s ++ "\""
      | v => v.jsToString
    | .array e => typeToStringFuel n e ++ "[]"
    | .tuple ts =>
        "[" ++ String.intercalate ", " (ts.map (typeToStringFuel n)) ++ "]"
    | .union ts =>
        String.intercalate " | " (ts.map (typeToStringFuel n))
    | .intersection ts =>
        String.intercalate " & " (ts.map (typeToStringFuel n))
    | .function ps r =>
        "(" ++ String.intercalate ", "
            (ps.map (fun p => p.name ++ ": " ++ typeToStringFuel n p.type)) ++
          ") => " ++ typeToStringFuel n r
    | .interface name _ => name
    | .«class» name _ _ => name
    | .enum name _ => name
    | t => t.kind

/-- `typeToString(type)` wrapper. -/
def typeToString (t : Ty) : String := typeToStringFuel (t.size + 1) t

/-- The loop of `deduplicateTypes`: dedup by structural stringification,
preserving first-occurrence order. -/
def dedupLoop : List Ty → List String → List Ty
  | [], _ => []
  | t :: rest, seen =>
    let key := typeToString t
    if seen.contains key then dedupLoop rest seen
    else t :: dedupLoop rest (seen ++ [key])

/-- `deduplicateTypes(types)`. -/
def deduplicateTypes (types : List Ty) : List Ty := dedupLoop types []

/-! ### `resolveTypeNode` -/

/-- `Map.set` on an interface member list, keyed by member name. -/
def ifaceSet (m : IfaceMember) : List IfaceMember → List IfaceMember
  | [] => [m]
  | m' :: rest => if m'.name = m.name then m :: rest else m' :: ifaceSet m rest

/-- `Map.set` on a class member list, keyed by member name. -/
def classSet (m : ClassMemberTy) : List ClassMemberTy → List ClassMemberTy
  | [] => [m]
  | m' :: rest => if m'.name = m.name then m :: rest else m' :: classSet m rest

mutual

/-- `resolveTypeNode(node)`, fuelled. -/
def resolveTypeNode : Nat → TypeNode → CheckerSt → CheckerSt × Ty
  | 0, _, s => (s, .any)
  | n + 1, node, s =>
    match node with
    | .typeReference typeName _ line =>
      if typeName = "number" then (s, createNumberType)
      else if typeName = "string" then (s, createStringType)
      else if typeName = "boolean" then (s, createBooleanType)
      else if typeName = "void" then (s, createVoidType)
      else if typeName = "null" then (s, createNullType)
      else if typeName = "undefined" then (s, createUndefinedType)
      else if typeName = "any" then (s, createAnyType)
      else if typeName = "unknown" then (s, createUnknownType)
      else if typeName = "never" then (s, createNeverType)
      else if typeName = "object" then (s, createAnyType)
      else if typeName = "symbol" then (s, Ty.symbol)
      else if typeName = "bigint" then (s, Ty.bigint)
      else
        match Env.lookupType typeName s.env with
        | some t => (s, t)
        | none =>
          match Env.lookup typeName s.env with
          | some entry => (s, entry.type)
          | none =>
            (addError ("Cannot find name '" ++ typeName ++ "'") line s,
             createAnyType)
    | .arrayType elementType _ =>
        let (s, t) := resolveTypeNode n elementType s
        (s, createArrayType t)
    | .tupleType elementTypes _ =>
        let (s, ts) := resolveTypeNodeList n elementTypes s
        (s, .tuple ts)
    | .unionType types _ =>
        let (s, ts) := resolveTypeNodeList n types s
        (s, createUnionType ts)
    | .intersectionType types _ =>
        let (s, ts) := resolveTypeNodeList n types s
        (s, .intersection ts)
    | .functionTypeNode parameters returnType _ _ =>
        let (s, ps) := resolveParams n parameters s
        let (s, r) := resolveTypeNode n returnType s
        (s, .function ps r)
    | .objectTypeNode members _ =>
        let (s, ms) := resolveObjectMembers n members [] s
        (s, .interface "<anonymous>" ms)
    | .literalType v _ =>
        (s, .literal
          (match v with
           | .num k => .num k
           | .str t => .str t
           | .bool b => .bool b
           | .null => .null))
    | .parenthesizedType t _ => resolveTypeNode n t s
    | .typeQuery _ _ => (s, createAnyType)
    | .conditionalType _ _ _ _ _ => (s, createAnyType)
    | .indexedAccessType _ _ _ => (s, createAnyType)
    | .mappedType _ _ _ => (s, createAnyType)
    | .inferType _ _ => (s, createAnyType)
    | .optionalType _ _ => (s, createAnyType)
    | .restType _ _ => (s, createAnyType)

/-- `node.types.map((t) => this.resolveTypeNode(t))`. -/
def resolveTypeNodeList :
    Nat → List TypeNode → CheckerSt → CheckerSt × List Ty
  | 0, _, s => (s, [])
  | _ + 1, [], s => (s, [])
  | n + 1, t :: rest, s =>
    let (s, ty) := resolveTypeNode n t s
    let (s, tys) := resolveTypeNodeList n rest s
    (s, ty :: tys)

/-- The parameter mapping
`p => ({ name, type: p.typeAnnotation ? resolve : any, optional })` shared
by `registerFunctionType`, `FunctionTypeNode` resolution, arrow functions
and function expressions. -/
def resolveParams :
    Nat → List Param → CheckerSt → CheckerSt × List FnParam
  | 0, _, s => (s, [])
  | _ + 1, [], s => (s, [])
  | n + 1, p :: rest, s =>
    let (s, ty) :=
      match p.typeAnn with
      | some ann => resolveTypeNode n ann s
      | none => (s, createAnyType)
    let (s, ps) := resolveParams n rest s
    (s, FnParam.mk p.name ty p.optional :: ps)

/-- The member loop of the `ObjectTypeNode` case (`if (member.name)
members.set(member.name, { type, optional })`). -/
def resolveObjectMembers :
    Nat → List TypeMemberNode → List IfaceMember → CheckerSt →
    CheckerSt × List IfaceMember
  | 0, _, acc, s => (s, acc)
  | _ + 1, [], acc, s => (s, acc)
  | n + 1, .mk name typeAnn optional _ _ _ :: rest, acc, s =>
    match name with
    | some nm =>
      let (s, ty) := resolveTypeNode n typeAnn s
      resolveObjectMembers n rest
        (ifaceSet (IfaceMember.mk nm ty optional false) acc) s
    | none => resolveObjectMembers n rest acc s

end

/-! ### Declaration-collection passes (`register…`) -/

/-- `registerTypeAlias(decl)`. -/
def registerTypeAlias (n : Nat) (name : String) (type : TypeNode)
    (s : CheckerSt) : CheckerSt :=
  let (s, t) := resolveTypeNode n type s
  { s with env := Env.defineTypeGlobal name t s.env }

/-- The member loop of `registerEnumType`: numeric-literal initializers set
the running value, string-literal initializers leave it untouched, members
with any other initializer are not added to the map, and initializer-less
members take the running value, which then increments. -/
def enumMembersLoop :
    List EnumMemberNode → Int → List (String × LitVal) →
    List (String × LitVal)
  | [], _, acc => acc
  | .mk name init :: rest, currentValue, acc =>
    match init with
    | some (.numericLiteral v _) =>
        enumMembersLoop rest (v + 1) (assocSet name (.num v) acc)
    | some (.stringLiteral str _) =>
        enumMembersLoop rest currentValue (assocSet name (.str str) acc)
    | some _ => enumMembersLoop rest currentValue acc
    | none =>
        enumMembersLoop rest (currentValue + 1)
          (assocSet name (.num currentValue) acc)

/-- `registerEnumType(decl)`. -/
def registerEnumType (name : String) (members : List EnumMemberNode)
    (s : CheckerSt) : CheckerSt :=
  let ms := enumMembersLoop members 0 []
  let enumType : Ty := .enum name ms
  let env := Env.defineGlobal name ⟨enumType, "enum", none⟩ s.env
  { s with env := Env.defineTypeGlobal name enumType env }

/-- The member loop of `registerInterfaceType`. -/
def ifaceMembersLoop :
    Nat → List InterfaceMemberNode → List IfaceMember → CheckerSt →
    CheckerSt × List IfaceMember
  | 0, _, acc, s => (s, acc)
  | _ + 1, [], acc, s => (s, acc)
  | n + 1, .mk name typeAnn optional readonly :: rest, acc, s =>
    let (s, memberType) := resolveTypeNode n typeAnn s
    ifaceMembersLoop n rest
      (ifaceSet (IfaceMember.mk name memberType optional readonly) acc) s

/-- `registerInterfaceType(decl)`. -/
def registerInterfaceType (n : Nat) (name : String)
    (members : List InterfaceMemberNode) (s : CheckerSt) : CheckerSt :=
  let (s, ms) := ifaceMembersLoop n members [] s
  let interfaceType : Ty := .interface name ms
  let env := Env.defineGlobal name ⟨interfaceType, "interface", none⟩ s.env
  { s with env := Env.defineTypeGlobal name interfaceType env }

/-- The method-parameter mapping of `registerClassType`
(`p => ({ name, type })` — no `optional` field, hence `false`). -/
def resolveMethodParams :
    Nat → List Param → CheckerSt → CheckerSt × List FnParam
  | 0, _, s => (s, [])
  | _ + 1, [], s => (s, [])
  | n + 1, p :: rest, s =>
    let (s, ty) :=
      match p.typeAnn with
      | some ann => resolveTypeNode n ann s
      | none => (s, createAnyType)
    let (s, ps) := resolveMethodParams n rest s
    (s, FnParam.mk p.name ty false :: ps)

/-- `members.set(name, member)` copy of all superclass members. -/
def classCopyLoop (src : List ClassMemberTy) (acc : List ClassMemberTy) :
    List ClassMemberTy :=
  match src with
  | [] => acc
  | m :: rest => classCopyLoop rest (classSet m acc)

/-- `staticMembers.set(name, member)` copy of superclass statics. -/
def staticCopyLoop (src : List (String × Ty)) (acc : List (String × Ty)) :
    List (String × Ty) :=
  match src with
  | [] => acc
  | (k, v) :: rest => staticCopyLoop rest (assocSet k v acc)

/-- The member loop of `registerClassType`: property and method members are
collected (statics separately); constructors, getters and setters are not
registered. -/
def classMembersLoop :
    Nat → List ClassMemberNode → List ClassMemberTy →
    List (String × Ty) → CheckerSt →
    CheckerSt × List ClassMemberTy × List (String × Ty)
  | 0, _, members, statics, s => (s, members, statics)
  | _ + 1, [], members, statics, s => (s, members, statics)
  | n + 1, m :: rest, members, statics, s =>
    match m with
    | .propertyDeclaration name typeAnn _ accessibility isStatic _ _ _ _ =>
      let (s, propType) :=
        match typeAnn with
        | some ann => resolveTypeNode n ann s
        | none => (s, createAnyType)
      if isStatic then
        classMembersLoop n rest members (assocSet name propType statics) s
      else
        classMembersLoop n rest
          (classSet (ClassMemberTy.mk name propType accessibility isStatic)
            members) statics s
    | .methodDeclaration name parameters returnType _ accessibility isStatic
        _ _ _ _ _ =>
      let (s, ps) := resolveMethodParams n parameters s
      let (s, r) :=
        match returnType with
        | some rt => resolveTypeNode n rt s
        | none => (s, createVoidType)
      let methodType : Ty := .function ps r
      if isStatic then
        classMembersLoop n rest members (assocSet name methodType statics) s
      else
        classMembersLoop n rest
          (classSet (ClassMemberTy.mk name methodType accessibility isStatic)
            members) statics s
    | _ => classMembersLoop n rest members statics s

/-- `registerClassType(decl)`: seed from the superclass (when it is an
identifier naming a class in the global environment), then collect own
members. -/
def registerClassType (n : Nat) (name : String) (superClass : Option Expr)
    (members : List ClassMemberNode) (s : CheckerSt) : CheckerSt :=
  let (base, staticBase) :=
    match superClass with
    | some (.identifier superName _) =>
      match Env.lookupGlobal superName s.env with
      | some entry =>
        match entry.type with
        | .«class» _ sm ssm => (classCopyLoop sm [], staticCopyLoop ssm [])
        | _ => ([], [])
      | none => ([], [])
    | _ => ([], [])
  let (s, ms, statics) := classMembersLoop n members base staticBase s
  let classType : Ty := .«class» name ms statics
  let env := Env.defineGlobal name ⟨classType, "class", none⟩ s.env
  { s with env := Env.defineTypeGlobal name classType env }

/-- `registerFunctionType(decl)`: collect the signature into the global
scope. -/
def registerFunctionType (n : Nat) (name : String)
    (parameters : List Param) (returnType : Option TypeNode)
    (s : CheckerSt) : CheckerSt :=
  let (s, ps) := resolveParams n parameters s
  let (s, r) :=
    match returnType with
    | some rt => resolveTypeNode n rt s
    | none => (s, createVoidType)
  { s with env := Env.defineGlobal name ⟨.function ps r, "function", none⟩ s.env }

/-! ### Built-ins and the initial state (`registerBuiltins`) -/

/-- The variadic `console` method type
`{ params: [{ name: "...args", type: any, optional: true }], returnType:
void }`. -/
def logFn : Ty := .function [.mk "...args" createAnyType true] createVoidType

/-- The global frame produced by the constructor's `registerBuiltins()`. -/
def builtinsFrame : Frame where
  symbols :=
    [("console",
      ⟨.interface "Console"
        [.mk "log" logFn false false, .mk "error" logFn false false,
         .mk "warn" logFn false false, .mk "info" logFn false false,
         .mk "debug" logFn false false], "variable", none⟩),
     ("Array", ⟨createAnyType, "variable", none⟩),
     ("Object", ⟨createAnyType, "variable", none⟩),
     ("Math", ⟨createAnyType, "variable", none⟩),
     ("JSON", ⟨createAnyType, "variable", none⟩),
     ("Error", ⟨createAnyType, "class", none⟩)]
  types := [("Promise", createAnyType)]

/-- The checker state right after construction. -/
def initialCheckerSt : CheckerSt where
  errors := []
  env := [builtinsFrame]
  currentReturnType := none
  inLoop := false

/-! ### Statement and expression checking -/

/-- The parameter-definition loop of function-body checking
(`define(param.name, { type: param.type, kind: "variable" })`). -/
def defineFnParams : List FnParam → CheckerSt → CheckerSt
  | [], s => s
  | p :: rest, s =>
    defineFnParams rest
      { s with env := Env.define p.name ⟨p.type, "variable", none⟩ s.env }

/-- `Map.get` on a class member list. -/
def classGet (members : List ClassMemberTy) (key : String) :
    Option ClassMemberTy :=
  match members with
  | [] => none
  | m :: rest => if m.name = key then some m else classGet rest key

/-- JS `String.prototype.startsWith` on character lists (Lean's own
`String.startsWith` does not reduce in the kernel). -/
def strStartsWith (s pre : String) : Bool :=
  pre.toList.isPrefixOf s.toList

/-- The known array methods of `checkMemberExpression`. -/
def arrayMethods : List String :=
  ["push", "pop", "shift", "unshift", "slice", "splice", "map", "filter",
   "reduce", "forEach", "find", "findIndex", "includes", "indexOf", "join",
   "concat", "reverse", "sort"]

/-- The known string methods of `checkMemberExpression`. -/
def stringMethods : List String :=
  ["length", "charAt", "charCodeAt", "concat", "includes", "indexOf",
   "lastIndexOf", "match", "replace", "slice", "split", "substring",
   "toLowerCase", "toUpperCase", "trim", "startsWith", "endsWith"]

mutual

/-- `checkStatement(stmt)`: dispatch on the statement kind.  Interface and
type-alias declarations were already processed; import/export declarations
and break/continue are skipped. -/
def checkStatement : Nat → Stmt → CheckerSt → CheckerSt
  | 0, _, s => s
  | n + 1, stmt, s =>
    match stmt with
    | .variableDeclaration name varKind typeAnn initializer line =>
        checkVariableDeclaration n name varKind typeAnn initializer line s
    | .functionDeclaration name _ _ body _ _ _ _ =>
        checkFunctionDeclaration n name body s
    | .interfaceDeclaration _ _ _ _ _ => s
    | .typeAliasDeclaration _ _ _ _ => s
    | .classDeclaration name _ _ _ members _ _ _ =>
        checkClassDeclaration n name members s
    | .enumDeclaration _ members _ _ => checkEnumMembersLoop n members s
    | .returnStatement argument line =>
        checkReturnStatement n argument line s
    | .ifStatement condition consequent alternate _ =>
        checkIfStatement n condition consequent alternate s
    | .whileStatement condition body _ =>
        checkWhileStatement n condition body s
    | .forStatement init condition update body _ =>
        checkForStatement n init condition update body s
    | .forOfStatement v iterable body _ _ =>
        checkForOfStatement n v iterable body s
    | .forInStatement v object body _ =>
        checkForInStatement n v object body s
    | .doWhileStatement body condition _ =>
        let s := checkStatement n body s
        (checkExpression n condition s).1
    | .switchStatement discriminant cases _ =>
        checkSwitchStatement n discriminant cases s
    | .breakStatement _ _ => s
    | .continueStatement _ _ => s
    | .throwStatement argument _ => (checkExpression n argument s).1
    | .tryStatement block handler finalizer _ =>
        checkTryStatement n block handler finalizer s
    | .expressionStatement expression _ =>
        (checkExpression n expression s).1
    | .blockStatement block => checkBlockStatement n block s
    | .importDeclaration _ _ _ _ => s
    | .exportDeclaration _ _ _ _ _ _ => s
    | .emptyStatement _ => s

  termination_by structural n => n
/-- The statement loop shared by the fifth pass, blocks and switch-case
bodies. -/
def checkStatements : Nat → List Stmt → CheckerSt → CheckerSt
  | 0, _, s => s
  | _ + 1, [], s => s
  | n + 1, stmt :: rest, s =>
    let s := checkStatement n stmt s
    checkStatements n rest s

  termination_by structural n => n
/-- `checkVariableDeclaration(decl)`: resolve the annotation, infer from the
initializer, flag assignability, and bind — unless the name is already
declared locally, in which case only the diagnostic is emitted and the
existing binding is left untouched. -/
def checkVariableDeclaration :
    Nat → String → String → Option TypeNode → Option Expr → Nat →
    CheckerSt → CheckerSt
  | 0, _, _, _, _, _, s => s
  | n + 1, name, varKind, typeAnn, initializer, line, s =>
    let (s, declaredType) :=
      match typeAnn with
      | some ta =>
        let (s, t) := resolveTypeNode n ta s
        (s, some t)
      | none => (s, none)
    let (s, inferredType) :=
      match initializer with
      | some e =>
        let (s, t) := checkExpression n e s
        (s, some t)
      | none => (s, none)
    let (s, finalType) :=
      match declaredType, inferredType with
      | some d, some i =>
        let s :=
          if !isAssignable i d then
            addError ("Type '" ++ typeToString i ++
              "' is not assignable to type '" ++ typeToString d ++ "'") line s
          else s
        (s, d)
      | some d, none => (s, d)
      | none, some i => (s, i)
      | none, none => (s, createAnyType)
    if Env.hasLocal name s.env then
      addError ("Variable '" ++ name ++ "' is already declared in this scope")
        line s
    else
      { s with
        env := Env.define name ⟨finalType, "variable", some (varKind != "const")⟩
          s.env }

  termination_by structural n => n
/-- `checkFunctionDeclaration(decl)`: body checked in a fresh environment
parented to the *global* scope, with the collected signature's parameters
bound.  (The cast `entry.type as FunctionType` on a non-function type is
unreachable because the entry kind is `"function"`.) -/
def checkFunctionDeclaration :
    Nat → String → BlockStmt → CheckerSt → CheckerSt
  | 0, _, _, s => s
  | n + 1, name, body, s =>
    match Env.lookup name s.env with
    | none => s
    | some entry =>
      if entry.kind != "function" then s
      else
        match entry.type with
        | .function ps ret =>
          let previousEnv := s.env
          let s := { s with env := Env.pushGlobalChild s.env }
          let s := defineFnParams ps s
          let previousReturnType := s.currentReturnType
          let s := { s with currentReturnType := some ret }
          let s := checkBlockStatement n body s
          { s with currentReturnType := previousReturnType, env := previousEnv }
        | _ => s

  termination_by structural n => n
/-- `checkClassDeclaration(decl)`: a fresh environment parented to the
global scope with `this` bound to the class type, then member bodies. -/
def checkClassDeclaration :
    Nat → String → List ClassMemberNode → CheckerSt → CheckerSt
  | 0, _, _, s => s
  | n + 1, name, members, s =>
    let previousEnv := s.env
    let s := { s with env := Env.pushGlobalChild s.env }
    let s :=
      match Env.lookupTypeGlobal name s.env with
      | some classType =>
          { s with env := Env.define "this" ⟨classType, "variable", none⟩ s.env }
      | none => s
    let s := checkClassMembers n members s
    { s with env := previousEnv }

  termination_by structural n => n
/-- The member loop of `checkClassDeclaration`: methods with bodies and
constructors are checked in child environments; property initializers are
checked; everything else (abstract methods, getters, setters) is skipped. -/
def checkClassMembers :
    Nat → List ClassMemberNode → CheckerSt → CheckerSt
  | 0, _, s => s
  | _ + 1, [], s => s
  | n + 1, m :: rest, s =>
    match m with
    | .methodDeclaration _ parameters returnType (some body) _ _ _ _ _ _ _ =>
      let (s, ps) := resolveMethodParams n parameters s
      let previousReturn := s.currentReturnType
      let (s, retTy) :=
        match returnType with
        | some rt => resolveTypeNode n rt s
        | none => (s, createVoidType)
      let savedEnv := s.env
      let s := { s with env := Env.pushChild s.env }
      let s := defineFnParams ps s
      let s := { s with currentReturnType := some retTy }
      let s := checkBlockStatement n body s
      let s := { s with env := savedEnv, currentReturnType := previousReturn }
      checkClassMembers n rest s
    | .constructorDeclaration parameters body _ _ =>
      let (s, ps) := resolveMethodParams n parameters s
      let savedEnv := s.env
      let s := { s with env := Env.pushChild s.env }
      let s := defineFnParams ps s
      let s := checkBlockStatement n body s
      let s := { s with env := savedEnv }
      checkClassMembers n rest s
    | .propertyDeclaration _ _ (some initializer) _ _ _ _ _ _ =>
      let s := (checkExpression n initializer s).1
      checkClassMembers n rest s
    | _ => checkClassMembers n rest s

  termination_by structural n => n
/-- `checkEnumDeclaration(decl)`: check member initializers. -/
def checkEnumMembersLoop :
    Nat → List EnumMemberNode → CheckerSt → CheckerSt
  | 0, _, s => s
  | _ + 1, [], s => s
  | n + 1, .mk _ init :: rest, s =>
    match init with
    | some e =>
      let s := (checkExpression n e s).1
      checkEnumMembersLoop n rest s
    | none => checkEnumMembersLoop n rest s

  termination_by structural n => n
/-- `checkReturnStatement(stmt)`. -/
def checkReturnStatement :
    Nat → Option Expr → Nat → CheckerSt → CheckerSt
  | 0, _, _, s => s
  | n + 1, argument, line, s =>
    match s.currentReturnType with
    | none => addError "Return statement outside of function" line s
    | some retTy =>
      match argument with
      | some arg =>
        let (s, argType) := checkExpression n arg s
        if !isAssignable argType retTy then
          addError ("Type '" ++ typeToString argType ++
            "' is not assignable to return type '" ++ typeToString retTy ++
            "'") line s
        else s
      | none =>
        if retTy.kind != "void" && retTy.kind != "undefined" then
          addError
            "A function whose return type is not 'void' must return a value"
            line s
        else s

  termination_by structural n => n
/-- `checkIfStatement(stmt)`. -/
def checkIfStatement :
    Nat → Expr → Stmt → Option Stmt → CheckerSt → CheckerSt
  | 0, _, _, _, s => s
  | n + 1, condition, consequent, alternate, s =>
    let s := (checkExpression n condition s).1
    let s := checkStatement n consequent s
    match alternate with
    | some alt => checkStatement n alt s
    | none => s

  termination_by structural n => n
/-- `checkWhileStatement(stmt)`. -/
def checkWhileStatement :
    Nat → Expr → Stmt → CheckerSt → CheckerSt
  | 0, _, _, s => s
  | n + 1, condition, body, s =>
    let s := (checkExpression n condition s).1
    let wasInLoop := s.inLoop
    let s := { s with inLoop := true }
    let s := checkStatement n body s
    { s with inLoop := wasInLoop }

  termination_by structural n => n
/-- `checkForStatement(stmt)`: a fresh environment for the iteration
variable. -/
def checkForStatement :
    Nat → Option ForInit → Option Expr → Option Expr → Stmt →
    CheckerSt → CheckerSt
  | 0, _, _, _, _, s => s
  | n + 1, init, condition, update, body, s =>
    let previousEnv := s.env
    let s := { s with env := Env.pushChild s.env }
    let s :=
      match init with
      | some (.declInit name varKind ann ini line) =>
          checkVariableDeclaration n name varKind ann ini line s
      | some (.exprInit e) => (checkExpression n e s).1
      | none => s
    let s :=
      match condition with
      | some c => (checkExpression n c s).1
      | none => s
    let s :=
      match update with
      | some u => (checkExpression n u s).1
      | none => s
    let wasInLoop := s.inLoop
    let s := { s with inLoop := true }
    let s := checkStatement n body s
    let s := { s with inLoop := wasInLoop }
    { s with env := previousEnv }

  termination_by structural n => n
/-- `checkForOfStatement(stmt)`: the iteration variable takes the array
element type (or `any`), unless annotated. -/
def checkForOfStatement :
    Nat → ForVar → Expr → Stmt → CheckerSt → CheckerSt
  | 0, _, _, _, s => s
  | n + 1, v, iterable, body, s =>
    let previousEnv := s.env
    let s := { s with env := Env.pushChild s.env }
    let (s, iterableType) := checkExpression n iterable s
    let s :=
      match v with
      | .declVar name _ typeAnn _ _ =>
        let elementType :=
          match iterableType with
          | .array et => et
          | _ => createAnyType
        let (s, ty) :=
          match typeAnn with
          | some ta => resolveTypeNode n ta s
          | none => (s, elementType)
        { s with env := Env.define name ⟨ty, "variable", none⟩ s.env }
      | .identVar _ _ => s
    let wasInLoop := s.inLoop
    let s := { s with inLoop := true }
    let s := checkStatement n body s
    let s := { s with inLoop := wasInLoop }
    { s with env := previousEnv }

  termination_by structural n => n
/-- `checkForInStatement(stmt)`: the key variable is a `string`. -/
def checkForInStatement :
    Nat → ForVar → Expr → Stmt → CheckerSt → CheckerSt
  | 0, _, _, _, s => s
  | n + 1, v, object, body, s =>
    let previousEnv := s.env
    let s := { s with env := Env.pushChild s.env }
    let s := (checkExpression n object s).1
    let s :=
      match v with
      | .declVar name _ _ _ _ =>
          { s with env := Env.define name ⟨createStringType, "variable", none⟩ s.env }
      | .identVar _ _ => s
    let wasInLoop := s.inLoop
    let s := { s with inLoop := true }
    let s := checkStatement n body s
    let s := { s with inLoop := wasInLoop }
    { s with env := previousEnv }

  termination_by structural n => n
/-- `checkSwitchStatement(stmt)`. -/
def checkSwitchStatement :
    Nat → Expr → List SwitchCaseNode → CheckerSt → CheckerSt
  | 0, _, _, s => s
  | n + 1, discriminant, cases, s =>
    let s := (checkExpression n discriminant s).1
    checkSwitchCases n cases s

  termination_by structural n => n
/-- The case loop of `checkSwitchStatement`. -/
def checkSwitchCases :
    Nat → List SwitchCaseNode → CheckerSt → CheckerSt
  | 0, _, s => s
  | _ + 1, [], s => s
  | n + 1, .mk test consequent :: rest, s =>
    let s :=
      match test with
      | some t => (checkExpression n t s).1
      | none => s
    let s := checkStatements n consequent s
    checkSwitchCases n rest s

  termination_by structural n => n
/-- `checkTryStatement(stmt)`: catch parameter is bound as `any` in a fresh
environment. -/
def checkTryStatement :
    Nat → BlockStmt → Option CatchClauseNode → Option BlockStmt →
    CheckerSt → CheckerSt
  | 0, _, _, _, s => s
  | n + 1, block, handler, finalizer, s =>
    let s := checkBlockStatement n block s
    let s :=
      match handler with
      | some (.mk param body) =>
        let previousEnv := s.env
        let s := { s with env := Env.pushChild s.env }
        let s :=
          match param with
          | some p =>
              { s with
                env := Env.define p.name ⟨createAnyType, "variable", none⟩ s.env }
          | none => s
        let s := checkBlockStatement n body s
        { s with env := previousEnv }
      | none => s
    match finalizer with
    | some f => checkBlockStatement n f s
    | none => s

  termination_by structural n => n
/-- `checkBlockStatement(block)`: a fresh child environment, popped on
exit. -/
def checkBlockStatement :
    Nat → BlockStmt → CheckerSt → CheckerSt
  | 0, _, s => s
  | n + 1, block, s =>
    let previousEnv := s.env
    let s := { s with env := Env.pushChild s.env }
    let s := checkStatements n block.statements s
    { s with env := previousEnv }

  termination_by structural n => n
/-- `checkExpression(expr)`: returns the expression's type. -/
def checkExpression : Nat → Expr → CheckerSt → CheckerSt × Ty
  | 0, _, s => (s, createAnyType)
  | n + 1, expr, s =>
    match expr with
    | .numericLiteral _ _ => (s, createNumberType)
    | .stringLiteral _ _ => (s, createStringType)
    | .booleanLiteral _ _ => (s, createBooleanType)
    | .nullLiteral _ => (s, createNullType)
    | .undefinedLiteral _ => (s, createUndefinedType)
    | .identifier name line =>
      match Env.lookup name s.env with
      | none =>
          (addError ("Cannot find name '" ++ name ++ "'") line s,
           createAnyType)
      | some entry => (s, entry.type)
    | .binaryExpression operator left right line =>
        checkBinaryExpression n operator left right line s
    | .unaryExpression operator operand _ line =>
        checkUnaryExpression n operator operand line s
    | .updateExpression _ argument _ line =>
      let (s, argType) := checkExpression n argument s
      let s :=
        if argType.kind != "number" && argType.kind != "any" then
          addError "Update expression requires a number operand" line s
        else s
      (s, createNumberType)
    | .callExpression callee arguments _ _ line =>
        checkCallExpression n callee arguments line s
    | .memberExpression object property _ line =>
        checkMemberExpression n object property line s
    | .computedMemberExpression object property _ line =>
        checkComputedMemberExpression n object property line s
    | .objectLiteral properties _ => checkObjectLiteral n properties s
    | .arrayLiteral elements _ => checkArrayLiteral n elements s
    | .arrowFunction parameters returnType body _ _ _ =>
        checkArrowFunction n parameters returnType body s
    | .functionExpression name parameters returnType body _ _ _ _ =>
        checkFunctionExpression n name parameters returnType body s
    | .conditionalExpression condition consequent alternate _ =>
      let (s, _) := checkExpression n condition s
      let (s, consequentTy) := checkExpression n consequent s
      let (s, alternateTy) := checkExpression n alternate s
      (s, createUnionType [consequentTy, alternateTy])
    | .assignmentExpression _ left right line =>
      let (s, rightType) := checkExpression n right s
      let (s, leftType) := checkExpression n left s
      let s :=
        if !isAssignable rightType leftType then
          addError ("Type '" ++ typeToString rightType ++
            "' is not assignable to type '" ++ typeToString leftType ++ "'")
            line s
        else s
      (s, rightType)
    | .logicalExpression operator left right _ =>
      let (s, leftTy) := checkExpression n left s
      let (s, rightTy) := checkExpression n right s
      if operator == "??" then (s, createUnionType [leftTy, rightTy])
      else (s, createUnionType [leftTy, rightTy])
    | .newExpression callee arguments _ _ =>
        checkNewExpression n callee arguments s
    | .thisExpression _ =>
      match Env.lookup "this" s.env with
      | some entry => (s, entry.type)
      | none => (s, createAnyType)
    | .superExpression _ => (s, createAnyType)
    | .spreadElement argument _ => checkExpression n argument s
    | .awaitExpression argument _ =>
      let (s, _) := checkExpression n argument s
      (s, createAnyType)
    | .yieldExpression argument _ _ =>
      match argument with
      | some a => checkExpression n a s
      | none => (s, createUndefinedType)
    | .templateLiteralExpr _ expressions _ =>
      let s := checkExpressionList n expressions s
      (s, createStringType)
    | .taggedTemplateExpression tag _ _ =>
      let (s, _) := checkExpression n tag s
      (s, createAnyType)
    | .typeAssertion typeAnn expression _ =>
      let (s, _) := checkExpression n expression s
      resolveTypeNode n typeAnn s
    | .asExpression expression typeAnn _ =>
      let (s, _) := checkExpression n expression s
      resolveTypeNode n typeAnn s
    | .nonNullExpression expression _ => checkExpression n expression s
    | .classExpression _ _ _ _ _ => (s, createAnyType)
    | .parenthesizedExpression expression _ => checkExpression n expression s

  termination_by structural n => n
/-- An expression loop discarding result types (`for (const arg of …)
this.checkExpression(arg)`). -/
def checkExpressionList : Nat → List Expr → CheckerSt → CheckerSt
  | 0, _, s => s
  | _ + 1, [], s => s
  | n + 1, e :: rest, s =>
    let s := (checkExpression n e s).1
    checkExpressionList n rest s

  termination_by structural n => n
/-- `checkBinaryExpression(expr)`. -/
def checkBinaryExpression :
    Nat → String → Expr → Expr → Nat → CheckerSt → CheckerSt × Ty
  | 0, _, _, _, _, s => (s, createAnyType)
  | n + 1, operator, left, right, line, s =>
    let (s, leftType) := checkExpression n left s
    let (s, rightType) := checkExpression n right s
    if (["+", "-", "*", "/", "%", "**"] : List String).contains operator then
      if operator == "+" &&
          (leftType.kind == "string" || rightType.kind == "string") then
        (s, createStringType)
      else if leftType.kind == "number" && rightType.kind == "number" then
        (s, createNumberType)
      else
        let s :=
          if leftType.kind != "number" && leftType.kind != "any" then
            addError
              "The left-hand side of an arithmetic operation must be of type 'number'"
              line s
          else s
        let s :=
          if rightType.kind != "number" && rightType.kind != "any" then
            addError
              "The right-hand side of an arithmetic operation must be of type 'number'"
              line s
          else s
        (s, createNumberType)
    else if (["==", "===", "!=", "!==", "<", ">", "<=", ">="] :
        List String).contains operator then
      (s, createBooleanType)
    else if (["&", "|", "^", "<<", ">>", ">>>"] : List String).contains
        operator then
      (s, createNumberType)
    else if operator == "instanceof" || operator == "in" then
      (s, createBooleanType)
    else (s, createAnyType)

  termination_by structural n => n
/-- `checkUnaryExpression(expr)`. -/
def checkUnaryExpression :
    Nat → String → Expr → Nat → CheckerSt → CheckerSt × Ty
  | 0, _, _, _, s => (s, createAnyType)
  | n + 1, operator, operand, line, s =>
    let (s, operandType) := checkExpression n operand s
    if operator == "-" || operator == "+" || operator == "~" then
      let s :=
        if operandType.kind != "number" && operandType.kind != "any" then
          addError ("Unary '" ++ operator ++ "' requires a number operand")
            line s
        else s
      (s, createNumberType)
    else if operator == "!" then (s, createBooleanType)
    else if operator == "typeof" then (s, createStringType)
    else if operator == "delete" then (s, createBooleanType)
    else (s, createAnyType)

  termination_by structural n => n
/-- `checkCallExpression(expr)`: arity checks, then pairwise argument
assignability.  (The cast to `FunctionType` after the kind test cannot
reach a non-function constructor.) -/
def checkCallExpression :
    Nat → Expr → List Expr → Nat → CheckerSt → CheckerSt × Ty
  | 0, _, _, _, s => (s, createAnyType)
  | n + 1, callee, args, line, s =>
    let (s, calleeType) := checkExpression n callee s
    if calleeType.kind == "any" then
      let s := checkExpressionList n args s
      (s, createAnyType)
    else if calleeType.kind != "function" then
      (addError "This expression is not callable" line s, createAnyType)
    else
      match calleeType with
      | .function ps ret =>
        let hasRestParam := ps.any (fun p => strStartsWith p.name "...")
        let requiredParams :=
          (ps.filter
            (fun p => !p.optional && !(strStartsWith p.name "..."))).length
        let s :=
          if args.length < requiredParams then
            addError ("Expected at least " ++ toString requiredParams ++
              " arguments, but got " ++ toString args.length) line s
          else if !hasRestParam && args.length > ps.length then
            addError ("Expected at most " ++ toString ps.length ++
              " arguments, but got " ++ toString args.length) line s
          else s
        let checkCount :=
          if hasRestParam then min args.length (ps.length - 1)
          else min args.length ps.length
        let s := checkCallArgs n args ps checkCount line s
        (s, ret)
      | _ => (s, createAnyType)

  termination_by structural n => n
/-- The argument loop of `checkCallExpression`: the first `checkCount`
arguments pairwise against the parameters; a spread argument's inner
expression is checked but not matched positionally. -/
def checkCallArgs :
    Nat → List Expr → List FnParam → Nat → Nat → CheckerSt → CheckerSt
  | 0, _, _, _, _, s => s
  | _ + 1, _, _, 0, _, s => s
  | _ + 1, [], _, _ + 1, _, s => s
  | _ + 1, _ :: _, [], _ + 1, _, s => s
  | n + 1, arg :: args, p :: ps, count + 1, line, s =>
    match arg with
    | .spreadElement inner _ =>
      let s := (checkExpression n inner s).1
      checkCallArgs n args ps count line s
    | _ =>
      let (s, argType) := checkExpression n arg s
      let s :=
        if !isAssignable argType p.type then
          addError ("Argument of type '" ++ typeToString argType ++
            "' is not assignable to parameter of type '" ++
            typeToString p.type ++ "'") line s
        else s
      checkCallArgs n args ps count line s

  termination_by structural n => n
/-- `checkMemberExpression(expr)`. -/
def checkMemberExpression :
    Nat → Expr → String → Nat → CheckerSt → CheckerSt × Ty
  | 0, _, _, _, s => (s, createAnyType)
  | n + 1, object, property, line, s =>
    let (s, objectType) := checkExpression n object s
    match objectType with
    | .any => (s, createAnyType)
    | .interface iname ms =>
      match ifaceGet ms property with
      | none =>
          (addError ("Property '" ++ property ++
            "' does not exist on type '" ++ iname ++ "'") line s,
           createAnyType)
      | some member => (s, member.type)
    | .«class» cname ms _ =>
      match classGet ms property with
      | none =>
          (addError ("Property '" ++ property ++
            "' does not exist on type '" ++ cname ++ "'") line s,
           createAnyType)
      | some member => (s, member.type)
    | .array _ =>
      if property == "length" then (s, createNumberType)
      else if arrayMethods.contains property then (s, createAnyType)
      else (s, createAnyType)
    | .string =>
      if stringMethods.contains property then
        if property == "length" then (s, createNumberType)
        else (s, createAnyType)
      else (s, createAnyType)
    | _ => (s, createAnyType)

  termination_by structural n => n
/-- `checkComputedMemberExpression(expr)`. -/
def checkComputedMemberExpression :
    Nat → Expr → Expr → Nat → CheckerSt → CheckerSt × Ty
  | 0, _, _, _, s => (s, createAnyType)
  | n + 1, object, property, line, s =>
    let (s, objectType) := checkExpression n object s
    let (s, indexType) := checkExpression n property s
    match objectType with
    | .array elementType =>
      let s :=
        if indexType.kind != "number" && indexType.kind != "any" then
          addError "Array index must be a number" line s
        else s
      (s, elementType)
    | .tuple elementTypes => (s, createUnionType elementTypes)
    | _ => (s, createAnyType)

  termination_by structural n => n
/-- `checkObjectLiteral(expr)`: an anonymous interface, one member per
non-spread property (computed keys collapse to `"<computed>"`). -/
def checkObjectLiteral :
    Nat → List ObjectPropNode → CheckerSt → CheckerSt × Ty
  | 0, _, s => (s, createAnyType)
  | n + 1, properties, s =>
    let (s, ms) := checkObjectProps n properties [] s
    (s, .interface "<anonymous>" ms)

  termination_by structural n => n
/-- The property loop of `checkObjectLiteral`. -/
def checkObjectProps :
    Nat → List ObjectPropNode → List IfaceMember → CheckerSt →
    CheckerSt × List IfaceMember
  | 0, _, acc, s => (s, acc)
  | _ + 1, [], acc, s => (s, acc)
  | n + 1, .mk key value _ _ _ :: rest, acc, s =>
    match value with
    | .spreadElement inner _ =>
      let s := (checkExpression n inner s).1
      checkObjectProps n rest acc s
    | _ =>
      let (s, valueType) := checkExpression n value s
      let k :=
        match key with
        | .str str => str
        | .expr _ => "<computed>"
      checkObjectProps n rest
        (ifaceSet (IfaceMember.mk k valueType false false) acc) s

  termination_by structural n => n
/-- `checkArrayLiteral(expr)`: element type is the deduplicated union of
the element types. -/
def checkArrayLiteral :
    Nat → List (Option Expr) → CheckerSt → CheckerSt × Ty
  | 0, _, s => (s, createAnyType)
  | n + 1, elements, s =>
    if elements.length == 0 then (s, createArrayType createAnyType)
    else
      let (s, types) := checkArrayElems n elements s
      match types with
      | [t] => (s, createArrayType t)
      | _ =>
        let uniqueTypes := deduplicateTypes types
        match uniqueTypes with
        | [u] => (s, createArrayType u)
        | _ => (s, createArrayType (createUnionType uniqueTypes))

  termination_by structural n => n
/-- The element loop of `checkArrayLiteral`: holes are skipped; a spread of
an array contributes the element type. -/
def checkArrayElems :
    Nat → List (Option Expr) → CheckerSt → CheckerSt × List Ty
  | 0, _, s => (s, [])
  | _ + 1, [], s => (s, [])
  | n + 1, none :: rest, s => checkArrayElems n rest s
  | n + 1, some e :: rest, s =>
    match e with
    | .spreadElement inner _ =>
      let (s, spreadType) := checkExpression n inner s
      let t :=
        match spreadType with
        | .array et => et
        | other => other
      let (s, ts) := checkArrayElems n rest s
      (s, t :: ts)
    | _ =>
      let (s, t) := checkExpression n e s
      let (s, ts) := checkArrayElems n rest s
      (s, t :: ts)

  termination_by structural n => n
/-- `checkArrowFunction(expr)`: parameters bound in a fresh child
environment; an expression body's checked type doubles as the return type
when no annotation is given. -/
def checkArrowFunction :
    Nat → List Param → Option TypeNode → ArrowBody → CheckerSt →
    CheckerSt × Ty
  | 0, _, _, _, s => (s, createAnyType)
  | n + 1, parameters, returnType, body, s =>
    let (s, ps) := resolveParams n parameters s
    let previousEnv := s.env
    let s := { s with env := Env.pushChild s.env }
    let s := defineFnParams ps s
    let (s, retTy) :=
      match returnType with
      | some rt => resolveTypeNode n rt s
      | none =>
        match body with
        | .block _ => (s, createVoidType)
        | .expr e => checkExpression n e s
    let s :=
      match body with
      | .block b =>
        let previousReturn := s.currentReturnType
        let s := { s with currentReturnType := some retTy }
        let s := checkBlockStatement n b s
        { s with currentReturnType := previousReturn }
      | .expr _ => s
    let s := { s with env := previousEnv }
    (s, .function ps retTy)

  termination_by structural n => n
/-- `checkFunctionExpression(expr)`: like an arrow function, but the
optional name is bound in the child environment for recursion. -/
def checkFunctionExpression :
    Nat → Option String → List Param → Option TypeNode → BlockStmt →
    CheckerSt → CheckerSt × Ty
  | 0, _, _, _, _, s => (s, createAnyType)
  | n + 1, name, parameters, returnType, body, s =>
    let (s, ps) := resolveParams n parameters s
    let (s, retTy) :=
      match returnType with
      | some rt => resolveTypeNode n rt s
      | none => (s, createVoidType)
    let previousEnv := s.env
    let s := { s with env := Env.pushChild s.env }
    let s :=
      match name with
      | some nm =>
          { s with
            env := Env.define nm ⟨.function ps retTy, "function", none⟩ s.env }
      | none => s
    let s := defineFnParams ps s
    let previousReturn := s.currentReturnType
    let s := { s with currentReturnType := some retTy }
    let s := checkBlockStatement n body s
    let s := { s with currentReturnType := previousReturn, env := previousEnv }
    (s, .function ps retTy)

  termination_by structural n => n
/-- `checkNewExpression(expr)`: the class type itself when the callee is a
class, `any` otherwise. -/
def checkNewExpression :
    Nat → Expr → List Expr → CheckerSt → CheckerSt × Ty
  | 0, _, _, s => (s, createAnyType)
  | n + 1, callee, args, s =>
    let (s, calleeType) := checkExpression n callee s
    let s := checkExpressionList n args s
    match calleeType with
    | .«class» _ _ _ => (s, calleeType)
    | _ => (s, createAnyType)

  termination_by structural n => n
end

/-! ### The five passes of `check` -/

/-- First pass: collect type aliases and enums. -/
def pass1Loop (n : Nat) : List Stmt → CheckerSt → CheckerSt
  | [], s => s
  | stmt :: rest, s =>
    let s :=
      match stmt with
      | .typeAliasDeclaration name _ type _ => registerTypeAlias n name type s
      | .enumDeclaration name members _ _ => registerEnumType name members s
      | _ => s
    pass1Loop n rest s

/-- Second pass: collect interfaces. -/
def pass2Loop (n : Nat) : List Stmt → CheckerSt → CheckerSt
  | [], s => s
  | stmt :: rest, s =>
    let s :=
      match stmt with
      | .interfaceDeclaration name members _ _ _ =>
          registerInterfaceType n name members s
      | _ => s
    pass2Loop n rest s

/-- Third pass: collect classes. -/
def pass3Loop (n : Nat) : List Stmt → CheckerSt → CheckerSt
  | [], s => s
  | stmt :: rest, s =>
    let s :=
      match stmt with
      | .classDeclaration name superClass _ _ members _ _ _ =>
          registerClassType n name superClass members s
      | _ => s
    pass3Loop n rest s

/-- Fourth pass: collect function signatures. -/
def pass4Loop (n : Nat) : List Stmt → CheckerSt → CheckerSt
  | [], s => s
  | stmt :: rest, s =>
    let s :=
      match stmt with
      | .functionDeclaration name parameters returnType _ _ _ _ _ =>
          registerFunctionType n name parameters returnType s
      | _ => s
    pass4Loop n rest s

/-- `check(program)`: reset the error list, run the four collection passes,
then check every statement; returns the final state and the error list. -/
def check (n : Nat) (program : Program) (s : CheckerSt) :
    CheckerSt × List CompilerError :=
  let s := { s with errors := [] }
  let s := pass1Loop n program.statements s
  let s := pass2Loop n program.statements s
  let s := pass3Loop n program.statements s
  let s := pass4Loop n program.statements s
  let s := checkStatements n program.statements s
  (s, s.errors)

/-- `typeCheck(program)`: run a fresh checker (with registered built-ins)
on the program; the fuel bound exceeds the recursion depth. -/
def typeCheck (program : Program) : List CompilerError :=
  (check (program.size + 2) program initialCheckerSt).2

/-- Wrapper used by theorems about expression types: the checked type of an
expression in a fresh checker state. -/
def checkExprType (e : Expr) : Ty :=
  (checkExpression (e.size + 2) e initialCheckerSt).2

/-! ## Emitter (`emitter.ts`)

The expression serializer and the inline statement serializer are pure
functions of the syntax tree; the statement emitter threads the `Emitter`
class's mutable state (`output`, `indentLevel`).  All are fuelled as in the
checker.  Braces inside emitted text are written with `\x7b`/`\x7d`
escapes. -/

/-- One character of `JSON.stringify`'s string escaping. -/
def jsonEscapeChar (c : Char) : String :=
  if c == '"' then "\\\""
  else if c == '\\' then "\\\\"
  else if c == '\n' then "\\n"
  else if c == '\r' then "\\r"
  else if c == '\t' then "\\t"
  else if c == '\x08' then "\\b"
  else if c == '\x0c' then "\\f"
  else if c.toNat < 0x20 then
    "\\u00" ++
      String.singleton
        (if c.toNat / 16 < 10 then Char.ofNat ('0'.toNat + c.toNat / 16)
         else Char.ofNat ('a'.toNat + c.toNat / 16 - 10)) ++
      String.singleton
        (if c.toNat % 16 < 10 then Char.ofNat ('0'.toNat + c.toNat % 16)
         else Char.ofNat ('a'.toNat + c.toNat % 16 - 10))
  else String.singleton c

/-- `JSON.stringify(value)` for a string value (used by the emitter for
`StringLiteral`s; ASCII control characters become `\u00..` escapes). -/
def jsonStringify (s : String) : String :=
  "\"" ++ String.join (s.toList.map jsonEscapeChar) ++ "\""

/-- `String(value)` for a numeric literal (numbers are modelled as `Int`). -/
def jsNumToString (n : Int) : String := toString n

mutual

/-- `emitExpression(expr)`: the recursive expression serializer. -/
def emitExpressionFuel : Nat → Expr → String
  | 0, _ => ""
  | n + 1, expr =>
    match expr with
    | .numericLiteral value _ => jsNumToString value
    | .stringLiteral value _ => jsonStringify value
    | .booleanLiteral value _ => if value then "true" else "false"
    | .nullLiteral _ => "null"
    | .undefinedLiteral _ => "undefined"
    | .identifier name _ => name
    | .thisExpression _ => "this"
    | .superExpression _ => "super"
    | .binaryExpression operator left right _ =>
        emitExpressionFuel n left ++ " " ++ operator ++ " " ++
          emitExpressionFuel n right
    | .unaryExpression operator operand pfx _ =>
      if pfx then
        let space :=
          if operator == "typeof" || operator == "delete" then " " else ""
        operator ++ space ++ emitExpressionFuel n operand
      else emitExpressionFuel n operand ++ operator
    | .updateExpression operator argument pfx _ =>
      if pfx then operator ++ emitExpressionFuel n argument
      else emitExpressionFuel n argument ++ operator
    | .callExpression callee arguments _ optional _ =>
      let calleeS := emitExpressionFuel n callee
      let argsS := String.intercalate ", " (emitExprListFuel n arguments)
      let optionalChain := if optional then "?." else ""
      calleeS ++ optionalChain ++ "(" ++ argsS ++ ")"
    | .memberExpression object property optional _ =>
      let obj := emitExpressionFuel n object
      let optionalChain := if optional then "?." else "."
      obj ++ optionalChain ++ property
    | .computedMemberExpression object property optional _ =>
      let obj := emitExpressionFuel n object
      let prop := emitExpressionFuel n property
      let optionalChain := if optional then "?." else ""
      obj ++ optionalChain ++ "[" ++ prop ++ "]"
    | .objectLiteral properties _ =>
      if properties.length == 0 then "\x7b\x7d"
      else
        "\x7b " ++
          String.intercalate ", " (emitObjectPropsFuel n properties) ++
          " \x7d"
    | .arrayLiteral elements _ =>
        "[" ++ String.intercalate ", " (emitArrayElemsFuel n elements) ++ "]"
    | .arrowFunction parameters _ body isAsync _ _ =>
      let prefixS := if isAsync then "async " else ""
      let params := String.intercalate ", " (emitParamsFuel n parameters)
      let bodyS :=
        match body with
        | .block b =>
            "\x7b " ++
              String.intercalate " " (emitStmtsInlineFuel n b.statements) ++
              " \x7d"
        | .expr e => emitExpressionFuel n e
      match parameters with
      | [p] =>
        if p.typeAnn.isNone && p.defaultValue.isNone then
          prefixS ++ params ++ " => " ++ bodyS
        else prefixS ++ "(" ++ params ++ ") => " ++ bodyS
      | _ => prefixS ++ "(" ++ params ++ ") => " ++ bodyS
    | .functionExpression name parameters _ body isAsync isGenerator _ _ =>
      let prefixS :=
        (if isAsync then "async " else "") ++ "function" ++
          (if isGenerator then "*" else "") ++
          (match name with | some nm => " " ++ nm | none => "")
      let params := String.intercalate ", " (emitParamsFuel n parameters)
      let stmts := String.intercalate " " (emitStmtsInlineFuel n body.statements)
      prefixS ++ "(" ++ params ++ ") \x7b " ++ stmts ++ " \x7d"
    | .conditionalExpression condition consequent alternate _ =>
        emitExpressionFuel n condition ++ " ? " ++
          emitExpressionFuel n consequent ++ " : " ++
          emitExpressionFuel n alternate
    | .assignmentExpression operator left right _ =>
        emitExpressionFuel n left ++ " " ++ operator ++ " " ++
          emitExpressionFuel n right
    | .logicalExpression operator left right _ =>
        emitExpressionFuel n left ++ " " ++ operator ++ " " ++
          emitExpressionFuel n right
    | .newExpression callee arguments _ _ =>
      let calleeS := emitExpressionFuel n callee
      let argsS := String.intercalate ", " (emitExprListFuel n arguments)
      "new " ++ calleeS ++ "(" ++ argsS ++ ")"
    | .spreadElement argument _ => "..." ++ emitExpressionFuel n argument
    | .awaitExpression argument _ => "await " ++ emitExpressionFuel n argument
    | .yieldExpression argument delegate _ =>
      match argument with
      | some a =>
        if delegate then "yield* " ++ emitExpressionFuel n a
        else "yield " ++ emitExpressionFuel n a
      | none => "yield"
    | .templateLiteralExpr quasis expressions _ =>
        "`" ++ emitTemplateFuel n quasis expressions ++ "`"
    | .taggedTemplateExpression tag quasi _ =>
        emitExpressionFuel n tag ++ emitExpressionFuel n quasi
    | .typeAssertion _ expression _ => emitExpressionFuel n expression
    | .asExpression expression _ _ => emitExpressionFuel n expression
    | .nonNullExpression expression _ => emitExpressionFuel n expression
    | .classExpression name superClass _ _ _ =>
      let result :=
        "class" ++ (match name with | some nm => " " ++ nm | none => "")
      let result :=
        match superClass with
        | some sc => result ++ " extends " ++ emitExpressionFuel n sc
        | none => result
      result ++ " \x7b \x7d"
    | .parenthesizedExpression expression _ =>
        "(" ++ emitExpressionFuel n expression ++ ")"
  termination_by structural n => n

/-- `arguments.map((arg) => this.emitExpression(arg))`. -/
def emitExprListFuel : Nat → List Expr → List String
  | 0, _ => []
  | _ + 1, [] => []
  | n + 1, e :: rest => emitExpressionFuel n e :: emitExprListFuel n rest
  termination_by structural n => n

/-- The property serializer of `ObjectLiteral` printing.  (A method
property whose key is an expression node would be stringified by JS as
`[object Object]`; a method value that is not a function/arrow expression
would contribute empty parameters and body via optional chaining.) -/
def emitObjectPropsFuel : Nat → List ObjectPropNode → List String
  | 0, _ => []
  | _ + 1, [] => []
  | n + 1, .mk key value computed shorthand method :: rest =>
    let this :=
      match value with
      | .spreadElement argument _ => "..." ++ emitExpressionFuel n argument
      | _ =>
        if shorthand then
          match key with
          | .str s => s
          | .expr e => emitExpressionFuel n e
        else if computed then
          (match key with
           | .str s => "[" ++ s ++ "]: "
           | .expr e => "[" ++ emitExpressionFuel n e ++ "]: ") ++
            emitExpressionFuel n value
        else if method then
          let keyS :=
            match key with
            | .str s => s
            | .expr _ => "[object Object]"
          let params :=
            match value with
            | .functionExpression _ ps _ _ _ _ _ _ =>
                String.intercalate ", " (ps.map Param.name)
            | .arrowFunction ps _ _ _ _ _ =>
                String.intercalate ", " (ps.map Param.name)
            | _ => ""
          let body :=
            match value with
            | .functionExpression _ _ _ b _ _ _ _ =>
                String.intercalate " " (emitStmtsInlineFuel n b.statements)
            | .arrowFunction _ _ (.block b) _ _ _ =>
                String.intercalate " " (emitStmtsInlineFuel n b.statements)
            | _ => ""
          keyS ++ "(" ++ params ++ ") \x7b " ++ body ++ " \x7d"
        else
          let keyS :=
            match key with
            | .str s => s
            | .expr e => emitExpressionFuel n e
          keyS ++ ": " ++ emitExpressionFuel n value
    this :: emitObjectPropsFuel n rest
  termination_by structural n => n

/-- The element serializer of `ArrayLiteral` printing (holes print as
empty). -/
def emitArrayElemsFuel : Nat → List (Option Expr) → List String
  | 0, _ => []
  | _ + 1, [] => []
  | n + 1, el :: rest =>
    let this :=
      match el with
      | none => ""
      | some (.spreadElement argument _) =>
          "..." ++ emitExpressionFuel n argument
      | some e => emitExpressionFuel n e
    this :: emitArrayElemsFuel n rest
  termination_by structural n => n

/-- One parameter of a parameter list: rest marker, name, default value
(type annotations are erased). -/
def emitParamFuel : Nat → Param → String
  | 0, _ => ""
  | n + 1, p =>
    let param := (if p.rest then "..." else "") ++ p.name
    match p.defaultValue with
    | some dv => param ++ " = " ++ emitExpressionFuel n dv
    | none => param
  termination_by structural n => n

/-- `parameters.map(...)` for declarations, methods and function
expressions. -/
def emitParamsFuel : Nat → List Param → List String
  | 0, _ => []
  | _ + 1, [] => []
  | n + 1, p :: rest => emitParamFuel n p :: emitParamsFuel n rest
  termination_by structural n => n

/-- The quasi/expression interleaving of template-literal printing. -/
def emitTemplateFuel : Nat → List String → List Expr → String
  | 0, _, _ => ""
  | _ + 1, [], _ => ""
  | n + 1, q :: qs, [] => q ++ emitTemplateFuel n qs []
  | n + 1, q :: qs, e :: es =>
      q ++ "$\x7b" ++ emitExpressionFuel n e ++ "\x7d" ++
        emitTemplateFuel n qs es
  termination_by structural n => n

/-- `emitStatementInline(stmt)`: single-line statement serializer used
inside object-literal methods, arrow bodies and function expressions.
(The `ForInStatement` arm dereferences the non-existent `iterable` field
and would throw in JS; it is modelled as the empty string and is not
exercised by any settled claim.  The `variable` interpolation of the
for-of arm stringifies a node object, hence `[object Object]`.) -/
def emitStatementInlineFuel : Nat → Stmt → String
  | 0, _ => ""
  | n + 1, stmt =>
    match stmt with
    | .returnStatement argument _ =>
      match argument with
      | some a => "return " ++ emitExpressionFuel n a ++ ";"
      | none => "return;"
    | .expressionStatement expression _ =>
        emitExpressionFuel n expression ++ ";"
    | .variableDeclaration name varKind _ initializer _ =>
      let result := varKind ++ " " ++ name
      let result :=
        match initializer with
        | some ini => result ++ " = " ++ emitExpressionFuel n ini
        | none => result
      result ++ ";"
    | .breakStatement label _ =>
      match label with
      | some l => "break " ++ l ++ ";"
      | none => "break;"
    | .continueStatement label _ =>
      match label with
      | some l => "continue " ++ l ++ ";"
      | none => "continue;"
    | .throwStatement argument _ =>
        "throw " ++ emitExpressionFuel n argument ++ ";"
    | .ifStatement condition consequent alternate _ =>
        emitIfStatementInlineFuel n condition consequent alternate
    | .blockStatement b =>
        "\x7b " ++
          String.intercalate " " (emitStmtsInlineFuel n b.statements) ++
          " \x7d"
    | .forOfStatement _ iterable body _ _ =>
        "for (const [object Object] of " ++ emitExpressionFuel n iterable ++
          ") " ++ emitStatementInlineFuel n body
    | .forInStatement _ _ _ _ => ""
    | _ => ""
  termination_by structural n => n

/-- `statements.map((s) => this.emitStatementInline(s))`. -/
def emitStmtsInlineFuel : Nat → List Stmt → List String
  | 0, _ => []
  | _ + 1, [] => []
  | n + 1, st :: rest =>
      emitStatementInlineFuel n st :: emitStmtsInlineFuel n rest
  termination_by structural n => n

/-- `emitIfStatementInline(stmt)`. -/
def emitIfStatementInlineFuel :
    Nat → Expr → Stmt → Option Stmt → String
  | 0, _, _, _ => ""
  | n + 1, condition, consequent, alternate =>
    let result := "if (" ++ emitExpressionFuel n condition ++ ") "
    let result :=
      match consequent with
      | .blockStatement b =>
          result ++ "\x7b " ++
            String.intercalate " " (emitStmtsInlineFuel n b.statements) ++
            " \x7d"
      | other => result ++ emitStatementInlineFuel n other
    match alternate with
    | some alt =>
      let result := result ++ " else "
      match alt with
      | .ifStatement c2 cons2 alt2 _ =>
          result ++ emitIfStatementInlineFuel n c2 cons2 alt2
      | .blockStatement b =>
          result ++ "\x7b " ++
            String.intercalate " " (emitStmtsInlineFuel n b.statements) ++
            " \x7d"
      | other => result ++ emitStatementInlineFuel n other
    | none => result
  termination_by structural n => n

end

/-- `emitExpression` with wrapper-chosen fuel. -/
def emitExpr (e : Expr) : String := emitExpressionFuel (3 * e.size + 8) e

/-- The mutable fields of the `Emitter` class. -/
structure EmitSt where
  output : String
  indentLevel : Nat

/-- `this.indentString.repeat(this.indentLevel)`. -/
def indentOf (st : EmitSt) : String :=
  String.join (List.replicate st.indentLevel "  ")

/-- `emitLine(line)`. -/
def emitLine (line : String) (st : EmitSt) : EmitSt :=
  { st with output := st.output ++ indentOf st ++ line ++ "\n" }

/-- JS whitespace for `trimEnd` (the ASCII subset; emitted text is
ASCII). -/
def isJsWhitespace (c : Char) : Bool :=
  c == ' ' || c == '\t' || c == '\n' || c == '\r' || c == '\x0b' || c == '\x0c'

/-- `String.prototype.trimEnd`, on character lists so that it reduces. -/
def jsTrimEnd (s : String) : String :=
  String.mk ((s.toList.reverse.dropWhile isJsWhitespace).reverse)

/-- The export-specifier serializer
(`local === exported ? local : local + " as " + exported`). -/
def exportSpecString (s : ExportSpecNode) : String :=
  if s.localName = s.exported then s.localName
  else s.localName ++ " as " ++ s.exported

/-- The import-specifier collection loop: `parts` gathers default and
namespace entries in order, `named` the brace-list entries. -/
def importParts :
    List ImportSpecNode → List String → List String →
    List String × List String
  | [], parts, named => (parts, named)
  | .defaultSpec localName :: rest, parts, named =>
      importParts rest (parts ++ [localName]) named
  | .namespaceSpec localName :: rest, parts, named =>
      importParts rest (parts ++ ["* as " ++ localName]) named
  | .namedSpec imported localName _ :: rest, parts, named =>
      importParts rest parts
        (named ++
          [if imported = localName then localName
           else imported ++ " as " ++ localName])

mutual

/-- `emitStatement(stmt)`: dispatch on the statement kind. -/
def emitStatement : Nat → Stmt → EmitSt → EmitSt
  | 0, _, st => st
  | n + 1, stmt, st =>
    match stmt with
    | .variableDeclaration name varKind _ initializer _ =>
      let line := varKind ++ " " ++ name
      let line :=
        match initializer with
        | some ini => line ++ " = " ++ emitExpr ini
        | none => line
      emitLine (line ++ ";") st
    | .functionDeclaration name parameters _ body isAsync isGenerator _ _ =>
        emitFunctionDeclaration n name parameters body isAsync isGenerator st
    | .interfaceDeclaration name _ _ _ _ =>
        emitLine ("// interface " ++ name ++ " removed") st
    | .typeAliasDeclaration name _ _ _ =>
        emitLine ("// type " ++ name ++ " removed") st
    | .classDeclaration name superClass _ _ members _ isAbstract _ =>
        emitClassDeclaration n name superClass members isAbstract st
    | .enumDeclaration name members isConst _ =>
        emitEnumDeclaration n name members isConst st
    | .returnStatement argument _ =>
      (match argument with
       | some a => emitLine ("return " ++ emitExpr a ++ ";") st
       | none => emitLine "return;" st)
    | .ifStatement condition consequent alternate _ =>
        emitIfStatement n condition consequent alternate st
    | .whileStatement condition body _ =>
      let st := emitLine ("while (" ++ emitExpr condition ++ ") \x7b") st
      let st := { st with indentLevel := st.indentLevel + 1 }
      let st := emitBodyStatements n body st
      let st := { st with indentLevel := st.indentLevel - 1 }
      emitLine "\x7d" st
    | .forStatement init condition update body _ =>
      let initS :=
        match init with
        | some (.declInit name varKind _ ini _) =>
          let s0 := varKind ++ " " ++ name
          (match ini with
           | some i => s0 ++ " = " ++ emitExpr i
           | none => s0)
        | some (.exprInit e) => emitExpr e
        | none => ""
      let conditionS :=
        match condition with
        | some c => emitExpr c
        | none => ""
      let updateS :=
        match update with
        | some u => emitExpr u
        | none => ""
      let st :=
        emitLine ("for (" ++ initS ++ "; " ++ conditionS ++ "; " ++
          updateS ++ ") \x7b") st
      let st := { st with indentLevel := st.indentLevel + 1 }
      let st := emitBodyStatements n body st
      let st := { st with indentLevel := st.indentLevel - 1 }
      emitLine "\x7d" st
    | .forOfStatement v iterable body isAwait _ =>
      let variableS :=
        match v with
        | .declVar name varKind _ _ _ => varKind ++ " " ++ name
        | .identVar name _ => name
      let keyword := if isAwait then "for await" else "for"
      let st :=
        emitLine (keyword ++ " (" ++ variableS ++ " of " ++
          emitExpr iterable ++ ") \x7b") st
      let st := { st with indentLevel := st.indentLevel + 1 }
      let st := emitBodyStatements n body st
      let st := { st with indentLevel := st.indentLevel - 1 }
      emitLine "\x7d" st
    | .forInStatement v object body _ =>
      let variableS :=
        match v with
        | .declVar name varKind _ _ _ => varKind ++ " " ++ name
        | .identVar name _ => name
      let st :=
        emitLine ("for (" ++ variableS ++ " in " ++ emitExpr object ++
          ") \x7b") st
      let st := { st with indentLevel := st.indentLevel + 1 }
      let st := emitBodyStatements n body st
      let st := { st with indentLevel := st.indentLevel - 1 }
      emitLine "\x7d" st
    | .doWhileStatement body condition _ =>
      let st := emitLine "do \x7b" st
      let st := { st with indentLevel := st.indentLevel + 1 }
      let st := emitBodyStatements n body st
      let st := { st with indentLevel := st.indentLevel - 1 }
      emitLine ("\x7d while (" ++ emitExpr condition ++ ");") st
    | .switchStatement discriminant cases _ =>
      let st :=
        emitLine ("switch (" ++ emitExpr discriminant ++ ") \x7b") st
      let st := { st with indentLevel := st.indentLevel + 1 }
      let st := emitSwitchCasesLoop n cases st
      let st := { st with indentLevel := st.indentLevel - 1 }
      emitLine "\x7d" st
    | .breakStatement label _ =>
      (match label with
       | some l => emitLine ("break " ++ l ++ ";") st
       | none => emitLine "break;" st)
    | .continueStatement label _ =>
      (match label with
       | some l => emitLine ("continue " ++ l ++ ";") st
       | none => emitLine "continue;" st)
    | .throwStatement argument _ =>
        emitLine ("throw " ++ emitExpr argument ++ ";") st
    | .tryStatement block handler finalizer _ =>
        emitTryStatement n block handler finalizer st
    | .expressionStatement expression _ =>
        emitLine (emitExpr expression ++ ";") st
    | .blockStatement b =>
      let st := emitLine "\x7b" st
      let st := { st with indentLevel := st.indentLevel + 1 }
      let st := emitStatementsLoop n b.statements st
      let st := { st with indentLevel := st.indentLevel - 1 }
      emitLine "\x7d" st
    | .importDeclaration specifiers source _ _ =>
        emitImportDeclaration specifiers source st
    | .exportDeclaration declaration specifiers source isDefault _ _ =>
        emitExportDeclaration n declaration specifiers source isDefault st
    | .emptyStatement _ => emitLine ";" st
  termination_by structural n => n

/-- The statement loop of bodies and blocks. -/
def emitStatementsLoop : Nat → List Stmt → EmitSt → EmitSt
  | 0, _, st => st
  | _ + 1, [], st => st
  | n + 1, stmt :: rest, st =>
    let st := emitStatement n stmt st
    emitStatementsLoop n rest st
  termination_by structural n => n

/-- The `stmt.body.kind === "BlockStatement" ? loop statements :
emitStatement(body)` pattern shared by loop statements. -/
def emitBodyStatements : Nat → Stmt → EmitSt → EmitSt
  | 0, _, st => st
  | n + 1, body, st =>
    match body with
    | .blockStatement b => emitStatementsLoop n b.statements st
    | other => emitStatement n other st
  termination_by structural n => n

/-- `emitFunctionDeclaration(decl)`. -/
def emitFunctionDeclaration :
    Nat → String → List Param → BlockStmt → Bool → Bool → EmitSt → EmitSt
  | 0, _, _, _, _, _, st => st
  | n + 1, name, parameters, body, isAsync, isGenerator, st =>
    let prefixS :=
      (if isAsync then "async " else "") ++ "function" ++
        (if isGenerator then "*" else "")
    let params :=
      String.intercalate ", " (emitParamsFuel (3 * sizeParams parameters + 8) parameters)
    let st := emitLine (prefixS ++ " " ++ name ++ "(" ++ params ++ ") \x7b") st
    let st := { st with indentLevel := st.indentLevel + 1 }
    let st := emitStatementsLoop n body.statements st
    let st := { st with indentLevel := st.indentLevel - 1 }
    emitLine "\x7d" st
  termination_by structural n => n

/-- `emitClassDeclaration(decl)`. -/
def emitClassDeclaration :
    Nat → String → Option Expr → List ClassMemberNode → Bool → EmitSt →
    EmitSt
  | 0, _, _, _, _, st => st
  | n + 1, name, superClass, members, isAbstract, st =>
    let line := (if isAbstract then "/* abstract */ " else "") ++ "class " ++ name
    let line :=
      match superClass with
      | some sc => line ++ " extends " ++ emitExpr sc
      | none => line
    let st := emitLine (line ++ " \x7b") st
    let st := { st with indentLevel := st.indentLevel + 1 }
    let st := emitClassMembersLoop n members st
    let st := { st with indentLevel := st.indentLevel - 1 }
    emitLine "\x7d" st
  termination_by structural n => n

/-- The member loop of `emitClassDeclaration`. -/
def emitClassMembersLoop :
    Nat → List ClassMemberNode → EmitSt → EmitSt
  | 0, _, st => st
  | _ + 1, [], st => st
  | n + 1, m :: rest, st =>
    let st := emitClassMember n m st
    emitClassMembersLoop n rest st
  termination_by structural n => n

/-- `emitClassMember(member)`. -/
def emitClassMember : Nat → ClassMemberNode → EmitSt → EmitSt
  | 0, _, st => st
  | n + 1, member, st =>
    match member with
    | .propertyDeclaration name _ initializer _ isStatic _ _ _ _ =>
      let line := (if isStatic then "static " else "") ++ name
      let line :=
        match initializer with
        | some ini => line ++ " = " ++ emitExpr ini
        | none => line
      emitLine (line ++ ";") st
    | .methodDeclaration name parameters _ body _ isStatic _ isAsync _ _ _ =>
      let prefixS :=
        (if isStatic then "static " else "") ++
          (if isAsync then "async " else "")
      let params :=
        String.intercalate ", "
          (emitParamsFuel (3 * sizeParams parameters + 8) parameters)
      match body with
      | some b =>
        let st := emitLine (prefixS ++ name ++ "(" ++ params ++ ") \x7b") st
        let st := { st with indentLevel := st.indentLevel + 1 }
        let st := emitStatementsLoop n b.statements st
        let st := { st with indentLevel := st.indentLevel - 1 }
        emitLine "\x7d" st
      | none => emitLine ("// abstract " ++ name ++ "(" ++ params ++ ")") st
    | .constructorDeclaration parameters body _ _ =>
      let params :=
        String.intercalate ", "
          (emitParamsFuel (3 * sizeParams parameters + 8) parameters)
      let st := emitLine ("constructor(" ++ params ++ ") \x7b") st
      let st := { st with indentLevel := st.indentLevel + 1 }
      let st := emitStatementsLoop n body.statements st
      let st := { st with indentLevel := st.indentLevel - 1 }
      emitLine "\x7d" st
    | .getterDeclaration name _ body _ isStatic _ =>
      let prefixS := if isStatic then "static " else ""
      let st := emitLine (prefixS ++ "get " ++ name ++ "() \x7b") st
      let st := { st with indentLevel := st.indentLevel + 1 }
      let st := emitStatementsLoop n body.statements st
      let st := { st with indentLevel := st.indentLevel - 1 }
      emitLine "\x7d" st
    | .setterDeclaration name parameter body _ isStatic _ =>
      let prefixS := if isStatic then "static " else ""
      let st :=
        emitLine (prefixS ++ "set " ++ name ++ "(" ++ parameter.name ++
          ") \x7b") st
      let st := { st with indentLevel := st.indentLevel + 1 }
      let st := emitStatementsLoop n body.statements st
      let st := { st with indentLevel := st.indentLevel - 1 }
      emitLine "\x7d" st
  termination_by structural n => n

/-- The member loop of `emitEnumDeclaration`: numeric values produce the
two-way assignment `N[N["m"] = v] = "m";`, string values the one-way
`N["m"] = "s";`; the running value auto-increments from the last numeric
initializer. -/
def emitEnumMembersLoop :
    Nat → String → List EnumMemberNode → Int → EmitSt → EmitSt
  | 0, _, _, _, st => st
  | _ + 1, _, [], _, st => st
  | n + 1, name, .mk memberName initializer :: rest, currentValue, st =>
    let (value, currentValue) :=
      match initializer with
      | some (.numericLiteral v _) => (Sum.inl v, v + 1)
      | some (.stringLiteral s _) =>
          (Sum.inr ("\"" ++ s ++ "\""), currentValue)
      | some e => (Sum.inr (emitExpr e), currentValue)
      | none => (Sum.inl currentValue, currentValue + 1)
    let st :=
      match value with
      | Sum.inl v =>
          emitLine (name ++ "[" ++ name ++ "[\"" ++ memberName ++ "\"] = " ++
            jsNumToString v ++ "] = \"" ++ memberName ++ "\";") st
      | Sum.inr sv =>
          emitLine (name ++ "[\"" ++ memberName ++ "\"] = " ++ sv ++ ";") st
    emitEnumMembersLoop n name rest currentValue st
  termination_by structural n => n

/-- `emitEnumDeclaration(decl)`: const enums lower to a comment; regular
enums to `var N;` plus an IIFE assigning every member. -/
def emitEnumDeclaration :
    Nat → String → List EnumMemberNode → Bool → EmitSt → EmitSt
  | 0, _, _, _, st => st
  | n + 1, name, members, isConst, st =>
    if isConst then emitLine ("// const enum " ++ name ++ " - inlined") st
    else
      let st := emitLine ("var " ++ name ++ ";") st
      let st := emitLine ("(function (" ++ name ++ ") \x7b") st
      let st := { st with indentLevel := st.indentLevel + 1 }
      let st := emitEnumMembersLoop n name members 0 st
      let st := { st with indentLevel := st.indentLevel - 1 }
      emitLine ("\x7d)(" ++ name ++ " || (" ++ name ++ " = \x7b\x7d));") st

/-- `emitIfStatement(stmt)`: `else if` chains splice onto the previous
line via `trimEnd`. -/
def emitIfStatement :
    Nat → Expr → Stmt → Option Stmt → EmitSt → EmitSt
  | 0, _, _, _, st => st
  | n + 1, condition, consequent, alternate, st =>
    let conditionS := emitExpr condition
    let st := emitLine ("if (" ++ conditionS ++ ") \x7b") st
    let st := { st with indentLevel := st.indentLevel + 1 }
    let st := emitBodyStatements n consequent st
    let st := { st with indentLevel := st.indentLevel - 1 }
    match alternate with
    | some (.ifStatement c2 cons2 alt2 _) =>
      let st := { st with output := jsTrimEnd st.output ++ "\x7d else " }
      emitIfStatement n c2 cons2 alt2 st
    | some alt =>
      let st := emitLine "\x7d else \x7b" st
      let st := { st with indentLevel := st.indentLevel + 1 }
      let st := emitBodyStatements n alt st
      let st := { st with indentLevel := st.indentLevel - 1 }
      emitLine "\x7d" st
    | none => emitLine "\x7d" st
  termination_by structural n => n

/-- The case loop of `emitSwitchStatement`. -/
def emitSwitchCasesLoop :
    Nat → List SwitchCaseNode → EmitSt → EmitSt
  | 0, _, st => st
  | _ + 1, [], st => st
  | n + 1, .mk test consequent :: rest, st =>
    let st :=
      match test with
      | some t => emitLine ("case " ++ emitExpr t ++ ":") st
      | none => emitLine "default:" st
    let st := { st with indentLevel := st.indentLevel + 1 }
    let st := emitStatementsLoop n consequent st
    let st := { st with indentLevel := st.indentLevel - 1 }
    emitSwitchCasesLoop n rest st
  termination_by structural n => n

/-- `emitTryStatement(stmt)`. -/
def emitTryStatement :
    Nat → BlockStmt → Option CatchClauseNode → Option BlockStmt → EmitSt →
    EmitSt
  | 0, _, _, _, st => st
  | n + 1, block, handler, finalizer, st =>
    let st := emitLine "try \x7b" st
    let st := { st with indentLevel := st.indentLevel + 1 }
    let st := emitStatementsLoop n block.statements st
    let st := { st with indentLevel := st.indentLevel - 1 }
    let st :=
      match handler with
      | some (.mk param body) =>
        let paramS :=
          match param with
          | some p => p.name
          | none => ""
        let st := emitLine ("\x7d catch (" ++ paramS ++ ") \x7b") st
        let st := { st with indentLevel := st.indentLevel + 1 }
        let st := emitStatementsLoop n body.statements st
        { st with indentLevel := st.indentLevel - 1 }
      | none => st
    let st :=
      match finalizer with
      | some f =>
        let st := emitLine "\x7d finally \x7b" st
        let st := { st with indentLevel := st.indentLevel + 1 }
        let st := emitStatementsLoop n f.statements st
        { st with indentLevel := st.indentLevel - 1 }
      | none => st
    emitLine "\x7d" st
  termination_by structural n => n

/-- `emitImportDeclaration(decl)`: note the module path is interpolated
verbatim between plain quotes, with no escaping. -/
def emitImportDeclaration (specifiers : List ImportSpecNode)
    (source : String) (st : EmitSt) : EmitSt :=
  if specifiers.length == 0 then
    emitLine ("import \"" ++ source ++ "\";") st
  else
    let (parts, named) := importParts specifiers [] []
    let parts :=
      if named.length > 0 then
        parts ++ ["\x7b " ++ String.intercalate ", " named ++ " \x7d"]
      else parts
    emitLine ("import " ++ String.intercalate ", " parts ++ " from \"" ++
      source ++ "\";") st

/-- `emitExportDeclaration(decl)`. -/
def emitExportDeclaration :
    Nat → Option Stmt → Option (List ExportSpecNode) → Option String →
    Bool → EmitSt → EmitSt
  | 0, _, _, _, _, st => st
  | n + 1, declaration, specifiers, source, isDefault, st =>
    let handled :=
      if isDefault then
        match declaration with
        | some (.functionDeclaration name parameters _ body isAsync
            isGenerator _ _) =>
          let st := { st with output := st.output ++ indentOf st ++ "export default " }
          some (emitFunctionDeclaration n name parameters body isAsync
            isGenerator st)
        | some (.classDeclaration name superClass _ _ members _ isAbstract
            _) =>
          let st := { st with output := st.output ++ indentOf st ++ "export default " }
          some (emitClassDeclaration n name superClass members isAbstract st)
        | some (.expressionStatement expression _) =>
          some (emitLine ("export default " ++ emitExpr expression ++ ";") st)
        | _ => none
      else none
    match handled with
    | some st => st
    | none =>
      match specifiers with
      | some specs =>
        if specs.length > 0 then
          let specsS :=
            String.intercalate ", " (specs.map exportSpecString)
          match source with
          | some src =>
              emitLine ("export \x7b " ++ specsS ++ " \x7d from \"" ++ src ++
                "\";") st
          | none => emitLine ("export \x7b " ++ specsS ++ " \x7d;") st
        else emitExportDeclarationTail n declaration st
      | none =>
        match source with
        | some src => emitLine ("export * from \"" ++ src ++ "\";") st
        | none => emitExportDeclarationTail n declaration st
  termination_by structural n => n

/-- The trailing `if (decl.declaration)` block of `emitExportDeclaration`:
`export ` is appended without indentation of the declaration itself (the
indent level is zeroed and restored; enums keep it). -/
def emitExportDeclarationTail :
    Nat → Option Stmt → EmitSt → EmitSt
  | 0, _, st => st
  | n + 1, declaration, st =>
    match declaration with
    | some decl =>
      let st := { st with output := st.output ++ indentOf st ++ "export " }
      let savedIndent := st.indentLevel
      let st := { st with indentLevel := 0 }
      match decl with
      | .functionDeclaration name parameters _ body isAsync isGenerator _ _ =>
        let st :=
          emitFunctionDeclaration n name parameters body isAsync isGenerator
            st
        { st with indentLevel := savedIndent }
      | .classDeclaration name superClass _ _ members _ isAbstract _ =>
        let st := emitClassDeclaration n name superClass members isAbstract st
        { st with indentLevel := savedIndent }
      | .variableDeclaration name varKind _ initializer _ =>
        let line := varKind ++ " " ++ name
        let line :=
          match initializer with
          | some ini => line ++ " = " ++ emitExpr ini
          | none => line
        let st := { st with output := st.output ++ line ++ ";\n" }
        { st with indentLevel := savedIndent }
      | .interfaceDeclaration name _ _ _ _ =>
        let st :=
          { st with
            output := st.output ++ "// interface " ++ name ++ " removed\n" }
        { st with indentLevel := savedIndent }
      | .typeAliasDeclaration name _ _ _ =>
        let st :=
          { st with
            output := st.output ++ "// type " ++ name ++ " removed\n" }
        { st with indentLevel := savedIndent }
      | .enumDeclaration name members isConst _ =>
        let st := { st with indentLevel := savedIndent }
        emitEnumDeclaration n name members isConst st
      | _ => { st with indentLevel := savedIndent }
    | none => st
  termination_by structural n => n

end

/-- `emit(program)`: print every top-level statement from a fresh state. -/
def emit (program : Program) : String :=
  (emitStatementsLoop (3 * program.size + 8) program.statements
    ⟨"", 0⟩).output

/-! ## Parser (`parser.ts`): the import-declaration component

Only the self-contained import-declaration productions are embedded
(`parseImportDeclaration`, `parseImportSpecifiers`, and the cursor
helpers); `parseStatement` dispatches an `Import` token to
`parseImportDeclaration` directly, so these functions fully determine how
an `import` statement at the head of the token stream is parsed.  The rest
of the parser is not needed by any settled claim. -/

namespace Parser

/-- The dummy value for an out-of-range `this.tokens[this.pos]` read; the
parser runs on `tokenize` output, which always ends with an EOF token that
is never consumed, so the dummy is unreachable. -/
def dummyToken : Token := ⟨.EOF, "", 0, 0⟩

/-- `this.peek()`. -/
def peek (tokens : List Token) (pos : Nat) : Token :=
  tokens.getD pos dummyToken

/-- `this.isAtEnd()`. -/
def isAtEnd (tokens : List Token) (pos : Nat) : Bool :=
  (peek tokens pos).type == .EOF

/-- `this.advance()`: bump the cursor unless at EOF; return the token
before the (new) cursor. -/
def advance (tokens : List Token) (pos : Nat) : Token × Nat :=
  let pos' := if isAtEnd tokens pos then pos else pos + 1
  (tokens.getD (pos' - 1) dummyToken, pos')

/-- `this.check(type)`. -/
def checkT (t : TokType) (tokens : List Token) (pos : Nat) : Bool :=
  if isAtEnd tokens pos then false else (peek tokens pos).type == t

/-- `this.match(type)`. -/
def matchT (t : TokType) (tokens : List Token) (pos : Nat) : Bool × Nat :=
  if checkT t tokens pos then (true, (advance tokens pos).2)
  else (false, pos)

/-- `this.expect(type, message)`: advance or throw
`"<message> at line <line>, got '<value>'"`. -/
def expect (t : TokType) (message : String) (tokens : List Token)
    (pos : Nat) : Except String (Token × Nat) :=
  if checkT t tokens pos then .ok (advance tokens pos)
  else
    let token := peek tokens pos
    .error (message ++ " at line " ++ toString token.line ++ ", got '" ++
      token.value ++ "'")

/-- The brace-list loop of `parseImportSpecifiers`. -/
def parseImportSpecifiersLoop :
    Nat → List Token → Nat → List ImportSpecNode →
    Except String (List ImportSpecNode × Nat)
  | 0, _, pos, specifiers => .ok (specifiers, pos)
  | fuel + 1, tokens, pos, specifiers =>
    if !checkT .RightBrace tokens pos && !isAtEnd tokens pos then do
      let (isTypeOnly, pos) := matchT .Type tokens pos
      let (importedTok, pos) ←
        expect .Identifier "Expected identifier" tokens pos
      let imported := importedTok.value
      let (m, pos) := matchT .As tokens pos
      let (localName, pos) ←
        if m then do
          let (tok, pos) ← expect .Identifier "Expected identifier" tokens pos
          pure (tok.value, pos)
        else pure (imported, pos)
      let specifiers :=
        specifiers ++ [.namedSpec imported localName isTypeOnly]
      if !checkT .RightBrace tokens pos then do
        let (_, pos) ← expect .Comma "Expected ','" tokens pos
        parseImportSpecifiersLoop fuel tokens pos specifiers
      else parseImportSpecifiersLoop fuel tokens pos specifiers
    else .ok (specifiers, pos)

/-- `parseImportSpecifiers(specifiers)`. -/
def parseImportSpecifiers (tokens : List Token) (pos : Nat)
    (specifiers : List ImportSpecNode) :
    Except String (List ImportSpecNode × Nat) :=
  if checkT .Star tokens pos then do
    let (_, pos) := advance tokens pos
    let (_, pos) ← expect .As "Expected 'as'" tokens pos
    let (localTok, pos) ← expect .Identifier "Expected identifier" tokens pos
    .ok (specifiers ++ [.namespaceSpec localTok.value], pos)
  else do
    let (_, pos) ← expect .LeftBrace "Expected '\x7b'" tokens pos
    let (specifiers, pos) ←
      parseImportSpecifiersLoop (tokens.length - pos + 1) tokens pos
        specifiers
    let (_, pos) ← expect .RightBrace "Expected '\x7d'" tokens pos
    .ok (specifiers, pos)

/-- `parseImportDeclaration()`. -/
def parseImportDeclaration (tokens : List Token) (pos : Nat) :
    Except String (Stmt × Nat) := do
  let (startToken, pos) := advance tokens pos
  let (isTypeOnly, pos) := matchT .Type tokens pos
  if checkT .StringLiteral tokens pos then do
    let (sourceTok, pos) := advance tokens pos
    let (_, pos) ← expect .Semicolon "Expected ';'" tokens pos
    .ok (.importDeclaration [] sourceTok.value isTypeOnly startToken.line,
      pos)
  else do
    let (specifiers, pos) ←
      if checkT .Identifier tokens pos then do
        let (localTok, pos) := advance tokens pos
        let specifiers : List ImportSpecNode := [.defaultSpec localTok.value]
        let (m, pos) := matchT .Comma tokens pos
        if m then parseImportSpecifiers tokens pos specifiers
        else pure (specifiers, pos)
      else if checkT .Star tokens pos then do
        let (_, pos) := advance tokens pos
        let (_, pos) ← expect .As "Expected 'as'" tokens pos
        let (localTok, pos) ←
          expect .Identifier "Expected identifier" tokens pos
        pure (([.namespaceSpec localTok.value] : List ImportSpecNode), pos)
      else if checkT .LeftBrace tokens pos then
        parseImportSpecifiers tokens pos []
      else pure (([] : List ImportSpecNode), pos)
    let (_, pos) ← expect .From "Expected 'from'" tokens pos
    let (sourceTok, pos) ←
      expect .StringLiteral "Expected module path" tokens pos
    let (_, pos) ← expect .Semicolon "Expected ';'" tokens pos
    .ok (.importDeclaration specifiers sourceTok.value isTypeOnly
      startToken.line, pos)

end Parser

end MiniTs


namespace MiniTs

set_option maxHeartbeats 64000000

/-! ## Additional definitions for the verification development

Spec-side and claim-support definitions: the well-formedness predicate on
checker-produced type values, the closed-block-comment test on raw text, the
enum lowering lines, and the concrete programs and expressions that the
witnesses and counterexamples run the embedded compiler on. -/

/-- Well-formed type values: the class of type values the checker builds.
Interface member lists are maps keyed by member name (the checker builds
them with `ifaceSet`/`Map.set`), so their names are distinct. -/
inductive TyWF : Ty → Prop where
  | number : TyWF .number
  | string : TyWF .string
  | boolean : TyWF .boolean
  | void : TyWF .void
  | null : TyWF .null
  | undefined : TyWF .undefined
  | symbol : TyWF .symbol
  | bigint : TyWF .bigint
  | literal (v : LitVal) : TyWF (.literal v)
  | array (e : Ty) : TyWF e → TyWF (.array e)
  | tuple (ts : List Ty) : (∀ t ∈ ts, TyWF t) → TyWF (.tuple ts)
  | union (ts : List Ty) : TyWF (.union ts)
  | intersection (ts : List Ty) : TyWF (.intersection ts)
  | function (ps : List FnParam) (r : Ty) :
      (∀ p ∈ ps, TyWF p.type) → TyWF r → TyWF (.function ps r)
  | interface (name : String) (ms : List IfaceMember) :
      (ms.map IfaceMember.name).Nodup → (∀ m ∈ ms, TyWF m.type) →
      TyWF (.interface name ms)
  | cls (name : String) (ms : List ClassMemberTy)
      (sms : List (String × Ty)) : TyWF (.«class» name ms sms)
  | enum (name : String) (ms : List (String × LitVal)) :
      TyWF (.enum name ms)
  | unknown : TyWF .unknown
  | never : TyWF .never
  | any : TyWF .any

/-- Does the text contain the block-comment closer `*/`? -/
def hasCloseSeq : List Char → Bool
  | [] => false
  | '*' :: '/' :: _ => true
  | _ :: rest => hasCloseSeq rest

/-- Spec-side description of one enum member's lowered line (the claim's
two-way / one-way assignment forms), for members whose initializers are
numeric or string literals (or absent). -/
def literalEnumMember : EnumMemberNode → Bool
  | .mk _ none => true
  | .mk _ (some (.numericLiteral _ _)) => true
  | .mk _ (some (.stringLiteral _ _)) => true
  | _ => false

/-- The member lines of the claim's enum lowering, at two-space indent,
with the auto-increment rule threaded through `currentValue`. -/
def enumMemberLines (name : String) : List EnumMemberNode → Int → String
  | [], _ => ""
  | .mk m (some (.numericLiteral v _)) :: rest, _ =>
      "  " ++ name ++ "[" ++ name ++ "[\"" ++ m ++ "\"] = " ++
        jsNumToString v ++ "] = \"" ++ m ++ "\";\n" ++
        enumMemberLines name rest (v + 1)
  | .mk m (some (.stringLiteral s _)) :: rest, cv =>
      "  " ++ name ++ "[\"" ++ m ++ "\"] = " ++ ("\"" ++ s ++ "\"") ++
        ";\n" ++ enumMemberLines name rest cv
  | .mk m none :: rest, cv =>
      "  " ++ name ++ "[" ++ name ++ "[\"" ++ m ++ "\"] = " ++
        jsNumToString cv ++ "] = \"" ++ m ++ "\";\n" ++
        enumMemberLines name rest (cv + 1)
  | _ :: rest, cv => enumMemberLines name rest cv

/-- A two-statement program whose hoisting pre-pass reports on line 2
before statement checking reports on line 1. -/
def c2Program : Program :=
  ⟨[.variableDeclaration "x" "let" (some (.typeReference "string" [] 1))
      (some (.numericLiteral 1 1)) 1,
    .typeAliasDeclaration "A" [] (.typeReference "B" [] 2) 2]⟩

/-- A conditional expression one branch of which is itself checked to a
union type (via `??`). -/
def c3Expr : Expr :=
  .conditionalExpression (.booleanLiteral true 1)
    (.logicalExpression "??" (.numericLiteral 1 1) (.stringLiteral "s" 1) 1)
    (.booleanLiteral true 1) 1

/-- A concrete interface type value, used to instantiate reflexivity. -/
def c5Ty : Ty :=
  .interface "Point"
    [.mk "x" .number false false, .mk "y" (.array .string) false false]

/-- The members of `enum Color \x7b Red, Green, Blue \x7d`. -/
def c6Members : List EnumMemberNode :=
  [.mk "Red" none, .mk "Green" none, .mk "Blue" none]

/-- An arrow function of two required parameters. -/
def c7Callee : Expr :=
  .arrowFunction
    [Param.mk "a" none false none false, Param.mk "b" none false none false]
    none (.expr (.numericLiteral 1 1)) false [] 1

/-- A checker state whose innermost scope already binds `x`. -/
def c10St : CheckerSt :=
  ⟨[], [⟨[("x", ⟨.number, "variable", some true⟩)], []⟩], none, false⟩

/-! ## Lexer lemmas: unterminated block comments -/

theorem hasCloseSeq_tail :
    ∀ (c : Char) (rest : List Char),
    hasCloseSeq (c :: rest) = false → hasCloseSeq rest = false := by
  intro c rest h
  cases rest with
  | nil => rfl
  | cons d rest2 =>
    by_cases hc : c = '*' ∧ d = '/'
    · obtain ⟨rfl, rfl⟩ := hc
      simp [hasCloseSeq] at h
    · have he : hasCloseSeq (c :: d :: rest2) = hasCloseSeq (d :: rest2) := by
        rw [hasCloseSeq]
        intro tail heq1 heq2
        rw [List.cons.injEq] at heq2
        exact hc ⟨heq1, heq2.1⟩
      rw [he] at h
      exact h

theorem getD_eq_headD_drop :
    ∀ (l : List Char) (n : Nat), l.getD n '\x00' = (l.drop n).headD '\x00' := by
  intro l
  induction l with
  | nil => intro n; cases n <;> rfl
  | cons c rest ih =>
    intro n
    cases n with
    | zero => rfl
    | succ m => simpa using ih m

theorem skipBlockCommentLoop_consume :
    ∀ (fuel : Nat) (st : LexState),
    st.src.length ≤ st.pos + fuel →
    st.pos ≤ st.src.length →
    hasCloseSeq (st.src.drop st.pos) = false →
    ∃ ln col, Lexer.skipBlockCommentLoop fuel st =
      { st with pos := st.src.length, line := ln, column := col } := by
  intro fuel
  induction fuel with
  | zero =>
    intro st h1 h2 _
    refine ⟨st.line, st.column, ?_⟩
    rw [Lexer.skipBlockCommentLoop]
    cases st with
    | mk src pos line col toks =>
      simp at h1 h2 ⊢
      omega
  | succ fuel ih =>
    intro st h1 h2 h3
    by_cases hend : st.src.length ≤ st.pos
    · refine ⟨st.line, st.column, ?_⟩
      rw [Lexer.skipBlockCommentLoop]
      rw [if_neg (by simp [Lexer.isAtEnd]; omega)]
      cases st with
      | mk src pos line col toks =>
        simp at h2 ⊢
        simp at hend
        omega
    · have hlt : st.pos < st.src.length := by omega
      cases hd : st.src.drop st.pos with
      | nil =>
        exact absurd (List.drop_eq_nil_iff_le.mp hd) (by omega)
      | cons d rest =>
        have hpeek : Lexer.peek st = d := by
          rw [Lexer.peek, getD_eq_headD_drop, hd]
          rfl
        have hdrop1 : st.src.drop (st.pos + 1) = rest := by
          rw [← List.tail_drop, hd]
          rfl
        have hpn : Lexer.peekNext st = rest.headD '\x00' := by
          rw [Lexer.peekNext, getD_eq_headD_drop, hdrop1]
        have cond2 : (Lexer.peek st == '*' && Lexer.peekNext st == '/')
            = false := by
          by_cases hstar : d = '*'
          · cases rest with
            | nil => simp [hpeek, hpn]
            | cons r rest2 =>
              by_cases hr : r = '/'
              · rw [hd] at h3
                subst hstar
                subst hr
                simp [hasCloseSeq] at h3
              · simp [hpn, hr]
          · simp [hpeek, hstar]
        have h3' : hasCloseSeq (st.src.drop (st.pos + 1)) = false := by
          rw [hdrop1]
          exact hasCloseSeq_tail d rest (hd ▸ h3)
        rw [Lexer.skipBlockCommentLoop]
        rw [if_pos (by simp [Lexer.isAtEnd, cond2]; omega)]
        by_cases hnl : Lexer.peek st = '\n'
        · rw [if_pos (by simp [hnl])]
          obtain ⟨ln, col, hres⟩ := ih
            (Lexer.advance { st with line := st.line + 1, column := 0 }).2
            (by simp [Lexer.advance]; omega)
            (by simp [Lexer.advance]; omega)
            (by simpa [Lexer.advance] using h3')
          refine ⟨ln, col, ?_⟩
          rw [hres]
          rfl
        · rw [if_neg (by simp [hnl])]
          obtain ⟨ln, col, hres⟩ := ih (Lexer.advance st).2
            (by simp [Lexer.advance]; omega)
            (by simp [Lexer.advance]; omega)
            (by simpa [Lexer.advance] using h3')
          refine ⟨ln, col, ?_⟩
          rw [hres]
          rfl

theorem skipWS_on_open :
    ∀ (fuel : Nat) (cs : List Char) (line col : Nat) (toks : List Token),
    hasCloseSeq cs = false → 2 ≤ fuel →
    ∃ ln cl, Lexer.skipWhitespaceAndComments fuel
        ⟨'/' :: '*' :: cs, 0, line, col, toks⟩ =
      ⟨'/' :: '*' :: cs, cs.length + 2, ln, cl, toks⟩ := by
  intro fuel cs line col toks h3 hf
  match fuel, hf with
  | f + 1, _ =>
    rw [Lexer.skipWhitespaceAndComments]
    rw [if_neg (by simp [Lexer.isAtEnd])]
    rw [if_neg (by simp [Lexer.peek, List.getD])]
    rw [if_neg (by simp [Lexer.peek, Lexer.peekNext, List.getD])]
    rw [if_neg (by simp [Lexer.peek, Lexer.peekNext, List.getD])]
    rw [if_pos (by simp [Lexer.peek, Lexer.peekNext, List.getD])]
    dsimp only
    obtain ⟨ln, cl, hblock⟩ := skipBlockCommentLoop_consume
      (Lexer.remFuel
        (Lexer.advance (Lexer.advance ⟨'/' :: '*' :: cs, 0, line, col, toks⟩).2).2)
      (Lexer.advance (Lexer.advance ⟨'/' :: '*' :: cs, 0, line, col, toks⟩).2).2
      (by simp [Lexer.advance, Lexer.remFuel]; omega)
      (by simp [Lexer.advance])
      (by simpa [Lexer.advance] using h3)
    rw [hblock]
    rw [if_neg (by simp [Lexer.isAtEnd, Lexer.advance])]
    match f, hf with
    | g + 1, _ =>
      rw [Lexer.skipWhitespaceAndComments]
      rw [if_pos (by simp [Lexer.isAtEnd, Lexer.advance])]
      exact ⟨ln, cl, by simp [Lexer.advance]⟩

/-- C4: a source text that opens a block comment never closed by `*/`
tokenizes successfully to just the EOF token: the scanner silently consumes
the unterminated comment to end-of-input instead of raising a lexical
error. -/
theorem tokenize_unterminated_block_comment (c : String)
    (h : hasCloseSeq c.toList = false) :
    ∃ ln col, tokenize ("/*" ++ c) = .ok [⟨.EOF, "", ln, col⟩] := by
  have hsrc : ("/*" ++ c).toList = '/' :: '*' :: c.toList := by
    simp [String.toList, String.data_append]
  rw [tokenize]
  simp only [hsrc]
  simp only [List.length_cons]
  obtain ⟨ln, cl, hws⟩ := skipWS_on_open
    (Lexer.remFuel ⟨'/' :: '*' :: c.toList, 0, 1, 1, []⟩) c.toList 1 1 []
    h (by simp [Lexer.remFuel])
  have hscan : Lexer.scanToken
      (4 * ((('/' :: '*' :: c.toList) : List Char).length - 0) + 16)
      ⟨'/' :: '*' :: c.toList, 0, 1, 1, []⟩ =
      .ok ⟨'/' :: '*' :: c.toList, c.toList.length + 2, ln, cl, []⟩ := by
    have hfe : 4 * ((('/' :: '*' :: c.toList) : List Char).length - 0) + 16
        = (4 * (c.toList.length + 2) + 15) + 1 := by
      simp
    rw [hfe]
    rw [Lexer.scanToken]
    rw [hws]
    rw [if_pos (by simp [Lexer.isAtEnd])]
  have hloop : Lexer.tokenizeLoop (c.toList.length + 1 + 1 + 1)
      ⟨'/' :: '*' :: c.toList, 0, 1, 1, []⟩ =
      .ok ⟨'/' :: '*' :: c.toList, c.toList.length + 2, ln, cl, []⟩ := by
    rw [Lexer.tokenizeLoop]
    rw [if_pos (by simp [Lexer.isAtEnd])]
    rw [hscan]
    dsimp only
    rw [Lexer.tokenizeLoop]
    rw [if_neg (by simp [Lexer.isAtEnd])]
  refine ⟨ln, cl, ?_⟩
  rw [hloop]
  rfl

/-! ## Diagnostics machinery: the error list only grows, and expression
checking and type resolution never change the environment -/

/-- `addError` only appends to the diagnostics list. -/
theorem errors_addError (m : String) (l : Nat) (s : CheckerSt) :
    s.errors <+: (addError m l s).errors :=
  List.prefix_append s.errors [⟨m, l⟩]

/-- `defineFnParams` never touches the diagnostics list. -/
theorem errors_defineFnParams :
    ∀ (ps : List FnParam) (s : CheckerSt),
    (defineFnParams ps s).errors = s.errors
  | [], _ => rfl
  | _ :: rest, s => errors_defineFnParams rest _

/-- A case split on an optional value, lifted to prefix facts. -/
theorem errs_optCase {α : Type} (o : Option α) (f : α → CheckerSt)
    (b : CheckerSt) (s : CheckerSt)
    (hf : ∀ x, s.errors <+: (f x).errors) (hb : s.errors <+: b.errors) :
    s.errors <+: (match o with | some x => f x | none => b).errors := by
  cases o with
  | some x => exact hf x
  | none => exact hb

/-- The `TypeReference` case of `resolveTypeNode` returns the state
unchanged or with the one `Cannot find name` diagnostic appended. -/
theorem resolveTypeRef_state (n : Nat) (tn : String) (targs : List TypeNode)
    (line : Nat) (s : CheckerSt) :
    (resolveTypeNode (n + 1) (.typeReference tn targs line) s).1 = s ∨
    (resolveTypeNode (n + 1) (.typeReference tn targs line) s).1 =
      addError ("Cannot find name '" ++ tn ++ "'") line s := by
  rw [resolveTypeNode]
  by_cases h1 : tn = "number"
  · rw [if_pos h1]; exact Or.inl rfl
  rw [if_neg h1]
  by_cases h2 : tn = "string"
  · rw [if_pos h2]; exact Or.inl rfl
  rw [if_neg h2]
  by_cases h3 : tn = "boolean"
  · rw [if_pos h3]; exact Or.inl rfl
  rw [if_neg h3]
  by_cases h4 : tn = "void"
  · rw [if_pos h4]; exact Or.inl rfl
  rw [if_neg h4]
  by_cases h5 : tn = "null"
  · rw [if_pos h5]; exact Or.inl rfl
  rw [if_neg h5]
  by_cases h6 : tn = "undefined"
  · rw [if_pos h6]; exact Or.inl rfl
  rw [if_neg h6]
  by_cases h7 : tn = "any"
  · rw [if_pos h7]; exact Or.inl rfl
  rw [if_neg h7]
  by_cases h8 : tn = "unknown"
  · rw [if_pos h8]; exact Or.inl rfl
  rw [if_neg h8]
  by_cases h9 : tn = "never"
  · rw [if_pos h9]; exact Or.inl rfl
  rw [if_neg h9]
  by_cases h10 : tn = "object"
  · rw [if_pos h10]; exact Or.inl rfl
  rw [if_neg h10]
  by_cases h11 : tn = "symbol"
  · rw [if_pos h11]; exact Or.inl rfl
  rw [if_neg h11]
  by_cases h12 : tn = "bigint"
  · rw [if_pos h12]; exact Or.inl rfl
  rw [if_neg h12]
  cases hlt : Env.lookupType tn s.env with
  | some t => simp only [hlt]; exact Or.inl trivial
  | none =>
    simp only [hlt]
    cases hl : Env.lookup tn s.env with
    | some e => simp only [hl]; exact Or.inl trivial
    | none => simp only [hl]; exact Or.inr trivial

mutual

theorem resolveTypeNode_errs : ∀ (n : Nat) (node : TypeNode) (s : CheckerSt),
    s.errors <+: (resolveTypeNode n node s).1.errors
  | 0, _, s => List.prefix_refl _
  | n + 1, node, s => by
    cases node with
    | typeReference tn targs line =>
      rcases resolveTypeRef_state n tn targs line s with h | h <;> rw [h]
      exact errors_addError _ _ _
    | arrayType et line =>
      rw [resolveTypeNode]
      exact resolveTypeNode_errs n et s
    | tupleType ets line =>
      rw [resolveTypeNode]
      exact resolveTypeNodeList_errs n ets s
    | unionType ts line =>
      rw [resolveTypeNode]
      exact resolveTypeNodeList_errs n ts s
    | intersectionType ts line =>
      rw [resolveTypeNode]
      exact resolveTypeNodeList_errs n ts s
    | functionTypeNode ps rt tps line =>
      rw [resolveTypeNode]
      exact (resolveParams_errs n ps s).trans (resolveTypeNode_errs n rt _)
    | objectTypeNode ms line =>
      rw [resolveTypeNode]
      exact resolveObjectMembers_errs n ms [] s
    | literalType v line => cases v <;> rw [resolveTypeNode]
    | parenthesizedType t line =>
      rw [resolveTypeNode]
      exact resolveTypeNode_errs n t s
    | typeQuery e line => rw [resolveTypeNode]
    | conditionalType a b c d line => rw [resolveTypeNode]
    | indexedAccessType a b line => rw [resolveTypeNode]
    | mappedType a b line => rw [resolveTypeNode]
    | inferType a line => rw [resolveTypeNode]
    | optionalType a line => rw [resolveTypeNode]
    | restType a line => rw [resolveTypeNode]

theorem resolveTypeNodeList_errs :
    ∀ (n : Nat) (ts : List TypeNode) (s : CheckerSt),
    s.errors <+: (resolveTypeNodeList n ts s).1.errors
  | 0, _, s => List.prefix_refl _
  | _ + 1, [], s => List.prefix_refl _
  | n + 1, t :: rest, s => by
    rw [resolveTypeNodeList]
    exact (resolveTypeNode_errs n t s).trans (resolveTypeNodeList_errs n rest _)

theorem resolveParams_errs :
    ∀ (n : Nat) (ps : List Param) (s : CheckerSt),
    s.errors <+: (resolveParams n ps s).1.errors
  | 0, _, s => List.prefix_refl _
  | _ + 1, [], s => List.prefix_refl _
  | n + 1, p :: rest, s => by
    rw [resolveParams]
    cases hta : p.typeAnn with
    | none =>
      simp only
      exact resolveParams_errs n rest s
    | some ann =>
      simp only
      exact (resolveTypeNode_errs n ann s).trans (resolveParams_errs n rest _)

theorem resolveObjectMembers_errs :
    ∀ (n : Nat) (ms : List TypeMemberNode) (acc : List IfaceMember)
      (s : CheckerSt),
    s.errors <+: (resolveObjectMembers n ms acc s).1.errors
  | 0, _, _, s => List.prefix_refl _
  | _ + 1, [], _, s => List.prefix_refl _
  | n + 1, .mk name ta opt a b c :: rest, acc, s => by
    cases name with
    | none =>
      rw [resolveObjectMembers]
      exact resolveObjectMembers_errs n rest acc s
    | some nm =>
      rw [resolveObjectMembers]
      exact (resolveTypeNode_errs n ta s).trans
        (resolveObjectMembers_errs n rest _ _)

end

/-- `resolveMethodParams` only accumulates resolver diagnostics. -/
theorem resolveMethodParams_errs :
    ∀ (n : Nat) (ps : List Param) (s : CheckerSt),
    s.errors <+: (resolveMethodParams n ps s).1.errors
  | 0, _, s => List.prefix_refl _
  | _ + 1, [], s => List.prefix_refl _
  | n + 1, p :: rest, s => by
    rw [resolveMethodParams]
    cases hta : p.typeAnn with
    | none =>
      simp only
      exact resolveMethodParams_errs n rest s
    | some ann =>
      simp only
      exact (resolveTypeNode_errs n ann s).trans
        (resolveMethodParams_errs n rest _)

mutual

theorem checkVariableDeclaration_errs :
    ∀ (n : Nat) (name varKind : String) (typeAnn : Option TypeNode)
      (initializer : Option Expr) (line : Nat) (s : CheckerSt),
    s.errors <+: (checkVariableDeclaration n name varKind typeAnn initializer
      line s).errors
  | 0, _, _, _, _, _, s => List.prefix_refl _
  | n + 1, name, varKind, some ta, some ini, line, s => by
    rw [checkVariableDeclaration]
    rcases h1 : resolveTypeNode n ta s with ⟨s1, d⟩
    rcases h2 : checkExpression n ini s1 with ⟨s2, i⟩
    have e1 := resolveTypeNode_errs n ta s
    have e2 := checkExpression_errs n ini s1
    rw [h1] at e1
    rw [h2] at e2
    replace e1 : s.errors <+: s1.errors := e1
    replace e2 : s1.errors <+: s2.errors := e2
    simp only [h1, h2]
    split <;> split <;> first
      | exact e1.trans e2
      | exact e1.trans (e2.trans (errors_addError _ _ _))
      | exact e1.trans (e2.trans ((errors_addError _ _ _).trans
          (errors_addError _ _ _)))
  | n + 1, name, varKind, some ta, none, line, s => by
    rw [checkVariableDeclaration]
    rcases h1 : resolveTypeNode n ta s with ⟨s1, d⟩
    have e1 := resolveTypeNode_errs n ta s
    rw [h1] at e1
    replace e1 : s.errors <+: s1.errors := e1
    simp only [h1]
    split <;> first
      | exact e1
      | exact e1.trans (errors_addError _ _ _)
  | n + 1, name, varKind, none, some ini, line, s => by
    rw [checkVariableDeclaration]
    rcases h2 : checkExpression n ini s with ⟨s2, i⟩
    have e2 := checkExpression_errs n ini s
    rw [h2] at e2
    replace e2 : s.errors <+: s2.errors := e2
    simp only [h2]
    split <;> first
      | exact e2
      | exact e2.trans (errors_addError _ _ _)
  | n + 1, name, varKind, none, none, line, s => by
    rw [checkVariableDeclaration]
    split <;> first
      | exact List.prefix_refl _
      | exact errors_addError _ _ _

theorem checkFunctionDeclaration_errs :
    ∀ (n : Nat) (name : String) (body : BlockStmt) (s : CheckerSt),
    s.errors <+: (checkFunctionDeclaration n name body s).errors
  | 0, _, _, s => List.prefix_refl _
  | n + 1, name, body, s => by
    rw [checkFunctionDeclaration]
    split
    · exact List.prefix_refl _
    · split
      · exact List.prefix_refl _
      · split
        · refine List.IsPrefix.trans ?_ (checkBlockStatement_errs n body _)
          rw [errors_defineFnParams]
        · exact List.prefix_refl _

theorem checkClassDeclaration_errs :
    ∀ (n : Nat) (name : String) (members : List ClassMemberNode)
      (s : CheckerSt),
    s.errors <+: (checkClassDeclaration n name members s).errors
  | 0, _, _, s => List.prefix_refl _
  | n + 1, name, members, s => by
    rw [checkClassDeclaration]
    refine List.IsPrefix.trans ?_ (checkClassMembers_errs n members _)
    split <;> exact List.prefix_refl _

theorem checkClassMembers_errs :
    ∀ (n : Nat) (members : List ClassMemberNode) (s : CheckerSt),
    s.errors <+: (checkClassMembers n members s).errors
  | 0, _, s => List.prefix_refl _
  | _ + 1, [], s => List.prefix_refl _
  | n + 1, m :: rest, s => by
    cases m with
    | methodDeclaration nm params rt body acc ist isab isas tps decs line =>
      cases body with
      | some b =>
        rw [checkClassMembers]
        refine List.IsPrefix.trans ?_ (checkClassMembers_errs n rest _)
        refine List.IsPrefix.trans ?_ (checkBlockStatement_errs n b _)
        rw [errors_defineFnParams]
        refine (resolveMethodParams_errs n params s).trans ?_
        cases rt with
        | some rtn => exact resolveTypeNode_errs n rtn _
        | none => exact List.prefix_refl _
      | none => exact checkClassMembers_errs n rest s
    | constructorDeclaration params b acc line =>
      rw [checkClassMembers]
      refine List.IsPrefix.trans ?_ (checkClassMembers_errs n rest _)
      refine List.IsPrefix.trans ?_ (checkBlockStatement_errs n b _)
      rw [errors_defineFnParams]
      exact resolveMethodParams_errs n params s
    | propertyDeclaration nm ta ini acc ist isr isab decs line =>
      cases ini with
      | some e =>
        rw [checkClassMembers]
        exact (checkExpression_errs n e s).trans
          (checkClassMembers_errs n rest _)
      | none => exact checkClassMembers_errs n rest s
    | getterDeclaration a b c d e f =>
      exact checkClassMembers_errs n rest s
    | setterDeclaration a b c d e f =>
      exact checkClassMembers_errs n rest s

theorem checkEnumMembersLoop_errs :
    ∀ (n : Nat) (members : List EnumMemberNode) (s : CheckerSt),
    s.errors <+: (checkEnumMembersLoop n members s).errors
  | 0, _, s => List.prefix_refl _
  | _ + 1, [], s => List.prefix_refl _
  | n + 1, .mk nm (some e) :: rest, s => by
    rw [checkEnumMembersLoop]
    exact (checkExpression_errs n e s).trans
      (checkEnumMembersLoop_errs n rest _)
  | n + 1, .mk nm none :: rest, s => by
    rw [checkEnumMembersLoop]
    exact checkEnumMembersLoop_errs n rest s

theorem checkReturnStatement_errs :
    ∀ (n : Nat) (argument : Option Expr) (line : Nat) (s : CheckerSt),
    s.errors <+: (checkReturnStatement n argument line s).errors
  | 0, _, _, s => List.prefix_refl _
  | n + 1, some arg, line, s => by
    rw [checkReturnStatement]
    split
    · exact errors_addError _ _ _
    · rcases h1 : checkExpression n arg s with ⟨s1, t1⟩
      have e1 := checkExpression_errs n arg s
      rw [h1] at e1
      replace e1 : s.errors <+: s1.errors := e1
      simp only [h1]
      split
      · exact e1.trans (errors_addError _ _ _)
      · exact e1
  | n + 1, none, line, s => by
    rw [checkReturnStatement]
    split
    · exact errors_addError _ _ _
    · dsimp only
      split
      · exact errors_addError _ _ _
      · exact List.prefix_refl _

theorem checkForStatement_errs :
    ∀ (n : Nat) (i : Option ForInit) (c u : Option Expr) (body : Stmt)
      (s : CheckerSt),
    s.errors <+: (checkForStatement n i c u body s).errors
  | 0, _, _, _, _, s => List.prefix_refl _
  | n + 1, i, c, u, body, s => by
    rcases i with _ | (⟨nm, vk, ta, ini, ln⟩ | e)
    all_goals rcases c with _ | ce
    all_goals rcases u with _ | ue
    all_goals rw [checkForStatement]
    all_goals refine List.IsPrefix.trans ?_ (checkStatement_errs n body _)
    all_goals first
      | exact ((checkVariableDeclaration_errs n nm vk ta ini ln
            { s with env := Env.pushChild s.env }).trans
          ((checkExpression_errs n ce _).trans (checkExpression_errs n ue _)))
      | exact ((checkExpression_errs n e
            { s with env := Env.pushChild s.env }).trans
          ((checkExpression_errs n ce _).trans (checkExpression_errs n ue _)))
      | exact ((checkVariableDeclaration_errs n nm vk ta ini ln
            { s with env := Env.pushChild s.env }).trans
          (checkExpression_errs n ce _))
      | exact ((checkVariableDeclaration_errs n nm vk ta ini ln
            { s with env := Env.pushChild s.env }).trans
          (checkExpression_errs n ue _))
      | exact ((checkExpression_errs n e
            { s with env := Env.pushChild s.env }).trans
          (checkExpression_errs n ce _))
      | exact ((checkExpression_errs n e
            { s with env := Env.pushChild s.env }).trans
          (checkExpression_errs n ue _))
      | exact ((checkExpression_errs n ce
            { s with env := Env.pushChild s.env }).trans
          (checkExpression_errs n ue _))
      | exact checkVariableDeclaration_errs n nm vk ta ini ln
          { s with env := Env.pushChild s.env }
      | exact checkExpression_errs n e { s with env := Env.pushChild s.env }
      | exact checkExpression_errs n ce { s with env := Env.pushChild s.env }
      | exact checkExpression_errs n ue { s with env := Env.pushChild s.env }
      | exact List.prefix_refl _


theorem checkForOfStatement_errs :
    ∀ (n : Nat) (v : ForVar) (it : Expr) (body : Stmt) (s : CheckerSt),
    s.errors <+: (checkForOfStatement n v it body s).errors
  | 0, _, _, _, s => List.prefix_refl _
  | n + 1, v, it, body, s => by
    rcases v with ⟨nm, vk, _ | tn, ini, ln⟩ | ⟨nm, ln⟩
    all_goals rw [checkForOfStatement]
    all_goals refine List.IsPrefix.trans ?_ (checkStatement_errs n body _)
    all_goals first
      | exact (checkExpression_errs n it
            ({ s with env := Env.pushChild s.env })).trans
          (resolveTypeNode_errs n tn _)
      | exact checkExpression_errs n it
          ({ s with env := Env.pushChild s.env })

theorem checkForInStatement_errs :
    ∀ (n : Nat) (v : ForVar) (ob : Expr) (body : Stmt) (s : CheckerSt),
    s.errors <+: (checkForInStatement n v ob body s).errors
  | 0, _, _, _, s => List.prefix_refl _
  | n + 1, v, ob, body, s => by
    rcases v with ⟨nm, vk, ta, ini, ln⟩ | ⟨nm, ln⟩
    all_goals rw [checkForInStatement]
    all_goals refine List.IsPrefix.trans ?_ (checkStatement_errs n body _)
    all_goals exact (checkExpression_errs n ob
      { s with env := Env.pushChild s.env })

theorem checkSwitchStatement_errs :
    ∀ (n : Nat) (d : Expr) (cs : List SwitchCaseNode) (s : CheckerSt),
    s.errors <+: (checkSwitchStatement n d cs s).errors
  | 0, _, _, s => List.prefix_refl _
  | n + 1, d, cs, s => by
    rw [checkSwitchStatement]
    exact (checkExpression_errs n d s).trans (checkSwitchCases_errs n cs _)

theorem checkSwitchCases_errs :
    ∀ (n : Nat) (cs : List SwitchCaseNode) (s : CheckerSt),
    s.errors <+: (checkSwitchCases n cs s).errors
  | 0, _, s => List.prefix_refl _
  | _ + 1, [], s => List.prefix_refl _
  | n + 1, .mk (some t) conseq :: rest, s => by
    rw [checkSwitchCases]
    exact (checkExpression_errs n t s).trans
      ((checkStatements_errs n conseq _).trans (checkSwitchCases_errs n rest _))
  | n + 1, .mk none conseq :: rest, s => by
    rw [checkSwitchCases]
    exact (checkStatements_errs n conseq s).trans
      (checkSwitchCases_errs n rest _)

theorem checkTryStatement_errs :
    ∀ (n : Nat) (b : BlockStmt) (h : Option CatchClauseNode)
      (f : Option BlockStmt) (s : CheckerSt),
    s.errors <+: (checkTryStatement n b h f s).errors
  | 0, _, _, _, s => List.prefix_refl _
  | n + 1, b, h, f, s => by
    rcases h with _ | ⟨_ | p, cbody⟩
    all_goals rcases f with _ | fb
    all_goals rw [checkTryStatement]
    all_goals first
      | (refine List.IsPrefix.trans ?_ (checkBlockStatement_errs n fb _)
         refine List.IsPrefix.trans ?_ (checkBlockStatement_errs n cbody _)
         exact checkBlockStatement_errs n b s)
      | (refine List.IsPrefix.trans ?_ (checkBlockStatement_errs n cbody _)
         exact checkBlockStatement_errs n b s)
      | (refine List.IsPrefix.trans ?_ (checkBlockStatement_errs n fb _)
         exact checkBlockStatement_errs n b s)
      | exact checkBlockStatement_errs n b s

theorem checkBlockStatement_errs :
    ∀ (n : Nat) (b : BlockStmt) (s : CheckerSt),
    s.errors <+: (checkBlockStatement n b s).errors
  | 0, _, s => List.prefix_refl _
  | n + 1, b, s => by
    rw [checkBlockStatement]
    refine List.IsPrefix.trans ?_ (checkStatements_errs n b.statements _)
    exact List.prefix_refl _

theorem checkExpressionList_errs :
    ∀ (n : Nat) (es : List Expr) (s : CheckerSt),
    s.errors <+: (checkExpressionList n es s).errors
  | 0, _, s => List.prefix_refl _
  | _ + 1, [], s => List.prefix_refl _
  | n + 1, e :: rest, s => by
    rw [checkExpressionList]
    refine List.IsPrefix.trans ?_ (checkExpressionList_errs n rest _)
    exact checkExpression_errs n e s

theorem checkBinaryExpression_errs :
    ∀ (n : Nat) (op : String) (l r : Expr) (line : Nat) (s : CheckerSt),
    s.errors <+: (checkBinaryExpression n op l r line s).1.errors
  | 0, _, _, _, _, s => List.prefix_refl _
  | n + 1, op, l, r, line, s => by
    rw [checkBinaryExpression]
    rcases h1 : checkExpression n l s with ⟨s1, lt⟩
    rcases h2 : checkExpression n r s1 with ⟨s2, rt⟩
    have e1 := checkExpression_errs n l s
    have e2 := checkExpression_errs n r s1
    rw [h1] at e1
    rw [h2] at e2
    replace e1 : s.errors <+: s1.errors := e1
    replace e2 : s1.errors <+: s2.errors := e2
    have e12 := e1.trans e2
    simp only [h1, h2]
    split
    · split
      · exact e12
      · split
        · exact e12
        · split <;> split <;> first
            | exact e12
            | exact e12.trans (errors_addError _ _ _)
            | exact e12.trans ((errors_addError _ _ _).trans
                (errors_addError _ _ _))
    · split
      · exact e12
      · split
        · exact e12
        · split
          · exact e12
          · exact e12

theorem checkUnaryExpression_errs :
    ∀ (n : Nat) (op : String) (a : Expr) (line : Nat) (s : CheckerSt),
    s.errors <+: (checkUnaryExpression n op a line s).1.errors
  | 0, _, _, _, s => List.prefix_refl _
  | n + 1, op, a, line, s => by
    rw [checkUnaryExpression]
    rcases h1 : checkExpression n a s with ⟨s1, at1⟩
    have e1 := checkExpression_errs n a s
    rw [h1] at e1
    replace e1 : s.errors <+: s1.errors := e1
    simp only [h1]
    split
    · split
      · exact e1.trans (errors_addError _ _ _)
      · exact e1
    · split
      · exact e1
      · split
        · exact e1
        · split
          · exact e1
          · exact e1

theorem checkCallArgs_errs :
    ∀ (n : Nat) (args : List Expr) (ps : List FnParam) (count : Nat)
      (line : Nat) (s : CheckerSt),
    s.errors <+: (checkCallArgs n args ps count line s).errors
  | 0, _, _, _, _, s => List.prefix_refl _
  | _ + 1, args, ps, 0, _, s => by
    cases args <;> cases ps <;> rw [checkCallArgs]
  | _ + 1, [], ps, _ + 1, _, s => by cases ps <;> rw [checkCallArgs]
  | _ + 1, _ :: _, [], _ + 1, _, s => by rw [checkCallArgs]
  | n + 1, arg :: args, p :: ps, count + 1, line, s => by
    cases arg
    case spreadElement inner l =>
      rw [checkCallArgs]
      refine List.IsPrefix.trans ?_ (checkCallArgs_errs n args ps count line _)
      exact checkExpression_errs n inner s
    all_goals
      refine List.IsPrefix.trans ?_ (checkCallArgs_errs n args ps count line _)
      split
      · refine List.IsPrefix.trans ?_ (errors_addError _ _ _)
        exact checkExpression_errs n _ s
      · exact checkExpression_errs n _ s

theorem checkCallExpression_errs :
    ∀ (n : Nat) (callee : Expr) (args : List Expr) (line : Nat)
      (s : CheckerSt),
    s.errors <+: (checkCallExpression n callee args line s).1.errors
  | 0, _, _, _, s => List.prefix_refl _
  | n + 1, callee, args, line, s => by
    rw [checkCallExpression]
    rcases h1 : checkExpression n callee s with ⟨s1, ct⟩
    have e1 := checkExpression_errs n callee s
    rw [h1] at e1
    replace e1 : s.errors <+: s1.errors := e1
    simp only [h1]
    split
    · refine List.IsPrefix.trans ?_ (checkExpressionList_errs n args _)
      exact e1
    · split
      · exact e1.trans (errors_addError _ _ _)
      · split
        · refine List.IsPrefix.trans ?_
            (checkCallArgs_errs n args _ _ line _)
          split
          · exact e1.trans (errors_addError _ _ _)
          · split
            · exact e1.trans (errors_addError _ _ _)
            · exact e1
        · exact e1

theorem checkMemberExpression_errs :
    ∀ (n : Nat) (ob : Expr) (prop : String) (line : Nat) (s : CheckerSt),
    s.errors <+: (checkMemberExpression n ob prop line s).1.errors
  | 0, _, _, _, s => List.prefix_refl _
  | n + 1, ob, prop, line, s => by
    rw [checkMemberExpression]
    rcases h1 : checkExpression n ob s with ⟨s1, ot⟩
    have e1 := checkExpression_errs n ob s
    rw [h1] at e1
    replace e1 : s.errors <+: s1.errors := e1
    simp only [h1]
    split
    · exact e1
    · split
      · exact e1.trans (errors_addError _ _ _)
      · exact e1
    · split
      · exact e1.trans (errors_addError _ _ _)
      · exact e1
    · split
      · exact e1
      · split
        · exact e1
        · exact e1
    · split
      · split
        · exact e1
        · exact e1
      · exact e1
    · exact e1

theorem checkComputedMemberExpression_errs :
    ∀ (n : Nat) (ob prop : Expr) (line : Nat) (s : CheckerSt),
    s.errors <+: (checkComputedMemberExpression n ob prop line s).1.errors
  | 0, _, _, _, s => List.prefix_refl _
  | n + 1, ob, prop, line, s => by
    rw [checkComputedMemberExpression]
    rcases h1 : checkExpression n ob s with ⟨s1, ot⟩
    rcases h2 : checkExpression n prop s1 with ⟨s2, pt⟩
    have e1 := checkExpression_errs n ob s
    have e2 := checkExpression_errs n prop s1
    rw [h1] at e1
    rw [h2] at e2
    replace e1 : s.errors <+: s1.errors := e1
    replace e2 : s1.errors <+: s2.errors := e2
    have e12 := e1.trans e2
    simp only [h1, h2]
    split
    · split
      · exact e12.trans (errors_addError _ _ _)
      · exact e12
    · exact e12
    · exact e12

theorem checkObjectLiteral_errs :
    ∀ (n : Nat) (props : List ObjectPropNode) (s : CheckerSt),
    s.errors <+: (checkObjectLiteral n props s).1.errors
  | 0, _, s => List.prefix_refl _
  | n + 1, props, s => by
    rw [checkObjectLiteral]
    exact checkObjectProps_errs n props [] s

theorem checkObjectProps_errs :
    ∀ (n : Nat) (props : List ObjectPropNode) (acc : List IfaceMember)
      (s : CheckerSt),
    s.errors <+: (checkObjectProps n props acc s).1.errors
  | 0, _, _, s => List.prefix_refl _
  | _ + 1, [], _, s => List.prefix_refl _
  | n + 1, .mk key value c sh m :: rest, acc, s => by
    cases value
    case spreadElement inner l =>
      rw [checkObjectProps]
      refine List.IsPrefix.trans ?_ (checkObjectProps_errs n rest acc _)
      exact checkExpression_errs n inner s
    all_goals
      refine List.IsPrefix.trans ?_ (checkObjectProps_errs n rest _ _)
      exact checkExpression_errs n _ s

theorem checkArrayLiteral_errs :
    ∀ (n : Nat) (elems : List (Option Expr)) (s : CheckerSt),
    s.errors <+: (checkArrayLiteral n elems s).1.errors
  | 0, _, s => List.prefix_refl _
  | n + 1, elems, s => by
    rw [checkArrayLiteral]
    split
    · exact List.prefix_refl _
    · rcases h1 : checkArrayElems n elems s with ⟨s1, ts⟩
      have e1 := checkArrayElems_errs n elems s
      rw [h1] at e1
      replace e1 : s.errors <+: s1.errors := e1
      simp only [h1]
      split
      · exact e1
      · split
        · exact e1
        · exact e1

theorem checkArrayElems_errs :
    ∀ (n : Nat) (elems : List (Option Expr)) (s : CheckerSt),
    s.errors <+: (checkArrayElems n elems s).1.errors
  | 0, _, s => List.prefix_refl _
  | _ + 1, [], s => List.prefix_refl _
  | n + 1, none :: rest, s => by
    rw [checkArrayElems]
    exact checkArrayElems_errs n rest s
  | n + 1, some e :: rest, s => by
    cases e
    case spreadElement inner l =>
      rw [checkArrayElems]
      refine List.IsPrefix.trans ?_ (checkArrayElems_errs n rest _)
      exact checkExpression_errs n inner s
    all_goals
      refine List.IsPrefix.trans ?_ (checkArrayElems_errs n rest _)
      exact checkExpression_errs n _ s

theorem checkArrowFunction_errs :
    ∀ (n : Nat) (params : List Param) (rt : Option TypeNode)
      (body : ArrowBody) (s : CheckerSt),
    s.errors <+: (checkArrowFunction n params rt body s).1.errors
  | 0, _, _, _, s => List.prefix_refl _
  | n + 1, params, some rtn, .block b, s => by
    rw [checkArrowFunction]
    refine List.IsPrefix.trans ?_ (checkBlockStatement_errs n b _)
    refine List.IsPrefix.trans ?_ (resolveTypeNode_errs n rtn _)
    rw [errors_defineFnParams]
    exact resolveParams_errs n params s
  | n + 1, params, some rtn, .expr e, s => by
    rw [checkArrowFunction]
    refine List.IsPrefix.trans ?_ (resolveTypeNode_errs n rtn _)
    rw [errors_defineFnParams]
    exact resolveParams_errs n params s
  | n + 1, params, none, .block b, s => by
    rw [checkArrowFunction]
    refine List.IsPrefix.trans ?_ (checkBlockStatement_errs n b _)
    rw [errors_defineFnParams]
    exact resolveParams_errs n params s
  | n + 1, params, none, .expr e, s => by
    rw [checkArrowFunction]
    refine List.IsPrefix.trans ?_ (checkExpression_errs n e _)
    rw [errors_defineFnParams]
    exact resolveParams_errs n params s

theorem checkFunctionExpression_errs :
    ∀ (n : Nat) (nm : Option String) (params : List Param)
      (rt : Option TypeNode) (body : BlockStmt) (s : CheckerSt),
    s.errors <+: (checkFunctionExpression n nm params rt body s).1.errors
  | 0, _, _, _, _, s => List.prefix_refl _
  | n + 1, nm, params, rt, body, s => by
    rcases nm with _ | fname
    all_goals rcases rt with _ | rtn
    all_goals rw [checkFunctionExpression]
    all_goals refine List.IsPrefix.trans ?_ (checkBlockStatement_errs n body _)
    all_goals rw [errors_defineFnParams]
    all_goals first
      | exact (resolveParams_errs n params s).trans (resolveTypeNode_errs n rtn _)
      | exact resolveParams_errs n params s

theorem checkNewExpression_errs :
    ∀ (n : Nat) (callee : Expr) (args : List Expr) (s : CheckerSt),
    s.errors <+: (checkNewExpression n callee args s).1.errors
  | 0, _, _, s => List.prefix_refl _
  | n + 1, callee, args, s => by
    rw [checkNewExpression]
    rcases h1 : checkExpression n callee s with ⟨s1, ct⟩
    have e1 := checkExpression_errs n callee s
    rw [h1] at e1
    replace e1 : s.errors <+: s1.errors := e1
    simp only [h1]
    split <;>
      (refine List.IsPrefix.trans ?_ (checkExpressionList_errs n args _)
       exact e1)

theorem checkExpression_errs : ∀ (n : Nat) (e : Expr) (s : CheckerSt),
    s.errors <+: (checkExpression n e s).1.errors
  | 0, _, s => List.prefix_refl _
  | n + 1, e, s => by
    cases e with
    | numericLiteral a b => rw [checkExpression]
    | stringLiteral a b => rw [checkExpression]
    | booleanLiteral a b => rw [checkExpression]
    | nullLiteral a => rw [checkExpression]
    | undefinedLiteral a => rw [checkExpression]
    | identifier name line =>
      rw [checkExpression]
      cases hl : Env.lookup name s.env with
      | none => exact errors_addError _ _ _
      | some entry => exact List.prefix_refl _
    | binaryExpression op l r line =>
      rw [checkExpression]
      exact checkBinaryExpression_errs n op l r line s
    | unaryExpression op a pfx line =>
      rw [checkExpression]
      exact checkUnaryExpression_errs n op a line s
    | updateExpression op a pfx line =>
      rw [checkExpression]
      rcases h1 : checkExpression n a s with ⟨s1, t1⟩
      have e1 := checkExpression_errs n a s
      rw [h1] at e1
      replace e1 : s.errors <+: s1.errors := e1
      simp only [h1]
      split
      · exact e1.trans (errors_addError _ _ _)
      · exact e1
    | callExpression callee args ta opt line =>
      rw [checkExpression]
      exact checkCallExpression_errs n callee args line s
    | memberExpression ob prop opt line =>
      rw [checkExpression]
      exact checkMemberExpression_errs n ob prop line s
    | computedMemberExpression ob prop opt line =>
      rw [checkExpression]
      exact checkComputedMemberExpression_errs n ob prop line s
    | objectLiteral props line =>
      rw [checkExpression]
      exact checkObjectLiteral_errs n props s
    | arrayLiteral elems line =>
      rw [checkExpression]
      exact checkArrayLiteral_errs n elems s
    | arrowFunction params rt body ia tps line =>
      rw [checkExpression]
      exact checkArrowFunction_errs n params rt body s
    | functionExpression nm params rt body ia ig tps line =>
      rw [checkExpression]
      exact checkFunctionExpression_errs n nm params rt body s
    | conditionalExpression c cons alt line =>
      rw [checkExpression]
      refine List.IsPrefix.trans ?_ (checkExpression_errs n alt _)
      refine List.IsPrefix.trans ?_ (checkExpression_errs n cons _)
      exact checkExpression_errs n c s
    | assignmentExpression op l r line =>
      rw [checkExpression]
      rcases h1 : checkExpression n r s with ⟨s1, rt⟩
      rcases h2 : checkExpression n l s1 with ⟨s2, lt⟩
      have e1 := checkExpression_errs n r s
      have e2 := checkExpression_errs n l s1
      rw [h1] at e1
      rw [h2] at e2
      replace e1 : s.errors <+: s1.errors := e1
      replace e2 : s1.errors <+: s2.errors := e2
      simp only [h1, h2]
      split
      · exact e1.trans (e2.trans (errors_addError _ _ _))
      · exact e1.trans e2
    | logicalExpression op l r line =>
      rw [checkExpression]
      rcases h1 : checkExpression n l s with ⟨s1, lt⟩
      rcases h2 : checkExpression n r s1 with ⟨s2, rt⟩
      have e1 := checkExpression_errs n l s
      have e2 := checkExpression_errs n r s1
      rw [h1] at e1
      rw [h2] at e2
      replace e1 : s.errors <+: s1.errors := e1
      replace e2 : s1.errors <+: s2.errors := e2
      simp only [h1, h2]
      split <;> exact e1.trans e2
    | newExpression callee args ta line =>
      rw [checkExpression]
      exact checkNewExpression_errs n callee args s
    | thisExpression line =>
      rw [checkExpression]
      cases hl : Env.lookup "this" s.env with
      | none => exact List.prefix_refl _
      | some entry => exact List.prefix_refl _
    | superExpression line => rw [checkExpression]
    | spreadElement a line =>
      rw [checkExpression]
      exact checkExpression_errs n a s
    | awaitExpression a line =>
      rw [checkExpression]
      exact checkExpression_errs n a s
    | yieldExpression arg delegate line =>
      cases arg with
      | some a =>
        rw [checkExpression]
        exact checkExpression_errs n a s
      | none => rw [checkExpression]
    | templateLiteralExpr quasis exprs line =>
      rw [checkExpression]
      exact checkExpressionList_errs n exprs s
    | taggedTemplateExpression tag quasi line =>
      rw [checkExpression]
      exact checkExpression_errs n tag s
    | typeAssertion ta expr line =>
      rw [checkExpression]
      refine List.IsPrefix.trans ?_ (resolveTypeNode_errs n ta _)
      exact checkExpression_errs n expr s
    | asExpression expr ta line =>
      rw [checkExpression]
      refine List.IsPrefix.trans ?_ (resolveTypeNode_errs n ta _)
      exact checkExpression_errs n expr s
    | nonNullExpression expr line =>
      rw [checkExpression]
      exact checkExpression_errs n expr s
    | classExpression a b c d e => rw [checkExpression]
    | parenthesizedExpression expr line =>
      rw [checkExpression]
      exact checkExpression_errs n expr s

theorem checkStatement_errs : ∀ (n : Nat) (stmt : Stmt) (s : CheckerSt),
    s.errors <+: (checkStatement n stmt s).errors
  | 0, _, s => List.prefix_refl _
  | n + 1, stmt, s => by
    cases stmt with
    | variableDeclaration name varKind typeAnn initializer line =>
      rw [checkStatement]
      exact checkVariableDeclaration_errs n name varKind typeAnn initializer
        line s
    | functionDeclaration name ps rt body ia ig tps line =>
      rw [checkStatement]
      exact checkFunctionDeclaration_errs n name body s
    | interfaceDeclaration a b c d e => rw [checkStatement]
    | typeAliasDeclaration a b c d => rw [checkStatement]
    | classDeclaration name sc impl tps members decs ab line =>
      rw [checkStatement]
      exact checkClassDeclaration_errs n name members s
    | enumDeclaration a members c d =>
      rw [checkStatement]
      exact checkEnumMembersLoop_errs n members s
    | returnStatement argument line =>
      rw [checkStatement]
      exact checkReturnStatement_errs n argument line s
    | ifStatement c cons alt line =>
      rw [checkStatement]
      exact checkIfStatement_errs n c cons alt s
    | whileStatement c body line =>
      rw [checkStatement]
      exact checkWhileStatement_errs n c body s
    | forStatement i c u body line =>
      rw [checkStatement]
      exact checkForStatement_errs n i c u body s
    | forOfStatement v it body aw line =>
      rw [checkStatement]
      exact checkForOfStatement_errs n v it body s
    | forInStatement v ob body line =>
      rw [checkStatement]
      exact checkForInStatement_errs n v ob body s
    | doWhileStatement body c line =>
      rw [checkStatement]
      refine List.IsPrefix.trans ?_ (checkExpression_errs n c _)
      exact checkStatement_errs n body s
    | switchStatement d cs line =>
      rw [checkStatement]
      exact checkSwitchStatement_errs n d cs s
    | breakStatement a b => rw [checkStatement]
    | continueStatement a b => rw [checkStatement]
    | throwStatement a line =>
      rw [checkStatement]
      exact checkExpression_errs n a s
    | tryStatement b h f line =>
      rw [checkStatement]
      exact checkTryStatement_errs n b h f s
    | expressionStatement e line =>
      rw [checkStatement]
      exact checkExpression_errs n e s
    | blockStatement b =>
      rw [checkStatement]
      exact checkBlockStatement_errs n b s
    | importDeclaration a b c d => rw [checkStatement]
    | exportDeclaration a b c d e f => rw [checkStatement]
    | emptyStatement a => rw [checkStatement]

theorem checkStatements_errs : ∀ (n : Nat) (stmts : List Stmt) (s : CheckerSt),
    s.errors <+: (checkStatements n stmts s).errors
  | 0, _, s => List.prefix_refl _
  | _ + 1, [], s => List.prefix_refl _
  | n + 1, stmt :: rest, s => by
    rw [checkStatements]
    refine List.IsPrefix.trans ?_ (checkStatements_errs n rest _)
    exact checkStatement_errs n stmt s

theorem checkWhileStatement_errs :
    ∀ (n : Nat) (c : Expr) (body : Stmt) (s : CheckerSt),
    s.errors <+: (checkWhileStatement n c body s).errors
  | 0, _, _, s => List.prefix_refl _
  | n + 1, c, body, s => by
    rw [checkWhileStatement]
    refine List.IsPrefix.trans ?_ (checkStatement_errs n body _)
    exact checkExpression_errs n c s

theorem checkIfStatement_errs :
    ∀ (n : Nat) (c : Expr) (cons : Stmt) (alt : Option Stmt) (s : CheckerSt),
    s.errors <+: (checkIfStatement n c cons alt s).errors
  | 0, _, _, _, s => List.prefix_refl _
  | n + 1, c, cons, none, s => by
    rw [checkIfStatement]
    refine List.IsPrefix.trans ?_ (checkStatement_errs n cons _)
    exact checkExpression_errs n c s
  | n + 1, c, cons, some a, s => by
    rw [checkIfStatement]
    refine List.IsPrefix.trans ?_ (checkStatement_errs n a _)
    refine List.IsPrefix.trans ?_ (checkStatement_errs n cons _)
    exact checkExpression_errs n c s

end


/-! Environment preservation: the resolver and expression checker never
change the current environment chain (they only thread it). -/

mutual

theorem resolveTypeNode_env : ∀ (n : Nat) (node : TypeNode) (s : CheckerSt),
    (resolveTypeNode n node s).1.env = s.env
  | 0, _, s => rfl
  | n + 1, node, s => by
    cases node with
    | typeReference tn targs line =>
      rcases resolveTypeRef_state n tn targs line s with h | h <;> rw [h]
      rfl
    | arrayType et line =>
      rw [resolveTypeNode]
      rcases h : resolveTypeNode n et s with ⟨s1, t1⟩
      have i := resolveTypeNode_env n et s
      rw [h] at i
      simpa using i
    | tupleType ets line =>
      rw [resolveTypeNode]
      rcases h : resolveTypeNodeList n ets s with ⟨s1, ts1⟩
      have i := resolveTypeNodeList_env n ets s
      rw [h] at i
      simpa using i
    | unionType ts line =>
      rw [resolveTypeNode]
      rcases h : resolveTypeNodeList n ts s with ⟨s1, ts1⟩
      have i := resolveTypeNodeList_env n ts s
      rw [h] at i
      simpa using i
    | intersectionType ts line =>
      rw [resolveTypeNode]
      rcases h : resolveTypeNodeList n ts s with ⟨s1, ts1⟩
      have i := resolveTypeNodeList_env n ts s
      rw [h] at i
      simpa using i
    | functionTypeNode ps rt tps line =>
      rw [resolveTypeNode]
      rcases h1 : resolveParams n ps s with ⟨s1, ps1⟩
      rcases h2 : resolveTypeNode n rt s1 with ⟨s2, r1⟩
      have i1 := resolveParams_env n ps s
      have i2 := resolveTypeNode_env n rt s1
      rw [h1] at i1
      rw [h2] at i2
      simp only [h1, h2]
      exact i2.trans i1
    | objectTypeNode ms line =>
      rw [resolveTypeNode]
      rcases h : resolveObjectMembers n ms [] s with ⟨s1, ms1⟩
      have i := resolveObjectMembers_env n ms [] s
      rw [h] at i
      simpa using i
    | literalType v line => cases v <;> rw [resolveTypeNode]
    | parenthesizedType t line =>
      rw [resolveTypeNode]
      exact resolveTypeNode_env n t s
    | typeQuery e line => rw [resolveTypeNode]
    | conditionalType a b c d line => rw [resolveTypeNode]
    | indexedAccessType a b line => rw [resolveTypeNode]
    | mappedType a b line => rw [resolveTypeNode]
    | inferType a line => rw [resolveTypeNode]
    | optionalType a line => rw [resolveTypeNode]
    | restType a line => rw [resolveTypeNode]

theorem resolveTypeNodeList_env :
    ∀ (n : Nat) (ts : List TypeNode) (s : CheckerSt),
    (resolveTypeNodeList n ts s).1.env = s.env
  | 0, _, s => rfl
  | _ + 1, [], s => rfl
  | n + 1, t :: rest, s => by
    rw [resolveTypeNodeList]
    rcases h1 : resolveTypeNode n t s with ⟨s1, t1⟩
    rcases h2 : resolveTypeNodeList n rest s1 with ⟨s2, ts1⟩
    have i1 := resolveTypeNode_env n t s
    have i2 := resolveTypeNodeList_env n rest s1
    rw [h1] at i1
    rw [h2] at i2
    simp only [h1, h2]
    exact i2.trans i1

theorem resolveParams_env :
    ∀ (n : Nat) (ps : List Param) (s : CheckerSt),
    (resolveParams n ps s).1.env = s.env
  | 0, _, s => rfl
  | _ + 1, [], s => rfl
  | n + 1, p :: rest, s => by
    rw [resolveParams]
    cases hta : p.typeAnn with
    | none =>
      rcases h2 : resolveParams n rest s with ⟨s2, ps1⟩
      have i2 := resolveParams_env n rest s
      rw [h2] at i2
      simp only [h2]
      simpa using i2
    | some ann =>
      rcases h1 : resolveTypeNode n ann s with ⟨s1, t1⟩
      rcases h2 : resolveParams n rest s1 with ⟨s2, ps1⟩
      have i1 := resolveTypeNode_env n ann s
      have i2 := resolveParams_env n rest s1
      rw [h1] at i1
      rw [h2] at i2
      simp only [h1, h2]
      exact i2.trans i1

theorem resolveObjectMembers_env :
    ∀ (n : Nat) (ms : List TypeMemberNode) (acc : List IfaceMember)
      (s : CheckerSt),
    (resolveObjectMembers n ms acc s).1.env = s.env
  | 0, _, _, s => rfl
  | _ + 1, [], _, s => rfl
  | n + 1, .mk name ta opt a b c :: rest, acc, s => by
    cases name with
    | none =>
      rw [resolveObjectMembers]
      exact resolveObjectMembers_env n rest acc s
    | some nm =>
      rw [resolveObjectMembers]
      rcases h1 : resolveTypeNode n ta s with ⟨s1, t1⟩
      have i1 := resolveTypeNode_env n ta s
      have i2 := resolveObjectMembers_env n rest
        (ifaceSet (IfaceMember.mk nm t1 opt false) acc) s1
      rw [h1] at i1
      simp only [h1]
      exact i2.trans i1

end

mutual

theorem checkExpressionList_env :
    ∀ (n : Nat) (es : List Expr) (s : CheckerSt),
    (checkExpressionList n es s).env = s.env
  | 0, _, _ => rfl
  | _ + 1, [], _ => rfl
  | n + 1, e :: rest, s => by
    rw [checkExpressionList]
    rw [checkExpressionList_env n rest]
    exact checkExpression_env n e s

theorem checkBinaryExpression_env :
    ∀ (n : Nat) (op : String) (l r : Expr) (line : Nat) (s : CheckerSt),
    (checkBinaryExpression n op l r line s).1.env = s.env
  | 0, _, _, _, _, _ => rfl
  | n + 1, op, l, r, line, s => by
    rw [checkBinaryExpression]
    rcases h1 : checkExpression n l s with ⟨s1, lt⟩
    rcases h2 : checkExpression n r s1 with ⟨s2, rt⟩
    have i1 := checkExpression_env n l s
    have i2 := checkExpression_env n r s1
    rw [h1] at i1
    rw [h2] at i2
    replace i1 : s1.env = s.env := i1
    replace i2 : s2.env = s1.env := i2
    have i12 := i2.trans i1
    simp only [h1, h2]
    split
    · split
      · exact i12
      · split
        · exact i12
        · split <;> split <;> exact i12
    · split
      · exact i12
      · split
        · exact i12
        · split
          · exact i12
          · exact i12

theorem checkUnaryExpression_env :
    ∀ (n : Nat) (op : String) (a : Expr) (line : Nat) (s : CheckerSt),
    (checkUnaryExpression n op a line s).1.env = s.env
  | 0, _, _, _, _ => rfl
  | n + 1, op, a, line, s => by
    rw [checkUnaryExpression]
    rcases h1 : checkExpression n a s with ⟨s1, t1⟩
    have i1 := checkExpression_env n a s
    rw [h1] at i1
    replace i1 : s1.env = s.env := i1
    simp only [h1]
    split
    · split <;> exact i1
    · split
      · exact i1
      · split
        · exact i1
        · split <;> exact i1

theorem checkCallArgs_env :
    ∀ (n : Nat) (args : List Expr) (ps : List FnParam) (count : Nat)
      (line : Nat) (s : CheckerSt),
    (checkCallArgs n args ps count line s).env = s.env
  | 0, _, _, _, _, _ => rfl
  | _ + 1, args, ps, 0, _, s => by
    cases args <;> cases ps <;> rw [checkCallArgs]
  | _ + 1, [], ps, _ + 1, _, s => by cases ps <;> rw [checkCallArgs]
  | _ + 1, _ :: _, [], _ + 1, _, s => by rw [checkCallArgs]
  | n + 1, arg :: args, p :: ps, count + 1, line, s => by
    cases arg
    case spreadElement inner l =>
      rw [checkCallArgs]
      rw [checkCallArgs_env n args ps count line]
      exact checkExpression_env n inner s
    all_goals
      refine Eq.trans (checkCallArgs_env n args ps count line _) ?_
      split
      · exact checkExpression_env n _ s
      · exact checkExpression_env n _ s

theorem checkCallExpression_env :
    ∀ (n : Nat) (callee : Expr) (args : List Expr) (line : Nat)
      (s : CheckerSt),
    (checkCallExpression n callee args line s).1.env = s.env
  | 0, _, _, _, _ => rfl
  | n + 1, callee, args, line, s => by
    rw [checkCallExpression]
    rcases h1 : checkExpression n callee s with ⟨s1, ct⟩
    have i1 := checkExpression_env n callee s
    rw [h1] at i1
    replace i1 : s1.env = s.env := i1
    simp only [h1]
    split
    · exact (checkExpressionList_env n args s1).trans i1
    · split
      · exact i1
      · split
        · rw [checkCallArgs_env n args]
          split
          · exact i1
          · split <;> exact i1
        · exact i1

theorem checkMemberExpression_env :
    ∀ (n : Nat) (ob : Expr) (prop : String) (line : Nat) (s : CheckerSt),
    (checkMemberExpression n ob prop line s).1.env = s.env
  | 0, _, _, _, _ => rfl
  | n + 1, ob, prop, line, s => by
    rw [checkMemberExpression]
    rcases h1 : checkExpression n ob s with ⟨s1, ot⟩
    have i1 := checkExpression_env n ob s
    rw [h1] at i1
    replace i1 : s1.env = s.env := i1
    simp only [h1]
    split
    · exact i1
    · split <;> exact i1
    · split <;> exact i1
    · split
      · exact i1
      · split <;> exact i1
    · split
      · split <;> exact i1
      · exact i1
    · exact i1

theorem checkComputedMemberExpression_env :
    ∀ (n : Nat) (ob prop : Expr) (line : Nat) (s : CheckerSt),
    (checkComputedMemberExpression n ob prop line s).1.env = s.env
  | 0, _, _, _, _ => rfl
  | n + 1, ob, prop, line, s => by
    rw [checkComputedMemberExpression]
    rcases h1 : checkExpression n ob s with ⟨s1, ot⟩
    rcases h2 : checkExpression n prop s1 with ⟨s2, pt⟩
    have i1 := checkExpression_env n ob s
    have i2 := checkExpression_env n prop s1
    rw [h1] at i1
    rw [h2] at i2
    replace i1 : s1.env = s.env := i1
    replace i2 : s2.env = s1.env := i2
    have i12 := i2.trans i1
    simp only [h1, h2]
    split
    · split <;> exact i12
    · exact i12
    · exact i12

theorem checkObjectLiteral_env :
    ∀ (n : Nat) (props : List ObjectPropNode) (s : CheckerSt),
    (checkObjectLiteral n props s).1.env = s.env
  | 0, _, _ => rfl
  | n + 1, props, s => by
    rw [checkObjectLiteral]
    exact checkObjectProps_env n props [] s

theorem checkObjectProps_env :
    ∀ (n : Nat) (props : List ObjectPropNode) (acc : List IfaceMember)
      (s : CheckerSt),
    (checkObjectProps n props acc s).1.env = s.env
  | 0, _, _, _ => rfl
  | _ + 1, [], _, _ => rfl
  | n + 1, .mk key value c sh m :: rest, acc, s => by
    cases value
    case spreadElement inner l =>
      rw [checkObjectProps]
      rw [checkObjectProps_env n rest acc]
      exact checkExpression_env n inner s
    all_goals
      refine Eq.trans (checkObjectProps_env n rest _ _) ?_
      exact checkExpression_env n _ s

theorem checkArrayLiteral_env :
    ∀ (n : Nat) (elems : List (Option Expr)) (s : CheckerSt),
    (checkArrayLiteral n elems s).1.env = s.env
  | 0, _, _ => rfl
  | n + 1, elems, s => by
    rw [checkArrayLiteral]
    split
    · rfl
    · rcases h1 : checkArrayElems n elems s with ⟨s1, ts⟩
      have i1 := checkArrayElems_env n elems s
      rw [h1] at i1
      replace i1 : s1.env = s.env := i1
      simp only [h1]
      split
      · exact i1
      · split <;> exact i1

theorem checkArrayElems_env :
    ∀ (n : Nat) (elems : List (Option Expr)) (s : CheckerSt),
    (checkArrayElems n elems s).1.env = s.env
  | 0, _, _ => rfl
  | _ + 1, [], _ => rfl
  | n + 1, none :: rest, s => by
    rw [checkArrayElems]
    exact checkArrayElems_env n rest s
  | n + 1, some e :: rest, s => by
    cases e
    case spreadElement inner l =>
      rw [checkArrayElems]
      rcases h1 : checkExpression n inner s with ⟨s1, t1⟩
      have i1 := checkExpression_env n inner s
      rw [h1] at i1
      replace i1 : s1.env = s.env := i1
      simp only [h1]
      rcases h2 : checkArrayElems n rest s1 with ⟨s2, ts⟩
      have i2 := checkArrayElems_env n rest s1
      rw [h2] at i2
      replace i2 : s2.env = s1.env := i2
      simp only [h2]
      exact i2.trans i1
    all_goals
      refine Eq.trans (checkArrayElems_env n rest _) ?_
      exact checkExpression_env n _ s

theorem checkArrowFunction_env :
    ∀ (n : Nat) (params : List Param) (rt : Option TypeNode)
      (body : ArrowBody) (s : CheckerSt),
    (checkArrowFunction n params rt body s).1.env = s.env
  | 0, _, _, _, _ => rfl
  | n + 1, params, some rtn, .block b, s => by
    rw [checkArrowFunction]
    rcases h1 : resolveParams n params s with ⟨s1, ps1⟩
    have i1 := resolveParams_env n params s
    rw [h1] at i1
    replace i1 : s1.env = s.env := i1
    simp only [h1]
    exact i1
  | n + 1, params, some rtn, .expr e, s => by
    rw [checkArrowFunction]
    rcases h1 : resolveParams n params s with ⟨s1, ps1⟩
    have i1 := resolveParams_env n params s
    rw [h1] at i1
    replace i1 : s1.env = s.env := i1
    simp only [h1]
    exact i1
  | n + 1, params, none, .block b, s => by
    rw [checkArrowFunction]
    rcases h1 : resolveParams n params s with ⟨s1, ps1⟩
    have i1 := resolveParams_env n params s
    rw [h1] at i1
    replace i1 : s1.env = s.env := i1
    simp only [h1]
    exact i1
  | n + 1, params, none, .expr e, s => by
    rw [checkArrowFunction]
    rcases h1 : resolveParams n params s with ⟨s1, ps1⟩
    have i1 := resolveParams_env n params s
    rw [h1] at i1
    replace i1 : s1.env = s.env := i1
    simp only [h1]
    exact i1

theorem checkFunctionExpression_env :
    ∀ (n : Nat) (nm : Option String) (params : List Param)
      (rt : Option TypeNode) (body : BlockStmt) (s : CheckerSt),
    (checkFunctionExpression n nm params rt body s).1.env = s.env
  | 0, _, _, _, _, _ => rfl
  | n + 1, nm, params, rt, body, s => by
    rcases nm with _ | fname
    all_goals rcases rt with _ | rtn
    all_goals rw [checkFunctionExpression]
    all_goals
      rcases h1 : resolveParams n params s with ⟨s1, ps1⟩
      have i1 := resolveParams_env n params s
      rw [h1] at i1
      replace i1 : s1.env = s.env := i1
      simp only [h1]
    case some.some | none.some =>
      rcases h2 : resolveTypeNode n rtn s1 with ⟨s2, t2⟩
      have i2 := resolveTypeNode_env n rtn s1
      rw [h2] at i2
      replace i2 : s2.env = s1.env := i2
      simp only [h2]
      exact i2.trans i1
    all_goals exact i1

theorem checkNewExpression_env :
    ∀ (n : Nat) (callee : Expr) (args : List Expr) (s : CheckerSt),
    (checkNewExpression n callee args s).1.env = s.env
  | 0, _, _, _ => rfl
  | n + 1, callee, args, s => by
    rw [checkNewExpression]
    rcases h1 : checkExpression n callee s with ⟨s1, ct⟩
    have i1 := checkExpression_env n callee s
    rw [h1] at i1
    replace i1 : s1.env = s.env := i1
    simp only [h1]
    split <;> exact (checkExpressionList_env n args s1).trans i1

theorem checkExpression_env : ∀ (n : Nat) (e : Expr) (s : CheckerSt),
    (checkExpression n e s).1.env = s.env
  | 0, _, _ => rfl
  | n + 1, e, s => by
    cases e with
    | numericLiteral a b => rw [checkExpression]
    | stringLiteral a b => rw [checkExpression]
    | booleanLiteral a b => rw [checkExpression]
    | nullLiteral a => rw [checkExpression]
    | undefinedLiteral a => rw [checkExpression]
    | identifier name line =>
      rw [checkExpression]
      cases hl : Env.lookup name s.env with
      | none => rfl
      | some entry => rfl
    | binaryExpression op l r line =>
      rw [checkExpression]
      exact checkBinaryExpression_env n op l r line s
    | unaryExpression op a pfx line =>
      rw [checkExpression]
      exact checkUnaryExpression_env n op a line s
    | updateExpression op a pfx line =>
      rw [checkExpression]
      rcases h1 : checkExpression n a s with ⟨s1, t1⟩
      have i1 := checkExpression_env n a s
      rw [h1] at i1
      replace i1 : s1.env = s.env := i1
      simp only [h1]
      split <;> exact i1
    | callExpression callee args ta opt line =>
      rw [checkExpression]
      exact checkCallExpression_env n callee args line s
    | memberExpression ob prop opt line =>
      rw [checkExpression]
      exact checkMemberExpression_env n ob prop line s
    | computedMemberExpression ob prop opt line =>
      rw [checkExpression]
      exact checkComputedMemberExpression_env n ob prop line s
    | objectLiteral props line =>
      rw [checkExpression]
      exact checkObjectLiteral_env n props s
    | arrayLiteral elems line =>
      rw [checkExpression]
      exact checkArrayLiteral_env n elems s
    | arrowFunction params rt body ia tps line =>
      rw [checkExpression]
      exact checkArrowFunction_env n params rt body s
    | functionExpression nm params rt body ia ig tps line =>
      rw [checkExpression]
      exact checkFunctionExpression_env n nm params rt body s
    | conditionalExpression c cons alt line =>
      rw [checkExpression]
      rcases h1 : checkExpression n c s with ⟨s1, t1⟩
      rcases h2 : checkExpression n cons s1 with ⟨s2, t2⟩
      rcases h3 : checkExpression n alt s2 with ⟨s3, t3⟩
      have i1 := checkExpression_env n c s
      have i2 := checkExpression_env n cons s1
      have i3 := checkExpression_env n alt s2
      rw [h1] at i1
      rw [h2] at i2
      rw [h3] at i3
      replace i1 : s1.env = s.env := i1
      replace i2 : s2.env = s1.env := i2
      replace i3 : s3.env = s2.env := i3
      simp only [h1, h2, h3]
      exact i3.trans (i2.trans i1)
    | assignmentExpression op l r line =>
      rw [checkExpression]
      rcases h1 : checkExpression n r s with ⟨s1, rt⟩
      rcases h2 : checkExpression n l s1 with ⟨s2, lt⟩
      have i1 := checkExpression_env n r s
      have i2 := checkExpression_env n l s1
      rw [h1] at i1
      rw [h2] at i2
      replace i1 : s1.env = s.env := i1
      replace i2 : s2.env = s1.env := i2
      simp only [h1, h2]
      split <;> exact i2.trans i1
    | logicalExpression op l r line =>
      rw [checkExpression]
      rcases h1 : checkExpression n l s with ⟨s1, lt⟩
      rcases h2 : checkExpression n r s1 with ⟨s2, rt⟩
      have i1 := checkExpression_env n l s
      have i2 := checkExpression_env n r s1
      rw [h1] at i1
      rw [h2] at i2
      replace i1 : s1.env = s.env := i1
      replace i2 : s2.env = s1.env := i2
      simp only [h1, h2]
      split <;> exact i2.trans i1
    | newExpression callee args ta line =>
      rw [checkExpression]
      exact checkNewExpression_env n callee args s
    | thisExpression line =>
      rw [checkExpression]
      cases hl : Env.lookup "this" s.env with
      | none => rfl
      | some entry => rfl
    | superExpression line => rw [checkExpression]
    | spreadElement a line =>
      rw [checkExpression]
      exact checkExpression_env n a s
    | awaitExpression a line =>
      rw [checkExpression]
      rcases h1 : checkExpression n a s with ⟨s1, t1⟩
      have i1 := checkExpression_env n a s
      rw [h1] at i1
      simpa [h1] using i1
    | yieldExpression arg delegate line =>
      cases arg with
      | some a =>
        rw [checkExpression]
        exact checkExpression_env n a s
      | none => rw [checkExpression]
    | templateLiteralExpr quasis exprs line =>
      rw [checkExpression]
      exact checkExpressionList_env n exprs s
    | taggedTemplateExpression tag quasi line =>
      rw [checkExpression]
      rcases h1 : checkExpression n tag s with ⟨s1, t1⟩
      have i1 := checkExpression_env n tag s
      rw [h1] at i1
      simpa [h1] using i1
    | typeAssertion ta expr line =>
      rw [checkExpression]
      rcases h1 : checkExpression n expr s with ⟨s1, t1⟩
      have i1 := checkExpression_env n expr s
      rw [h1] at i1
      replace i1 : s1.env = s.env := i1
      simp only [h1]
      exact (resolveTypeNode_env n ta s1).trans i1
    | asExpression expr ta line =>
      rw [checkExpression]
      rcases h1 : checkExpression n expr s with ⟨s1, t1⟩
      have i1 := checkExpression_env n expr s
      rw [h1] at i1
      replace i1 : s1.env = s.env := i1
      simp only [h1]
      exact (resolveTypeNode_env n ta s1).trans i1
    | nonNullExpression expr line =>
      rw [checkExpression]
      exact checkExpression_env n expr s
    | classExpression a b c d e => rw [checkExpression]
    | parenthesizedExpression expr line =>
      rw [checkExpression]
      exact checkExpression_env n expr s

end

/-! ## Reflexivity of assignability -/

theorem Ty.size_pos : ∀ (t : Ty), 1 ≤ t.size := by
  intro t
  cases t <;> simp [Ty.size] <;> omega

/-- In a member list with distinct names, looking a member's own name up
finds that member. -/
theorem ifaceGet_self :
    ∀ (ms : List IfaceMember), (ms.map IfaceMember.name).Nodup →
    ∀ m ∈ ms, ifaceGet ms m.name = some m := by
  intro ms
  induction ms with
  | nil => intro _ m hm; cases hm
  | cons m0 rest ih =>
    intro hnd m hm
    rw [List.map_cons, List.nodup_cons] at hnd
    rw [List.mem_cons] at hm
    rcases hm with hm | hm
    · subst hm
      unfold ifaceGet
      rw [if_pos rfl]
    · unfold ifaceGet
      rw [if_neg, ih hnd.2 m hm]
      intro heq
      exact hnd.1 (heq ▸ List.mem_map_of_mem IfaceMember.name hm)

theorem tupleLoop_refl
    (ts : List Ty)
    (ih : ∀ t ∈ ts, ∀ (n : Nat), 2 * t.size ≤ n →
      isAssignableFuel n t t = true) :
    ∀ (sub : List Ty), (∀ t ∈ sub, t ∈ ts) →
    ∀ (k : Nat), 2 * sizeTyList sub < k →
    tupleElemsAssignableFuel k sub sub = true := by
  intro sub
  induction sub with
  | nil =>
    intro _ k hk
    match k, hk with
    | j + 1, _ => rw [tupleElemsAssignableFuel]
  | cons t rest ihr =>
    intro hsub k hk
    match k, hk with
    | j + 1, hk =>
      rw [tupleElemsAssignableFuel]
      rw [ih t (hsub t (by simp)) j (by simp [sizeTyList] at hk; omega)]
      simp only [Bool.not_true, Bool.false_eq_true, if_false]
      exact ihr (fun x hx => hsub x (by simp [hx])) j
        (by simp [sizeTyList] at hk; have := Ty.size_pos t; omega)

theorem paramsLoop_refl
    (ps : List FnParam)
    (ih : ∀ p ∈ ps, ∀ (n : Nat), 2 * (FnParam.type p).size ≤ n →
      isAssignableFuel n p.type p.type = true) :
    ∀ (sub : List FnParam), (∀ p ∈ sub, p ∈ ps) →
    ∀ (k : Nat), 2 * sizeFnParams sub < k →
    paramsContravariantFuel k sub sub = true := by
  intro sub
  induction sub with
  | nil =>
    intro _ k hk
    match k, hk with
    | j + 1, _ => rw [paramsContravariantFuel]
  | cons p rest ihr =>
    intro hsub k hk
    match k, hk with
    | j + 1, hk =>
      rw [paramsContravariantFuel]
      rw [ih p (hsub p (by simp)) j
        (by rcases p with ⟨nm, pt, o⟩
            simp [sizeFnParams, FnParam.size, FnParam.type] at hk ⊢
            omega)]
      simp only [Bool.not_true, Bool.false_eq_true, if_false]
      exact ihr (fun x hx => hsub x (by simp [hx])) j
        (by rcases p with ⟨nm, pt, o⟩
            simp [sizeFnParams, FnParam.size] at hk ⊢
            have := Ty.size_pos pt
            omega)

theorem ifaceLoop_refl
    (ms : List IfaceMember) (hnd : (ms.map IfaceMember.name).Nodup)
    (ih : ∀ m ∈ ms, ∀ (n : Nat), 2 * (IfaceMember.type m).size ≤ n →
      isAssignableFuel n m.type m.type = true) :
    ∀ (sub : List IfaceMember), (∀ m ∈ sub, m ∈ ms) →
    ∀ (k : Nat), 2 * sizeIfaceMembers sub < k →
    isInterfaceAssignableFuel k ms sub = true := by
  intro sub
  induction sub with
  | nil =>
    intro _ k hk
    match k, hk with
    | j + 1, _ => rw [isInterfaceAssignableFuel]
  | cons m rest ihr =>
    intro hsub k hk
    match k, hk with
    | j + 1, hk =>
      rw [isInterfaceAssignableFuel]
      rw [ifaceGet_self ms hnd m (hsub m (by simp))]
      dsimp only
      rw [ih m (hsub m (by simp)) j
        (by rcases m with ⟨nm, mt, o, ro⟩
            simp [sizeIfaceMembers, IfaceMember.size, IfaceMember.type] at hk ⊢
            omega)]
      simp only [Bool.not_true, Bool.false_eq_true, if_false]
      exact ihr (fun x hx => hsub x (by simp [hx])) j
        (by rcases m with ⟨nm, mt, o, ro⟩
            simp [sizeIfaceMembers, IfaceMember.size] at hk ⊢
            have := Ty.size_pos mt
            omega)

theorem isAssignableFuel_refl :
    ∀ (t : Ty), TyWF t → ∀ (n : Nat), 2 * t.size ≤ n →
    isAssignableFuel n t t = true := by
  intro t h
  induction h with
  | number =>
    intro n hn
    cases n with
    | zero => exact absurd hn (by have := Ty.size_pos .number; omega)
    | succ k => simp [isAssignableFuel, Ty.kind]
  | string =>
    intro n hn
    cases n with
    | zero => exact absurd hn (by have := Ty.size_pos .string; omega)
    | succ k => simp [isAssignableFuel, Ty.kind]
  | boolean =>
    intro n hn
    cases n with
    | zero => exact absurd hn (by have := Ty.size_pos .boolean; omega)
    | succ k => simp [isAssignableFuel, Ty.kind]
  | void =>
    intro n hn
    cases n with
    | zero => exact absurd hn (by have := Ty.size_pos .void; omega)
    | succ k => simp [isAssignableFuel, Ty.kind]
  | null =>
    intro n hn
    cases n with
    | zero => exact absurd hn (by have := Ty.size_pos .null; omega)
    | succ k => simp [isAssignableFuel, Ty.kind]
  | undefined =>
    intro n hn
    cases n with
    | zero => exact absurd hn (by have := Ty.size_pos .undefined; omega)
    | succ k => simp [isAssignableFuel, Ty.kind]
  | symbol =>
    intro n hn
    cases n with
    | zero => exact absurd hn (by have := Ty.size_pos .symbol; omega)
    | succ k => simp [isAssignableFuel, Ty.kind]
  | bigint =>
    intro n hn
    cases n with
    | zero => exact absurd hn (by have := Ty.size_pos .bigint; omega)
    | succ k => simp [isAssignableFuel, Ty.kind]
  | literal v =>
    intro n hn
    cases n with
    | zero => exact absurd hn (by have := Ty.size_pos (.literal v); omega)
    | succ k => cases v <;> simp [isAssignableFuel, Ty.kind]
  | union ts =>
    intro n hn
    cases n with
    | zero => exact absurd hn (by have := Ty.size_pos (.union ts); omega)
    | succ k => simp [isAssignableFuel, Ty.kind]
  | intersection ts =>
    intro n hn
    cases n with
    | zero =>
      exact absurd hn (by have := Ty.size_pos (.intersection ts); omega)
    | succ k => simp [isAssignableFuel, Ty.kind]
  | cls name ms sms =>
    intro n hn
    cases n with
    | zero =>
      exact absurd hn (by have := Ty.size_pos (.«class» name ms sms); omega)
    | succ k => simp [isAssignableFuel, Ty.kind]
  | enum name ms =>
    intro n hn
    cases n with
    | zero => exact absurd hn (by have := Ty.size_pos (.enum name ms); omega)
    | succ k => simp [isAssignableFuel, Ty.kind]
  | unknown =>
    intro n hn
    cases n with
    | zero => exact absurd hn (by have := Ty.size_pos .unknown; omega)
    | succ k => simp [isAssignableFuel, Ty.kind]
  | never =>
    intro n hn
    cases n with
    | zero => exact absurd hn (by have := Ty.size_pos .never; omega)
    | succ k => simp [isAssignableFuel, Ty.kind]
  | any =>
    intro n hn
    cases n with
    | zero => exact absurd hn (by have := Ty.size_pos .any; omega)
    | succ k => simp [isAssignableFuel, Ty.kind]
  | array e he ihe =>
    intro n hn
    cases n with
    | zero => exact absurd hn (by have := Ty.size_pos (.array e); omega)
    | succ k =>
      simp [isAssignableFuel, Ty.kind]
      exact ihe k (by simp [Ty.size] at hn; omega)
  | tuple ts hts ih =>
    intro n hn
    cases n with
    | zero => exact absurd hn (by have := Ty.size_pos (.tuple ts); omega)
    | succ k =>
      simp [isAssignableFuel, Ty.kind]
      exact tupleLoop_refl ts ih ts (fun _ h => h) k
        (by simp [Ty.size] at hn; omega)
  | function ps r hps hr ihps ihr =>
    intro n hn
    cases n with
    | zero => exact absurd hn (by have := Ty.size_pos (.function ps r); omega)
    | succ k =>
      simp [isAssignableFuel, Ty.kind]
      simp [Ty.size] at hn
      cases k with
      | zero => omega
      | succ j =>
        rw [isFunctionAssignableFuel]
        rw [ihr j (by have := Ty.size_pos r; omega)]
        simp only [Bool.not_true, Bool.false_eq_true, if_false, lt_irrefl]
        exact paramsLoop_refl ps ihps ps (fun _ h => h) j
          (by have := Ty.size_pos r; omega)
  | interface name ms hnd hms ih =>
    intro n hn
    cases n with
    | zero =>
      exact absurd hn (by have := Ty.size_pos (.interface name ms); omega)
    | succ k =>
      simp [isAssignableFuel, Ty.kind]
      simp [Ty.size] at hn
      exact ifaceLoop_refl ms hnd ih ms (fun _ h => h) k (by omega)

/-- C5: assignability is reflexive: every well-formed type value `T` that
the checker can produce satisfies `isAssignable T T = true`. -/
theorem isAssignable_refl (t : Ty) (h : TyWF t) : isAssignable t t = true :=
  isAssignableFuel_refl t h (t.size + t.size + 1) (by omega)

/-! ## Enum lowering -/

theorem emitEnumMembersLoop_lines :
    ∀ (fuel : Nat) (name : String) (members : List EnumMemberNode)
      (cv : Int) (st : EmitSt),
    members.length ≤ fuel → members.all literalEnumMember = true →
    st.indentLevel = 1 →
    emitEnumMembersLoop fuel name members cv st =
      { st with output := st.output ++ enumMemberLines name members cv } := by
  intro fuel name members
  induction members generalizing fuel with
  | nil =>
    intro cv st hf _ _
    cases fuel with
    | zero => simp [emitEnumMembersLoop, enumMemberLines]
    | succ f => simp [emitEnumMembersLoop, enumMemberLines]
  | cons m rest ih =>
    intro cv st hf hlit hind
    rcases m with ⟨mn, init⟩
    cases fuel with
    | zero => simp at hf
    | succ f =>
      simp only [List.all_cons, Bool.and_eq_true] at hlit
      have hrest := hlit.2
      have hm := hlit.1
      rcases init with _ | e
      · rw [emitEnumMembersLoop]
        rw [ih f]
        · simp [emitLine, enumMemberLines, indentOf, hind, String.join, String.append_assoc]
        · simp at hf; omega
        · exact hrest
        · simp [emitLine, hind]
      · cases e <;> try (simp [literalEnumMember] at hm)
        case numericLiteral v l =>
          rw [emitEnumMembersLoop]
          rw [ih f]
          · simp [emitLine, enumMemberLines, indentOf, hind, String.join, String.append_assoc]
          · simp at hf; omega
          · exact hrest
          · simp [emitLine, hind]
        case stringLiteral sv l =>
          rw [emitEnumMembersLoop]
          rw [ih f]
          · simp [emitLine, enumMemberLines, indentOf, hind, String.join, String.append_assoc]
          · simp at hf; omega
          · exact hrest
          · simp [emitLine, hind]

theorem sizeEnumMembers_ge_length :
    ∀ (ms : List EnumMemberNode), ms.length ≤ sizeEnumMembers ms
  | [] => Nat.le_refl 0
  | m :: rest => by
    simp only [List.length_cons, sizeEnumMembers]
    have := sizeEnumMembers_ge_length rest
    omega

/-- C6: a non-const enum declaration lowers to `var N;` followed by an
IIFE over `N` whose body holds, per member in order, the two-way numeric
assignment (with auto-increment from 0) or the one-way string
assignment. -/
theorem emit_enum_lowering (name : String) (members : List EnumMemberNode)
    (line : Nat) (hlit : members.all literalEnumMember = true) :
    emit ⟨[.enumDeclaration name members false line]⟩ =
      "var " ++ name ++ ";\n" ++
      "(function (" ++ name ++ ") \x7b\n" ++
      enumMemberLines name members 0 ++
      "\x7d)(" ++ name ++ " || (" ++ name ++ " = \x7b\x7d));\n" := by
  have hsz : 3 * Program.size ⟨[.enumDeclaration name members false line]⟩ + 8
      = (3 * sizeEnumMembers members + 15) + 2 := by
    simp [Program.size, sizeStmts, Stmt.size]
    ring
  rw [emit]
  rw [hsz]
  rw [emitStatementsLoop]
  rw [emitStatement]
  rw [emitStatementsLoop]
  rw [emitEnumDeclaration]
  rw [if_neg (by simp)]
  dsimp only
  rw [emitEnumMembersLoop_lines (3 * sizeEnumMembers members + 14) name
    members 0 _ (by have := sizeEnumMembers_ge_length members; omega) hlit
    (by simp [emitLine])]
  simp [emitLine, indentOf, String.join, String.append_assoc]
  rfl

/-! ## The claims -/

/-- C1: `isAssignable` rejects a source of type `string` against a union
of string-literal types: the string-to-literal-union relaxation branch is
unreachable behind the earlier union-target case, so the assignment is
flagged rather than permitted. -/
theorem string_to_literal_union_rejected :
    isAssignable .string
      (.union [.literal (.str "a"), .literal (.str "b")]) = false := rfl

/-- C2: diagnostics accumulate append-only and therefore appear in
discovery order: checking a statement or a statement list only extends the
error list, and the list `check` returns extends the diagnostics already
discovered by the four hoisting pre-passes.  (Discovery order is not
line-sorted order; see `errors_not_line_sorted`.) -/
theorem errors_discovery_order :
    (∀ (n : Nat) (stmt : Stmt) (s : CheckerSt),
      s.errors <+: (checkStatement n stmt s).errors) ∧
    (∀ (n : Nat) (stmts : List Stmt) (s : CheckerSt),
      s.errors <+: (checkStatements n stmts s).errors) ∧
    (∀ (n : Nat) (p : Program) (s : CheckerSt),
      (pass4Loop n p.statements
          (pass3Loop n p.statements
            (pass2Loop n p.statements
              (pass1Loop n p.statements { s with errors := [] })))).errors <+:
        (check n p s).2) := by
  refine ⟨checkStatement_errs, checkStatements_errs, ?_⟩
  intro n p s
  rw [check]
  exact checkStatements_errs n p.statements _

/-- The pre-passes report a line-2 diagnostic before statement checking
reports a line-1 diagnostic, so `typeCheck` output is not in
non-decreasing line order. -/
theorem errors_not_line_sorted :
    ¬ ((typeCheck c2Program).map CompilerError.line).Pairwise (· ≤ ·) := by
  have h : (typeCheck c2Program).map CompilerError.line = [2, 1] := rfl
  rw [h]
  decide

/-- C3: the checked type of a conditional expression is `createUnionType`
of the two branch types verbatim; `createUnionType` wraps its argument
list as-is and performs no flattening of same-kind arms. -/
theorem conditional_type_verbatim_union (n : Nat) (c t e : Expr) (line : Nat) (s : CheckerSt) :
    (checkExpression (n + 1) (.conditionalExpression c t e line) s).2 =
      createUnionType
        [(checkExpression n t (checkExpression n c s).1).2,
         (checkExpression n e
            (checkExpression n t (checkExpression n c s).1).1).2] := by
  rw [checkExpression]

/-- A conditional with a `??` branch checks to a union with a nested
union arm: checker-produced unions are not flat. -/
theorem conditional_nested_union :
    checkExprType c3Expr = .union [.union [.number, .string], .boolean] := rfl

/-- `tokenize "/*"` succeeds, refuting the claimed lexical error. -/
theorem tokenize_lone_comment_opener_ok : tokenize "/*" = .ok [⟨.EOF, "", 1, 3⟩] := rfl

theorem tokenize_unterminated_block_comment_witness :
    ∃ ln col, tokenize ("/*" ++ " x") = .ok [⟨.EOF, "", ln, col⟩] :=
  tokenize_unterminated_block_comment " x" (by decide)

theorem isAssignable_refl_witness : isAssignable c5Ty c5Ty = true :=
  isAssignable_refl c5Ty
    (TyWF.interface "Point" _ (by decide)
      (by
        intro m hm
        simp [c5Ty] at hm
        rcases hm with rfl | rfl
        · exact TyWF.number
        · exact TyWF.array _ TyWF.string))

theorem emit_enum_lowering_witness :
    emit ⟨[.enumDeclaration "Color" c6Members false 1]⟩ =
      "var " ++ "Color" ++ ";\n" ++
      "(function (" ++ "Color" ++ ") \x7b\n" ++
      enumMemberLines "Color" c6Members 0 ++
      "\x7d)(" ++ "Color" ++ " || (" ++ "Color" ++ " = \x7b\x7d));\n" :=
  emit_enum_lowering "Color" c6Members 1 (by decide)

/-- C7: at a call whose callee checks to a function type, the arity
diagnostics inserted between the callee diagnostics and the argument
diagnostics are exactly: `Expected at least <required>` when the argument
count is below the count of non-optional non-rest parameters, otherwise
`Expected at most <n>` when there is no rest parameter and the argument
count exceeds the parameter count, otherwise none. -/
theorem call_arity_diagnostics (n : Nat) (callee : Expr) (args : List Expr) (line : Nat)
    (s : CheckerSt) (ps : List FnParam) (ret : Ty)
    (hfn : (checkExpression n callee s).2 = .function ps ret) :
    ∃ tail,
      (checkCallExpression (n + 1) callee args line s).1.errors =
        (checkExpression n callee s).1.errors ++
          (if args.length <
              (ps.filter
                (fun p => !p.optional && !(strStartsWith p.name "..."))).length
           then
             [⟨"Expected at least " ++
                 toString
                   (ps.filter
                     (fun p => !p.optional &&
                       !(strStartsWith p.name "..."))).length ++
                 " arguments, but got " ++ toString args.length, line⟩]
           else if !(ps.any fun p => strStartsWith p.name "...") &&
               args.length > ps.length
           then
             [⟨"Expected at most " ++ toString ps.length ++
                 " arguments, but got " ++ toString args.length, line⟩]
           else []) ++ tail := by
  rcases hE : checkExpression n callee s with ⟨s1, cty⟩
  rw [hE] at hfn
  dsimp only at hfn
  subst hfn
  rw [checkCallExpression]
  rw [hE]
  dsimp only
  rw [if_neg (by simp [Ty.kind])]
  rw [if_neg (by simp [Ty.kind])]
  dsimp only
  obtain ⟨tail, htail⟩ := checkCallArgs_errs n args ps
    (if ps.any (fun p => strStartsWith p.name "...") then
      min args.length (ps.length - 1) else min args.length ps.length) line
    (if args.length <
        (ps.filter
          (fun p => !p.optional && !(strStartsWith p.name "..."))).length then
      addError ("Expected at least " ++
        toString (ps.filter
          (fun p => !p.optional && !(strStartsWith p.name "..."))).length ++
        " arguments, but got " ++ toString args.length) line s1
     else if !(ps.any fun p => strStartsWith p.name "...") &&
        args.length > ps.length then
      addError ("Expected at most " ++ toString ps.length ++
        " arguments, but got " ++ toString args.length) line s1
     else s1)
  refine ⟨tail, ?_⟩
  rw [← htail]
  split <;> [skip; split] <;> simp [addError]

theorem call_arity_diagnostics_witness :
    ∃ tail,
      (checkCallExpression (9 + 1) c7Callee [.numericLiteral 5 1] 1
          initialCheckerSt).1.errors =
        (checkExpression 9 c7Callee initialCheckerSt).1.errors ++
          (if [Expr.numericLiteral 5 1].length <
              ([FnParam.mk "a" .any false, FnParam.mk "b" .any false].filter
                (fun p => !p.optional && !(strStartsWith p.name "..."))).length
           then
             [⟨"Expected at least " ++
                 toString
                   ([FnParam.mk "a" .any false,
                     FnParam.mk "b" .any false].filter
                     (fun p => !p.optional &&
                       !(strStartsWith p.name "..."))).length ++
                 " arguments, but got " ++
                 toString [Expr.numericLiteral 5 1].length, 1⟩]
           else if !([FnParam.mk "a" .any false,
                 FnParam.mk "b" .any false].any
                 fun p => strStartsWith p.name "...") &&
               [Expr.numericLiteral 5 1].length >
                 [FnParam.mk "a" .any false, FnParam.mk "b" .any false].length
           then
             [⟨"Expected at most " ++
                 toString [FnParam.mk "a" .any false,
                   FnParam.mk "b" .any false].length ++
                 " arguments, but got " ++
                 toString [Expr.numericLiteral 5 1].length, 1⟩]
           else []) ++ tail :=
  call_arity_diagnostics 9 c7Callee [.numericLiteral 5 1] 1 initialCheckerSt
    [FnParam.mk "a" .any false, FnParam.mk "b" .any false] .number rfl

/-- C8: the emitter interpolates an import path verbatim into double
quotes, so a successfully parsed import whose path contains a double quote
emits output the lexer rejects: the parse-emit round-trip fails. -/
theorem emitted_import_not_retokenizable :
    tokenize "import \"a\\\"b\";" =
      .ok [⟨.Import, "import", 1, 1⟩, ⟨.StringLiteral, "a\"b", 1, 8⟩,
           ⟨.Semicolon, ";", 1, 14⟩, ⟨.EOF, "", 1, 15⟩] ∧
    Parser.parseImportDeclaration
        [⟨.Import, "import", 1, 1⟩, ⟨.StringLiteral, "a\"b", 1, 8⟩,
         ⟨.Semicolon, ";", 1, 14⟩, ⟨.EOF, "", 1, 15⟩] 0 =
      .ok (.importDeclaration [] "a\"b" false 1, 3) ∧
    emit ⟨[.importDeclaration [] "a\"b" false 1]⟩ = "import \"a\"b\";\n" ∧
    tokenize "import \"a\"b\";\n" = .error "Unterminated string at line 1" :=
  ⟨rfl, rfl, rfl, rfl⟩

/-- C9: when source and target have the same kind and that kind is not
interface, array, tuple or function, `isAssignable` returns true
regardless of the content of either type. -/
theorem same_kind_assignable_unconditionally (S T : Ty) (h : S.kind = T.kind)
    (h1 : S.kind ≠ "interface") (h2 : S.kind ≠ "array")
    (h3 : S.kind ≠ "tuple") (h4 : S.kind ≠ "function") :
    isAssignable S T = true := by
  cases S <;> cases T <;> simp_all [isAssignable, isAssignableFuel, Ty.kind]

theorem same_kind_assignable_unconditionally_witness : isAssignable (.literal (.str "a")) (.literal (.str "b")) = true :=
  same_kind_assignable_unconditionally _ _ rfl (by decide) (by decide) (by decide) (by decide)

/-- C10: a variable declaration whose name already has a local binding in
the current scope emits the already-declared diagnostic and leaves the
environment (hence every subsequent lookup) unchanged. -/
theorem redeclaration_keeps_binding (n : Nat) (name varKind : String) (typeAnn : Option TypeNode)
    (initializer : Option Expr) (line : Nat) (s : CheckerSt)
    (h : Env.hasLocal name s.env = true) :
    (checkVariableDeclaration (n + 1) name varKind typeAnn initializer line
        s).env = s.env ∧
    Env.lookup name
        (checkVariableDeclaration (n + 1) name varKind typeAnn initializer
          line s).env = Env.lookup name s.env ∧
    ∃ es,
      (checkVariableDeclaration (n + 1) name varKind typeAnn initializer line
          s).errors =
        s.errors ++ es ++
          [⟨"Variable '" ++ name ++ "' is already declared in this scope",
            line⟩] := by
  rcases typeAnn with _ | ta <;> rcases initializer with _ | e <;>
    rw [checkVariableDeclaration] <;> dsimp only
  · rw [if_pos h]
    refine ⟨rfl, rfl, [], ?_⟩
    simp [addError]
  · have henv := checkExpression_env n e s
    obtain ⟨es, hes⟩ := checkExpression_errs n e s
    rw [if_pos (henv ▸ h)]
    refine ⟨by simp [addError, henv], by simp [addError, henv], es, ?_⟩
    simp [addError, ← hes]
  · have henv := resolveTypeNode_env n ta s
    obtain ⟨es, hes⟩ := resolveTypeNode_errs n ta s
    rw [if_pos (henv ▸ h)]
    refine ⟨by simp [addError, henv], by simp [addError, henv], es, ?_⟩
    simp [addError, ← hes]
  · have henv1 := resolveTypeNode_env n ta s
    obtain ⟨es1, hes1⟩ := resolveTypeNode_errs n ta s
    have henv2 := checkExpression_env n e (resolveTypeNode n ta s).1
    obtain ⟨es2, hes2⟩ :=
      checkExpression_errs n e (resolveTypeNode n ta s).1
    split
    · rw [if_pos (by simp [addError]; rw [henv2, henv1]; exact h)]
      refine ⟨by simp [addError, henv2, henv1],
        by simp [addError, henv2, henv1],
        es1 ++ es2 ++
          [⟨"Type '" ++
              typeToString (checkExpression n e (resolveTypeNode n ta s).1).2 ++
              "' is not assignable to type '" ++
              typeToString (resolveTypeNode n ta s).2 ++ "'", line⟩], ?_⟩
      simp [addError, ← hes2, ← hes1]
    · rw [if_pos (by rw [henv2, henv1]; exact h)]
      refine ⟨by simp [addError, henv2, henv1],
        by simp [addError, henv2, henv1], es1 ++ es2, ?_⟩
      simp [addError, ← hes2, ← hes1]

theorem redeclaration_keeps_binding_witness :
    (checkVariableDeclaration (0 + 1) "x" "let" none none 1 c10St).env =
        c10St.env ∧
    Env.lookup "x"
        (checkVariableDeclaration (0 + 1) "x" "let" none none 1 c10St).env =
      Env.lookup "x" c10St.env ∧
    ∃ es,
      (checkVariableDeclaration (0 + 1) "x" "let" none none 1 c10St).errors =
        c10St.errors ++ es ++
          [⟨"Variable '" ++ "x" ++ "' is already declared in this scope",
            1⟩] :=
  redeclaration_keeps_binding 0 "x" "let" none none 1 c10St rfl

end MiniTs
